import Mathlib

/-!
# Wait-queue coordinators of `os_wcdb.c` and provider registry of `crypto_custom.c`

A shallow embedding of the two wait-queue coordinators of `src/os_wcdb.c`
(file locks: `WCDBSignal`, `WCDBTrySignal`, `WCDBWait`; shared-memory region
locks: `WCDBShmSignal`, `WCDBShmTrySignal`, `WCDBShmWait`) and of the provider
registry of `src/crypto_custom.c` (`select_provider`,
`sqlcipher_register_custom_provider`, `sqlcipher_unregister_custom_provider`,
`sqlcipher_custom_set_cipher` and four of the dispatching operations), and
theorems about them.

Conventions of the embedding.

* C `int` values are `Int`, `unsigned char` and `u16` values are `Nat`; every
  comparison of the source is made after integer promotion, so no wrap-around
  can occur in the modelled code.
* A `unixFile*` is a handle (`Nat`) into a heap `files : Nat → unixFile`; a
  wait record keeps the handle, so the lock level of a waiter's file is read at
  the time `WCDBTrySignal` runs, as in the source.
* The wait queue is a `List`, front first.  The `pNext`-linked list of
  `unixShm` holders of a shm node is a `List`, first holder first.
* `pthreadCondSignal` is recorded: every operation returns, next to the new
  state, the list of records whose thread it signalled, in the order of the
  calls.
* The `do … while` loops run on fuel; `WCDBTrySignal` and `WCDBShmTrySignal`
  supply `length of the queue + 1`, which is proved to be enough.
* A run of a coordinator is a list of events applied in order (`runFile`,
  `runShm`); it also records every record signalled and every record created
  so far.
* `WCDBWait` and `WCDBShmWait` give the queue as the caller's own statements
  leave it.  `WCDBWait_suspended` and `WCDBShmWait_suspended` are the calls
  from entry to return: they add the events of the other threads while the
  caller is suspended in `pthreadCondWait`, whose result follows from the
  handles signalled meanwhile.
* The provider list is the `List` of the slots below `custom_providers_count`;
  names are strings and `strcmp(a, b) == 0` is equality; allocation results are
  inputs of the calls.
-/

namespace WCDB

/-! ## Constants -/

/-- Modelled from the spec: the result code `SQLITE_OK` of `sqlite3.h`, which is
not under `src/`. -/
def SQLITE_OK : Int := 0

/-- Modelled from the spec: the result code `SQLITE_BUSY` ("resource busy") of
`sqlite3.h`, which is not under `src/`. -/
def SQLITE_BUSY : Int := 5

/-- Modelled from the spec: the log code `SQLITE_WARNING` of `sqlite3.h`, which is
not under `src/`. -/
def SQLITE_WARNING : Int := 28

/-- Modelled from the spec: the graded file-lock levels
`NONE < SHARED < RESERVED < PENDING < EXCLUSIVE` are declared in SQLite's
`os.h`, which is not under `src/`; they are numbered 0 to 4 in that order. -/
def NO_LOCK : Int := 0

/-- Modelled from the spec: lock level `SHARED`, see `NO_LOCK`. -/
def SHARED_LOCK : Int := 1

/-- Modelled from the spec: lock level `RESERVED`, see `NO_LOCK`. -/
def RESERVED_LOCK : Int := 2

/-- Modelled from the spec: lock level `PENDING`, see `NO_LOCK`. -/
def PENDING_LOCK : Int := 3

/-- Modelled from the spec: lock level `EXCLUSIVE`, see `NO_LOCK`. -/
def EXCLUSIVE_LOCK : Int := 4

/-- The wait kind `SQLITE_WAIT_NONE` of `os_wcdb.h`. -/
def SQLITE_WAIT_NONE : Int := 0

/-- The wait kind `SQLITE_WAIT_EXCLUSIVE` of `os_wcdb.h`. -/
def SQLITE_WAIT_EXCLUSIVE : Int := 1

/-- The wait kind `SQLITE_WAIT_SHARED` of `os_wcdb.h`. -/
def SQLITE_WAIT_SHARED : Int := 2

/-- Modelled from the spec: the two-valued region-lock flag, value `SHARED`; the
constant `SQLITE_SHM_SHARED` is declared in `sqlite3.h`, which is not under
`src/`. -/
def SQLITE_SHM_SHARED : Int := 4

/-- Modelled from the spec: the two-valued region-lock flag, value `EXCLUSIVE`;
the constant `SQLITE_SHM_EXCLUSIVE` is declared in `sqlite3.h`, which is not
under `src/`. -/
def SQLITE_SHM_EXCLUSIVE : Int := 8

/-! ## Data model -/

/-- The struct `WCDBWaitInfo` of `os_wcdb.h`: a file-lock wait record. -/
structure WCDBWaitInfo where
  /-- the handle of the waiting thread -/
  pThread : Nat
  /-- the lock level passed to `WCDBWait` -/
  eFileLock : Int
  /-- the wait kind passed to `WCDBWait` -/
  eFlag : Int
  /-- the handle of the waiter's file -/
  pFile : Nat
deriving DecidableEq

/-- The struct `WCDBShmWaitInfo` of `os_wcdb.h`: a region-lock wait record. -/
structure WCDBShmWaitInfo where
  /-- the handle of the waiting thread -/
  pThread : Nat
  /-- the region mask passed to `WCDBShmWait` -/
  oMask : Int
  /-- the flag passed to `WCDBShmWait` -/
  eFlag : Int
  /-- the handle of the waiter's file -/
  pFile : Nat
deriving DecidableEq

/-- Modelled from the spec: a holder of region locks (`unixShm`, declared in
`os_unix.c`, not under `src/`), "each carrying an exclusive-mask and a
shared-mask"; both are `u16` in the source. -/
structure unixShm where
  /-- the regions held exclusively -/
  exclMask : Nat
  /-- the regions held shared -/
  sharedMask : Nat
deriving DecidableEq

/-- Modelled from the spec: a connection object (`unixFile`, declared in
`os_unix.c`, not under `src/`), as far as the accessors `WCDBFileGetFileLock`
and `WCDBFileGetShm` read it. -/
structure unixFile where
  /-- the file-lock level the connection holds (`unsigned char`) -/
  eFileLock : Nat
  /-- the connection's region-lock holder entry -/
  pShm : unixShm
deriving DecidableEq

/-- Modelled from the spec: the inode entry (`unixInodeInfo`, declared in
`os_unix.c`, not under `src/`), as far as the accessors `WCDBInodeGetFileLock`,
`WCDBInodeGetShared` and `WCDBInodeGetWaitQueue` read it. -/
structure unixInodeInfo where
  /-- the current lock level of the resource -/
  eFileLock : Int
  /-- the number of sharers (`unsigned char`) -/
  nShared : Nat
  /-- the wait queue, front first -/
  waitQueue : List WCDBWaitInfo
deriving DecidableEq

/-- Modelled from the spec: the shm node (`unixShmNode`, declared in
`os_unix.c`, not under `src/`), as far as the accessors `WCDBShmNodeGetShm` and
`WCDBShmNodeGetWaitQueue` read it. -/
structure unixShmNode where
  /-- the holder list, in `pNext` order -/
  pFirst : List unixShm
  /-- the wait queue, front first -/
  waitQueue : List WCDBShmWaitInfo
deriving DecidableEq

/-- What the environment hands to one `WCDBWait` or `WCDBShmWait` call. -/
structure WaitEnv where
  /-- the thread handle `pthreadAlloc` and `pthreadSelf` produce -/
  self : Nat
  /-- the result of `pthreadIsMain()` -/
  isMain : Bool
  /-- whether `sqlite3_malloc` returns a record (not `NULL`) -/
  mallocOk : Bool
  /-- whether `pthreadCondWait` returns `ETIMEDOUT` -/
  timedOut : Bool
deriving DecidableEq

/-! ## The generic wait queue -/

/-- Modelled from the spec: `sqlite3QueueFront` of `queue.c` (not under `src/`),
"peek-front (no removal)"; `none` is the `NULL` of an empty queue. -/
def sqlite3QueueFront {α : Type} (q : List α) : Option α :=
  q.head?

/-- Modelled from the spec: `sqlite3QueuePop` of `queue.c` (not under `src/`),
"pop-front (FIFO removal)": the popped record (`none` on an empty queue) and the
queue that is left. -/
def sqlite3QueuePop {α : Type} (q : List α) : Option α × List α :=
  match q with
  | [] => (none, [])
  | x :: rest => (some x, rest)

/-- Modelled from the spec: `sqlite3QueuePush` of `queue.c` (not under `src/`),
"push-back (normal)". -/
def sqlite3QueuePush {α : Type} (q : List α) (x : α) : List α :=
  q ++ [x]

/-- Modelled from the spec: `sqlite3QueuePushFront` of `queue.c` (not under
`src/`), "push-front (priority)". -/
def sqlite3QueuePushFront {α : Type} (q : List α) (x : α) : List α :=
  x :: q

/-! ## Accessors -/

/-- Modelled from the spec: accessor of `os_unix.c` (not under `src/`) returning
the resource's wait queue. -/
def WCDBInodeGetWaitQueue (pInode : unixInodeInfo) : List WCDBWaitInfo :=
  pInode.waitQueue

/-- Modelled from the spec: accessor of `os_unix.c` (not under `src/`) returning
the resource's sharer count. -/
def WCDBInodeGetShared (pInode : unixInodeInfo) : Nat :=
  pInode.nShared

/-- Modelled from the spec: accessor of `os_unix.c` (not under `src/`) returning
the resource's current lock level. -/
def WCDBInodeGetFileLock (pInode : unixInodeInfo) : Int :=
  pInode.eFileLock

/-- Modelled from the spec: accessor of `os_unix.c` (not under `src/`) returning
the lock level a connection holds. -/
def WCDBFileGetFileLock (files : Nat → unixFile) (pFile : Nat) : Nat :=
  (files pFile).eFileLock

/-- Modelled from the spec: accessor of `os_unix.c` (not under `src/`) returning
a connection's region-lock holder entry. -/
def WCDBFileGetShm (files : Nat → unixFile) (pFile : Nat) : unixShm :=
  (files pFile).pShm

/-- Modelled from the spec: accessor of `os_unix.c` (not under `src/`) returning
the shm node's wait queue. -/
def WCDBShmNodeGetWaitQueue (pShmNode : unixShmNode) : List WCDBShmWaitInfo :=
  pShmNode.waitQueue

/-- Modelled from the spec: accessor of `os_unix.c` (not under `src/`) returning
the shm node's holder list. -/
def WCDBShmNodeGetShm (pShmNode : unixShmNode) : List unixShm :=
  pShmNode.pFirst

/-- Modelled from the spec: accessor of `os_unix.c` (not under `src/`) returning
a holder's exclusive-mask. -/
def WCDBShmGetExclMask (pShm : unixShm) : Nat :=
  pShm.exclMask

/-- Modelled from the spec: accessor of `os_unix.c` (not under `src/`) returning
a holder's shared-mask. -/
def WCDBShmGetSharedMask (pShm : unixShm) : Nat :=
  pShm.sharedMask

/-! ## File-lock coordinator -/

/-- `WCDBSignal`: pop the front record and signal its thread.  Returns the inode
with the new queue and the records signalled (none on an empty queue). -/
def WCDBSignal (pInode : unixInodeInfo) : unixInodeInfo × List WCDBWaitInfo :=
  match sqlite3QueuePop (WCDBInodeGetWaitQueue pInode) with
  | (some pWaitInfo, q) => ({ pInode with waitQueue := q }, [pWaitInfo])
  | (none, q) => ({ pInode with waitQueue := q }, [])

/-- The `switch (eFlag)` of the loop body of `WCDBTrySignal`: the value of `rc`
for the front record `pWaitInfo`. -/
def WCDBTrySignal_rc (files : Nat → unixFile) (pInode : unixInodeInfo)
    (pWaitInfo : WCDBWaitInfo) : Int :=
  let eFlag := pWaitInfo.eFlag
  let eFileLock := pWaitInfo.eFileLock
  let pFile := pWaitInfo.pFile
  if eFlag = SQLITE_WAIT_SHARED then
    if ((WCDBFileGetFileLock files pFile : Int) ≠ WCDBInodeGetFileLock pInode ∧
        (WCDBInodeGetFileLock pInode ≥ PENDING_LOCK ∨ eFileLock > SHARED_LOCK)) then
      SQLITE_BUSY
    else
      SQLITE_OK
  else if eFlag = SQLITE_WAIT_EXCLUSIVE then
    if eFileLock = EXCLUSIVE_LOCK ∧ WCDBInodeGetShared pInode > 1 then
      SQLITE_BUSY
    else
      SQLITE_OK
  else
    SQLITE_BUSY

/-- The `do … while (rc==SQLITE_OK)` loop of `WCDBTrySignal`, one iteration per
unit of fuel; `none` when the fuel runs out. -/
def WCDBTrySignal_loop (files : Nat → unixFile) :
    Nat → unixInodeInfo → Option (unixInodeInfo × List WCDBWaitInfo)
  | 0, _ => none
  | fuel + 1, pInode =>
    match sqlite3QueueFront (WCDBInodeGetWaitQueue pInode) with
    | none => some (pInode, [])
    | some pWaitInfo =>
      if WCDBTrySignal_rc files pInode pWaitInfo = SQLITE_OK then
        match WCDBTrySignal_loop files fuel (WCDBSignal pInode).1 with
        | none => none
        | some (pInode', woken) => some (pInode', (WCDBSignal pInode).2 ++ woken)
      else
        some (pInode, [])

/-- `WCDBTrySignal`: the inode after the call and the records signalled, in the
order of the `pthreadCondSignal` calls. -/
def WCDBTrySignal (files : Nat → unixFile) (pInode : unixInodeInfo) :
    Option (unixInodeInfo × List WCDBWaitInfo) :=
  WCDBTrySignal_loop files ((WCDBInodeGetWaitQueue pInode).length + 1) pInode

/-- The outcome of one `WCDBWait` call. -/
structure WaitResult where
  /-- the inode after the call -/
  pInode : unixInodeInfo
  /-- the records whose thread the call signalled -/
  woken : List WCDBWaitInfo
  /-- whether the caller entered `pthreadCondWait` -/
  blocked : Bool
  /-- the `sqlite3_log` calls made -/
  log : List (Int × String)
deriving DecidableEq

/-- `WCDBWait`.  `none` is the store through the `NULL` pointer that
`sqlite3_malloc` returned, which the source does not test for.  The inode of
the result is the inode as the caller's own statements leave it; what other
threads do to the queue while the caller is suspended in `pthreadCondWait` is
added by `WCDBWait_suspended`. -/
def WCDBWait (env : WaitEnv) (pInode : unixInodeInfo) (pFile : Nat)
    (eFileLock eFlag : Int) : Option WaitResult :=
  let preempt : Bool :=
    match sqlite3QueueFront (WCDBInodeGetWaitQueue pInode) with
    | some lastInfo =>
      decide ((eFileLock = EXCLUSIVE_LOCK ∧ lastInfo.eFileLock > SHARED_LOCK)
        ∨ (lastInfo.eFileLock = EXCLUSIVE_LOCK ∧ eFileLock > SHARED_LOCK))
    | none => false
  if preempt then
    some { pInode := (WCDBSignal pInode).1, woken := (WCDBSignal pInode).2,
           blocked := false, log := [] }
  else if env.mallocOk then
    let info : WCDBWaitInfo :=
      { eFlag := eFlag, eFileLock := eFileLock, pFile := pFile, pThread := env.self }
    let q :=
      if env.isMain then sqlite3QueuePushFront (WCDBInodeGetWaitQueue pInode) info
      else sqlite3QueuePush (WCDBInodeGetWaitQueue pInode) info
    some { pInode := { pInode with waitQueue := q }, woken := [], blocked := true,
           log := if env.timedOut then [(SQLITE_WARNING, "Wait Failed With Timeout")] else [] }
  else
    none

/-! ## Region-lock coordinator -/

/-- The C expression `mask & oMask` for a `u16` mask and an `int` region mask:
the mask is promoted to `int` and the two are combined bit by bit. -/
def maskAnd (mask : Nat) (oMask : Int) : Int :=
  Int.land (mask : Int) oMask

/-- `WCDBShmSignal`: pop the front record and signal its thread.  Returns the shm
node with the new queue and the records signalled (none on an empty queue). -/
def WCDBShmSignal (pShmNode : unixShmNode) : unixShmNode × List WCDBShmWaitInfo :=
  match sqlite3QueuePop (WCDBShmNodeGetWaitQueue pShmNode) with
  | (some pInfo, q) => ({ pShmNode with waitQueue := q }, [pInfo])
  | (none, q) => ({ pShmNode with waitQueue := q }, [])

/-- The `for` loop over the holder list in `case SQLITE_SHM_SHARED` of
`WCDBShmTrySignal`, entered with `rc = SQLITE_OK`: the value of `rc` after it. -/
def WCDBShmTrySignal_sharedLoop (oMask : Int) : List unixShm → Int
  | [] => SQLITE_OK
  | pX :: rest =>
    if maskAnd (WCDBShmGetExclMask pX) oMask ≠ 0 then SQLITE_BUSY
    else WCDBShmTrySignal_sharedLoop oMask rest

/-- The `for` loop over the holder list in `case SQLITE_SHM_EXCLUSIVE` of
`WCDBShmTrySignal`, entered with `rc = SQLITE_OK`: the value of `rc` after it. -/
def WCDBShmTrySignal_exclLoop (oMask : Int) : List unixShm → Int
  | [] => SQLITE_OK
  | pX :: rest =>
    if maskAnd (WCDBShmGetExclMask pX) oMask ≠ 0 ∨ maskAnd (WCDBShmGetSharedMask pX) oMask ≠ 0 then
      SQLITE_BUSY
    else WCDBShmTrySignal_exclLoop oMask rest

/-- The `switch (eFlag)` of the loop body of `WCDBShmTrySignal`: the value of
`rc` for the front record `pInfo`. -/
def WCDBShmTrySignal_rc (pShmNode : unixShmNode) (pInfo : WCDBShmWaitInfo) : Int :=
  let eFlag := pInfo.eFlag
  let oMask := pInfo.oMask
  if eFlag = SQLITE_SHM_SHARED then
    WCDBShmTrySignal_sharedLoop oMask (WCDBShmNodeGetShm pShmNode)
  else if eFlag = SQLITE_SHM_EXCLUSIVE then
    WCDBShmTrySignal_exclLoop oMask (WCDBShmNodeGetShm pShmNode)
  else
    SQLITE_BUSY

/-- The `do … while (rc==SQLITE_OK)` loop of `WCDBShmTrySignal`, one iteration
per unit of fuel; `none` when the fuel runs out. -/
def WCDBShmTrySignal_loop :
    Nat → unixShmNode → Option (unixShmNode × List WCDBShmWaitInfo)
  | 0, _ => none
  | fuel + 1, pShmNode =>
    match sqlite3QueueFront (WCDBShmNodeGetWaitQueue pShmNode) with
    | none => some (pShmNode, [])
    | some pInfo =>
      if WCDBShmTrySignal_rc pShmNode pInfo = SQLITE_OK then
        match WCDBShmTrySignal_loop fuel (WCDBShmSignal pShmNode).1 with
        | none => none
        | some (pShmNode', woken) => some (pShmNode', (WCDBShmSignal pShmNode).2 ++ woken)
      else
        some (pShmNode, [])

/-- `WCDBShmTrySignal`: the shm node after the call and the records signalled,
in the order of the `pthreadCondSignal` calls. -/
def WCDBShmTrySignal (pShmNode : unixShmNode) :
    Option (unixShmNode × List WCDBShmWaitInfo) :=
  WCDBShmTrySignal_loop ((WCDBShmNodeGetWaitQueue pShmNode).length + 1) pShmNode

/-- The outcome of one `WCDBShmWait` call. -/
structure ShmWaitResult where
  /-- the shm node after the call -/
  pShmNode : unixShmNode
  /-- the records whose thread the call signalled -/
  woken : List WCDBShmWaitInfo
  /-- whether the caller entered `pthreadCondWait` -/
  blocked : Bool
  /-- the `sqlite3_log` calls made -/
  log : List (Int × String)
deriving DecidableEq

/-- `WCDBShmWait`.  `none` is the store through the `NULL` pointer that
`sqlite3_malloc` returned, which the source does not test for.  The shm node of
the result is the node as the caller's own statements leave it; what other
threads do to the queue while the caller is suspended in `pthreadCondWait` is
added by `WCDBShmWait_suspended`. -/
def WCDBShmWait (files : Nat → unixFile) (env : WaitEnv) (pShmNode : unixShmNode)
    (pFile : Nat) (oMask eFlag : Int) : Option ShmWaitResult :=
  let preempt : Bool :=
    match sqlite3QueueFront (WCDBShmNodeGetWaitQueue pShmNode) with
    | some lastInfo =>
      if lastInfo.eFlag = SQLITE_SHM_EXCLUSIVE
          ∧ (maskAnd (WCDBShmGetExclMask (WCDBFileGetShm files pFile)) lastInfo.oMask ≠ 0
            ∨ maskAnd (WCDBShmGetSharedMask (WCDBFileGetShm files pFile)) lastInfo.oMask ≠ 0) then
        true
      else if eFlag = SQLITE_SHM_EXCLUSIVE
          ∧ (maskAnd (WCDBShmGetExclMask (WCDBFileGetShm files lastInfo.pFile)) oMask ≠ 0
            ∨ maskAnd (WCDBShmGetSharedMask (WCDBFileGetShm files lastInfo.pFile)) oMask ≠ 0) then
        true
      else
        false
    | none => false
  if preempt then
    some { pShmNode := (WCDBShmSignal pShmNode).1, woken := (WCDBShmSignal pShmNode).2,
           blocked := false, log := [] }
  else if env.mallocOk then
    let info : WCDBShmWaitInfo :=
      { eFlag := eFlag, oMask := oMask, pFile := pFile, pThread := env.self }
    let q :=
      if env.isMain then sqlite3QueuePushFront (WCDBShmNodeGetWaitQueue pShmNode) info
      else sqlite3QueuePush (WCDBShmNodeGetWaitQueue pShmNode) info
    some { pShmNode := { pShmNode with waitQueue := q }, woken := [], blocked := true,
           log := if env.timedOut then [(SQLITE_WARNING, "Wait Failed With Timeout")] else [] }
  else
    none

/-! ## Vocabulary of the statements -/

/-- A `u16` mask and an `int` region mask intersect: some region (bit position)
is in both. -/
def maskIntersects (mask : Nat) (oMask : Int) : Prop :=
  ∃ i : Nat, mask.testBit i = true ∧ oMask.testBit i = true

/-- The conflict rule in the words of the spec ("the same mask rules" as
`TrySignal`): a `SHARED` request with mask `oMask` conflicts with a holder whose
exclusive-mask intersects it, an `EXCLUSIVE` request with a holder whose
exclusive-mask or shared-mask intersects it. -/
def requestConflicts (eFlag oMask : Int) (holder : unixShm) : Prop :=
  (eFlag = SQLITE_SHM_SHARED ∧ maskIntersects (WCDBShmGetExclMask holder) oMask)
  ∨ (eFlag = SQLITE_SHM_EXCLUSIVE
      ∧ (maskIntersects (WCDBShmGetExclMask holder) oMask
          ∨ maskIntersects (WCDBShmGetSharedMask holder) oMask))

/-- The record `WCDBWait` fills in for its caller. -/
def newWaitInfo (env : WaitEnv) (pFile : Nat) (eFileLock eFlag : Int) : WCDBWaitInfo :=
  { pThread := env.self, eFileLock := eFileLock, eFlag := eFlag, pFile := pFile }

/-- The record `WCDBShmWait` fills in for its caller. -/
def newShmWaitInfo (env : WaitEnv) (pFile : Nat) (oMask eFlag : Int) : WCDBShmWaitInfo :=
  { pThread := env.self, oMask := oMask, eFlag := eFlag, pFile := pFile }

/-- One outcome of a `WCDBShmWait` call on `before`: exactly one new record,
carrying the caller's mask, flag, file and thread, was enqueued at the front or
at the back, none was popped or signalled, and the caller blocked. -/
def shmWaitEnqueuedOne (env : WaitEnv) (before : unixShmNode) (pFile : Nat)
    (oMask eFlag : Int) (res : ShmWaitResult) : Prop :=
  res.woken = [] ∧ res.blocked = true
    ∧ WCDBShmNodeGetShm res.pShmNode = WCDBShmNodeGetShm before
    ∧ (WCDBShmNodeGetWaitQueue res.pShmNode
          = { pThread := env.self, oMask := oMask, eFlag := eFlag, pFile := pFile }
              :: WCDBShmNodeGetWaitQueue before
        ∨ WCDBShmNodeGetWaitQueue res.pShmNode
          = WCDBShmNodeGetWaitQueue before
              ++ [{ pThread := env.self, oMask := oMask, eFlag := eFlag, pFile := pFile }])
    ∧ (WCDBShmNodeGetWaitQueue res.pShmNode).length
        = (WCDBShmNodeGetWaitQueue before).length + 1

/-- The other outcome of a `WCDBShmWait` call on `before`: exactly the front
record was popped and signalled, no record was enqueued, and the caller did not
block. -/
def shmWaitPoppedFront (before : unixShmNode) (res : ShmWaitResult) : Prop :=
  res.blocked = false
    ∧ WCDBShmNodeGetShm res.pShmNode = WCDBShmNodeGetShm before
    ∧ (∃ front, res.woken = [front]
        ∧ WCDBShmNodeGetWaitQueue before = front :: WCDBShmNodeGetWaitQueue res.pShmNode)
    ∧ (WCDBShmNodeGetWaitQueue res.pShmNode).length + 1
        = (WCDBShmNodeGetWaitQueue before).length

/-! ## Concrete scenarios -/

/-- A heap in which every connection holds no file lock and no region lock. -/
def idleFiles : Nat → unixFile :=
  fun _ => { eFileLock := 0, pShm := { exclMask := 0, sharedMask := 0 } }

/-- A waiter of thread 7 that wants `EXCLUSIVE` (level and kind) for file 0. -/
def exclWaiter : WCDBWaitInfo :=
  { pThread := 7, eFileLock := EXCLUSIVE_LOCK, eFlag := SQLITE_WAIT_EXCLUSIVE, pFile := 0 }

/-- A waiter of thread 8 that wants `SHARED` (level and kind) for file 1. -/
def sharedWaiter : WCDBWaitInfo :=
  { pThread := 8, eFileLock := SHARED_LOCK, eFlag := SQLITE_WAIT_SHARED, pFile := 1 }

/-- A resource at level `SHARED` with two sharers; `exclWaiter` is queued before
`sharedWaiter`. -/
def blockedInode : unixInodeInfo :=
  { eFileLock := SHARED_LOCK, nShared := 2, waitQueue := [exclWaiter, sharedWaiter] }

/-- A holder with exclusive-mask `{region 2}` (bit 2, the value 4) and an empty
shared-mask. -/
def holderExcl2 : unixShm :=
  { exclMask := 4, sharedMask := 0 }

/-- A holder with shared-mask `{region 2}` and an empty exclusive-mask. -/
def holderShared2 : unixShm :=
  { exclMask := 0, sharedMask := 4 }

/-- A shared request of thread 1, file 0, for mask `{region 2, region 5}`
(the value 4 + 32). -/
def sharedReq25 : WCDBShmWaitInfo :=
  { pThread := 1, oMask := 36, eFlag := SQLITE_SHM_SHARED, pFile := 0 }

/-- A shared request of thread 2, file 1, for mask `{region 5}` (the value 32). -/
def sharedReq5 : WCDBShmWaitInfo :=
  { pThread := 2, oMask := 32, eFlag := SQLITE_SHM_SHARED, pFile := 1 }

/-- A shared request of thread 3, file 2, for mask `{region 2}`. -/
def sharedReq2 : WCDBShmWaitInfo :=
  { pThread := 3, oMask := 4, eFlag := SQLITE_SHM_SHARED, pFile := 2 }

/-- An exclusive request of thread 4, file 3, for mask `{region 2}`. -/
def exclReq2 : WCDBShmWaitInfo :=
  { pThread := 4, oMask := 4, eFlag := SQLITE_SHM_EXCLUSIVE, pFile := 3 }

/-- A shm node whose only holder shares region 2; `exclReq2` is queued before
`sharedReq2`. -/
def blockedShmNode : unixShmNode :=
  { pFirst := [holderShared2], waitQueue := [exclReq2, sharedReq2] }

/-- A call from the primary thread (handle 9); the allocation succeeds and the
condition wait does not time out. -/
def mainEnv : WaitEnv :=
  { self := 9, isMain := true, mallocOk := true, timedOut := false }

/-- A call from a background thread (handle 10); the allocation succeeds and
the condition wait does not time out. -/
def bgEnv : WaitEnv :=
  { self := 10, isMain := false, mallocOk := true, timedOut := false }

/-- A resource at `EXCLUSIVE` with `exclWaiter` queued. -/
def exclInode : unixInodeInfo :=
  { eFileLock := EXCLUSIVE_LOCK, nShared := 1, waitQueue := [exclWaiter] }

/-- A background waiter of thread `t` that wants `SHARED` for file `t`. -/
def bgWaiter (t : Nat) : WCDBWaitInfo :=
  { pThread := t, eFileLock := SHARED_LOCK, eFlag := SQLITE_WAIT_SHARED, pFile := t }

/-- A resource at `EXCLUSIVE` with three background waiters queued. -/
def threeQueued : unixInodeInfo :=
  { eFileLock := EXCLUSIVE_LOCK, nShared := 1,
    waitQueue := [bgWaiter 1, bgWaiter 2, bgWaiter 3] }

/-- A heap in which the connection of file 5 holds region 2 exclusively and
every other connection holds nothing. -/
def heldFiles : Nat → unixFile :=
  fun pFile =>
    if pFile = 5 then { eFileLock := 0, pShm := holderExcl2 }
    else { eFileLock := 0, pShm := { exclMask := 0, sharedMask := 0 } }

/-- A shm node whose only holder has region 2 exclusively, with `sharedReq2`
queued. -/
def sharedQueuedNode : unixShmNode :=
  { pFirst := [holderExcl2], waitQueue := [sharedReq2] }

/-- A shm node whose only holder has region 2 exclusively, with `exclReq2`
queued. -/
def exclQueuedNode : unixShmNode :=
  { pFirst := [holderExcl2], waitQueue := [exclReq2] }

/-- A resource at `SHARED` with two sharers and four waiters: two background
waiters, then `exclWaiter`, then a third background waiter. -/
def cascadeInode : unixInodeInfo :=
  { eFileLock := SHARED_LOCK, nShared := 2,
    waitQueue := [bgWaiter 1, bgWaiter 2, exclWaiter, bgWaiter 3] }

/-- A waiter of thread 6 whose kind is `SQLITE_WAIT_NONE`, holding no lock. -/
def noneWaiter : WCDBWaitInfo :=
  { pThread := 6, eFileLock := NO_LOCK, eFlag := SQLITE_WAIT_NONE, pFile := 6 }

/-- An unlocked resource without sharers; `noneWaiter` is queued before
`sharedWaiter`. -/
def noneFrontInode : unixInodeInfo :=
  { eFileLock := NO_LOCK, nShared := 0, waitQueue := [noneWaiter, sharedWaiter] }

/-- A region request of thread 6 for `{region 2}` whose flag, 0, is neither
`SQLITE_SHM_SHARED` nor `SQLITE_SHM_EXCLUSIVE`. -/
def noneReq2 : WCDBShmWaitInfo :=
  { pThread := 6, oMask := 4, eFlag := 0, pFile := 6 }

/-- A shm node without holders; `noneReq2` is queued before `sharedReq2`. -/
def noneFrontShmNode : unixShmNode :=
  { pFirst := [], waitQueue := [noneReq2, sharedReq2] }

/-- A call from a background thread (handle 11) for which `sqlite3_malloc`
returns `NULL`. -/
def failEnv : WaitEnv :=
  { self := 11, isMain := false, mallocOk := false, timedOut := false }

/-- One event on a file-lock resource: a call of one of the three entry points,
or a change of the resource's lock level and sharer count by the lock state
machine of `os_unix.c`. -/
inductive FileOp where
  /-- a `WCDBWait` call -/
  | wait (env : WaitEnv) (pFile : Nat) (eFileLock eFlag : Int)
  /-- a `WCDBTrySignal` call, made while the heap of files is `files` -/
  | trySignal (files : Nat → unixFile)
  /-- a `WCDBSignal` call -/
  | signal
  /-- the lock state machine sets the lock level and the sharer count -/
  | setLock (eFileLock : Int) (nShared : Nat)

/-- The state of a run: the inode, every record signalled so far (in the order
of the `pthreadCondSignal` calls) and every record enqueued so far (in the order
of the `WCDBWait` calls that created them). -/
structure FileRun where
  /-- the inode -/
  pInode : unixInodeInfo
  /-- the records signalled so far -/
  woken : List WCDBWaitInfo
  /-- the records created and enqueued so far -/
  created : List WCDBWaitInfo
deriving DecidableEq

/-- One event of a run; `none` when the call does not return. -/
def stepFile (st : FileRun) : FileOp → Option FileRun
  | FileOp.wait env pFile eFileLock eFlag =>
    match WCDBWait env st.pInode pFile eFileLock eFlag with
    | none => none
    | some res =>
      some { pInode := res.pInode, woken := st.woken ++ res.woken,
             created := if res.blocked then
                          st.created ++ [newWaitInfo env pFile eFileLock eFlag]
                        else st.created }
  | FileOp.trySignal files =>
    match WCDBTrySignal files st.pInode with
    | none => none
    | some (pInode, woken) =>
      some { pInode := pInode, woken := st.woken ++ woken, created := st.created }
  | FileOp.signal =>
    some { pInode := (WCDBSignal st.pInode).1, woken := st.woken ++ (WCDBSignal st.pInode).2,
           created := st.created }
  | FileOp.setLock eFileLock nShared =>
    some { pInode := { st.pInode with eFileLock := eFileLock, nShared := nShared },
           woken := st.woken, created := st.created }

/-- A run: the events in order; `none` when one of the calls does not return. -/
def runFile : FileRun → List FileOp → Option FileRun
  | st, [] => some st
  | st, op :: ops =>
    match stepFile st op with
    | none => none
    | some st' => runFile st' ops

/-- The start of a run: an empty queue, nobody signalled, no record created. -/
def startRun (eFileLock : Int) (nShared : Nat) : FileRun :=
  { pInode := { eFileLock := eFileLock, nShared := nShared, waitQueue := [] },
    woken := [], created := [] }

/-- A call from background thread `t`; the allocation succeeds and the condition
wait does not time out. -/
def threadEnv (t : Nat) : WaitEnv :=
  { self := t, isMain := false, mallocOk := true, timedOut := false }

/-- Threads 1 and 2 wait for `SHARED`; the resource is then unlocked and
`WCDBTrySignal` runs. -/
def twoSharedThenUnlock : List FileOp :=
  [FileOp.wait (threadEnv 1) 1 SHARED_LOCK SQLITE_WAIT_SHARED,
   FileOp.wait (threadEnv 2) 2 SHARED_LOCK SQLITE_WAIT_SHARED,
   FileOp.setLock NO_LOCK 0,
   FileOp.trySignal idleFiles]

/-- Thread 3 waits for `EXCLUSIVE`; thread 4 asks for `EXCLUSIVE` too and takes
the short-circuit; `WCDBTrySignal` runs once more. -/
def exclThenPreempt : List FileOp :=
  [FileOp.wait (threadEnv 3) 3 EXCLUSIVE_LOCK SQLITE_WAIT_EXCLUSIVE,
   FileOp.wait (threadEnv 4) 4 EXCLUSIVE_LOCK SQLITE_WAIT_EXCLUSIVE,
   FileOp.trySignal idleFiles]

/-- The arguments and the environment of one `WCDBWait` call. -/
structure WaitCall where
  /-- what the environment hands to the call -/
  env : WaitEnv
  /-- the caller's file -/
  pFile : Nat
  /-- the lock level passed -/
  eFileLock : Int
  /-- the wait kind passed -/
  eFlag : Int

/-- The record a `WCDBWait` call creates when it enqueues its caller. -/
def waitCallRecord (w : WaitCall) : WCDBWaitInfo :=
  newWaitInfo w.env w.pFile w.eFileLock w.eFlag

/-- A sequence of `WCDBWait` calls, as events of a run. -/
def waitOps (waits : List WaitCall) : List FileOp :=
  waits.map (fun w => FileOp.wait w.env w.pFile w.eFileLock w.eFlag)

/-- A change of the resource state by the lock state machine: the heap of files,
the lock level and the sharer count after it. -/
structure StateChange where
  /-- the heap of files after the change -/
  files : Nat → unixFile
  /-- the lock level after the change -/
  eFileLock : Int
  /-- the sharer count after the change -/
  nShared : Nat

/-- A sequence of state changes, each triggering `WCDBTrySignal`, as events of a
run. -/
def changeOps : List StateChange → List FileOp
  | [] => []
  | c :: cs =>
    FileOp.setLock c.eFileLock c.nShared :: FileOp.trySignal c.files :: changeOps cs

/-- Every state change of the sequence is compatible: when its `WCDBTrySignal`
runs, the record at the front of the queue, if there is one, is grantable in
the changed state. -/
def compatibleChanges : FileRun → List StateChange → Prop
  | _, [] => True
  | st, c :: cs =>
    (∀ front, sqlite3QueueFront (WCDBInodeGetWaitQueue st.pInode) = some front →
        WCDBTrySignal_rc c.files
          { st.pInode with eFileLock := c.eFileLock, nShared := c.nShared } front = SQLITE_OK)
    ∧ (∀ st', runFile st [FileOp.setLock c.eFileLock c.nShared, FileOp.trySignal c.files]
          = some st' → compatibleChanges st' cs)

/-- The resource is unlocked: no lock is held and nobody shares. -/
def unlockChange : StateChange :=
  { files := idleFiles, eFileLock := NO_LOCK, nShared := 0 }

/-- Threads 3 and 4 each call `WCDBWait` for `EXCLUSIVE`. -/
def twoExclCalls : List WaitCall :=
  [{ env := threadEnv 3, pFile := 3, eFileLock := EXCLUSIVE_LOCK,
     eFlag := SQLITE_WAIT_EXCLUSIVE },
   { env := threadEnv 4, pFile := 4, eFileLock := EXCLUSIVE_LOCK,
     eFlag := SQLITE_WAIT_EXCLUSIVE }]

/-- Threads 1 and 2 each call `WCDBWait` for `SHARED`. -/
def twoSharedCalls : List WaitCall :=
  [{ env := threadEnv 1, pFile := 1, eFileLock := SHARED_LOCK, eFlag := SQLITE_WAIT_SHARED },
   { env := threadEnv 2, pFile := 2, eFileLock := SHARED_LOCK, eFlag := SQLITE_WAIT_SHARED }]

/-! ## The provider registry of `crypto_custom.c` -/

/-- Modelled from the spec: the result code `SQLITE_NOMEM` of `sqlite3.h`, which
is not under `src/`. -/
def SQLITE_NOMEM : Int := 7

/-- Modelled from the spec: a provider, the function table of a "name→function-table
registry" (`sqlcipher_provider`, declared in `sqlcipher.h`, not under `src/`).
`provider_overload` treats it as "a pile of function pointers": the
pointer-sized slots in order, 0 for a null pointer. -/
structure sqlcipher_provider where
  /-- the function pointers, in the order of the struct -/
  slots : List Nat
deriving DecidableEq

/-- The struct `sqlcipher_named_provider`: a provider stored in the list with its
name (a C string). -/
structure sqlcipher_named_provider where
  /-- the stored provider -/
  p : sqlcipher_provider
  /-- the name it is registered under -/
  name : String
deriving DecidableEq

/-- The struct `custom_ctx`: the provider context. -/
structure custom_ctx where
  /-- the currently selected provider, `none` for `NULL` -/
  p : Option sqlcipher_provider
  /-- the context of the selected provider, 0 for `NULL` -/
  p_ctx : Nat
deriving DecidableEq

/-- The statics `custom_providers`, `custom_providers_count` and
`custom_providers_capacity`: the list holds the slots below the count, so the
count is its length.  Counts stay far below the range of `int`. -/
structure ProviderRegistry where
  /-- the slots `custom_providers[0 .. custom_providers_count - 1]` -/
  custom_providers : List sqlcipher_named_provider
  /-- the number of slots allocated -/
  custom_providers_capacity : Nat
deriving DecidableEq

/-- The static `custom_providers_count`. -/
def custom_providers_count (R : ProviderRegistry) : Nat :=
  R.custom_providers.length

/-- The loop of `provider_overload` over the slots of `base` and `p`: a null
slot of `p` takes the slot of `base`. -/
def provider_overload_slots : List Nat → List Nat → List Nat
  | b :: bs, x :: xs => (if x = 0 then b else x) :: provider_overload_slots bs xs
  | _, xs => xs

/-- `provider_overload`: the provider `p` after the call. -/
def provider_overload (base p : sqlcipher_provider) : sqlcipher_provider :=
  { slots := provider_overload_slots base.slots p.slots }

/-- The loop `for (i = 0; i < custom_providers_count; i++)` of `select_provider`:
the provider `ctx->p` is set to, `none` when no name compares equal. -/
def select_provider_loop (name : String) : List sqlcipher_named_provider →
    Option sqlcipher_provider
  | [] => none
  | np :: rest => if np.name = name then some np.p else select_provider_loop name rest

/-- `select_provider`: the return code and the context after the call.  The
static `fallback_provider` is set (the module is activated); `ctx_init` is the
`ctx_init` function of the chosen provider, returning its code and the context
it stores. -/
def select_provider (fallback_provider : sqlcipher_provider)
    (ctx_init : sqlcipher_provider → Int × Nat) (R : ProviderRegistry) (ctx : custom_ctx)
    (name : Option String) : Int × custom_ctx :=
  match ctx.p with
  | some _ => (SQLITE_OK, ctx)
  | none =>
    let found : Option sqlcipher_provider :=
      match name with
      | some nm => select_provider_loop nm R.custom_providers
      | none => none
    let p : sqlcipher_provider :=
      match found with
      | some q => q
      | none => fallback_provider
    ((ctx_init p).1, { p := some p, p_ctx := (ctx_init p).2 })

/-- The loop "find existing provider" of `sqlcipher_register_custom_provider`
and `sqlcipher_unregister_custom_provider`: the value of `i` after it, the
index of the first entry whose name compares equal, or the count. -/
def find_existing (name : String) : List sqlcipher_named_provider → Nat
  | [] => 0
  | np :: rest => if np.name = name then 0 else find_existing name rest + 1

/-- `sqlcipher_register_custom_provider`: the return code and the statics after
the call; `reallocOk` and `mallocOk` tell whether `sqlite3_realloc` and
`sqlite3_malloc` return memory. -/
def sqlcipher_register_custom_provider (fallback_provider : sqlcipher_provider)
    (reallocOk mallocOk : Bool) (R : ProviderRegistry) (name : String)
    (p : sqlcipher_provider) : Int × ProviderRegistry :=
  let grown : Option ProviderRegistry :=
    if custom_providers_count R ≥ R.custom_providers_capacity then
      if reallocOk then
        some { R with custom_providers_capacity := R.custom_providers_capacity + 16 }
      else none
    else some R
  match grown with
  | none => (SQLITE_NOMEM, R)
  | some R1 =>
    if mallocOk then
      let np : sqlcipher_named_provider :=
        { p := provider_overload fallback_provider p, name := name }
      let i := find_existing name R1.custom_providers
      if i < custom_providers_count R1 then
        (SQLITE_OK, { R1 with custom_providers := R1.custom_providers.set i np })
      else
        (SQLITE_OK, { R1 with custom_providers := R1.custom_providers ++ [np] })
    else (SQLITE_NOMEM, R1)

/-- The two statements `custom_providers_count--; custom_providers[i] =
custom_providers[custom_providers_count];` on the list of slots below the
count. -/
def swap_remove (i : Nat) (l : List sqlcipher_named_provider) :
    List sqlcipher_named_provider :=
  match l.getLast? with
  | some last => l.dropLast.set i last
  | none => l

/-- `sqlcipher_unregister_custom_provider`: the return code and the statics
after the call. -/
def sqlcipher_unregister_custom_provider (R : ProviderRegistry) (name : String) :
    Int × ProviderRegistry :=
  let i := find_existing name R.custom_providers
  if i < custom_providers_count R then
    (SQLITE_OK, { R with custom_providers := swap_remove i R.custom_providers })
  else
    (SQLITE_OK, R)

/-- One call on the registry. -/
inductive RegistryOp where
  /-- a `sqlcipher_register_custom_provider` call -/
  | register (reallocOk mallocOk : Bool) (name : String) (p : sqlcipher_provider)
  /-- a `sqlcipher_unregister_custom_provider` call -/
  | unregister (name : String)

/-- The name a call is about. -/
def registryOpName : RegistryOp → String
  | RegistryOp.register _ _ name _ => name
  | RegistryOp.unregister name => name

/-- The statics after one call. -/
def stepRegistry (fallback_provider : sqlcipher_provider) (R : ProviderRegistry) :
    RegistryOp → ProviderRegistry
  | RegistryOp.register reallocOk mallocOk name p =>
    (sqlcipher_register_custom_provider fallback_provider reallocOk mallocOk R name p).2
  | RegistryOp.unregister name => (sqlcipher_unregister_custom_provider R name).2

/-- The statics after a sequence of calls. -/
def runRegistry (fallback_provider : sqlcipher_provider) :
    ProviderRegistry → List RegistryOp → ProviderRegistry
  | R, [] => R
  | R, op :: ops => runRegistry fallback_provider (stepRegistry fallback_provider R op) ops

/-- The statics at program start: no list, count and capacity 0. -/
def emptyRegistry : ProviderRegistry :=
  { custom_providers := [], custom_providers_capacity := 0 }

/-- A name is registered: some entry of the list carries it. -/
def isRegistered (R : ProviderRegistry) (name : String) : Prop :=
  ∃ np ∈ R.custom_providers, np.name = name

/-- A fallback provider with three functions. -/
def fallbackEx : sqlcipher_provider :=
  { slots := [101, 102, 103] }

/-- A `ctx_init` that succeeds and stores the context 1. -/
def ctxInitEx : sqlcipher_provider → Int × Nat :=
  fun _ => (SQLITE_OK, 1)

/-- A context with no provider selected. -/
def freshCtx : custom_ctx :=
  { p := none, p_ctx := 0 }

/-- Three registrations and one removal: `a`, `b`, `c` are registered, `a` is
registered again with another provider, `b` is removed. -/
def registryOpsEx : List RegistryOp :=
  [RegistryOp.register true true "a" { slots := [1, 0, 0] },
   RegistryOp.register true true "b" { slots := [2, 0, 0] },
   RegistryOp.register true true "c" { slots := [3, 0, 0] },
   RegistryOp.register true true "a" { slots := [4, 5, 0] },
   RegistryOp.unregister "b"]

/-! ## The dispatching operations of `crypto_custom.c` -/

/-- What the functions of a provider return when they are called through its
function table.  They are defined by the providers, outside `crypto_custom.c`;
each takes the provider whose table it is called through and the provider
context passed to it. -/
structure ProviderFns where
  /-- `ctx_init`: the return code and the provider context it stores -/
  ctx_init : sqlcipher_provider → Int × Nat
  /-- `set_cipher(p_ctx, cipher_name)`: the return code -/
  set_cipher : sqlcipher_provider → Nat → Option String → Int
  /-- `get_cipher(p_ctx)`: the cipher name -/
  get_cipher : sqlcipher_provider → Nat → String
  /-- `random(p_ctx, buffer, length)`: the return code -/
  random : sqlcipher_provider → Nat → Int → Int
  /-- `kdf(p_ctx, pass, pass_sz, salt, salt_sz, workfactor, key_sz, key)`: the
  return code, for the bytes of `pass` and of `salt` -/
  kdf : sqlcipher_provider → Nat → List Nat → List Nat → Int → Int → Int
  /-- `get_key_sz(p_ctx)`: the key size -/
  get_key_sz : sqlcipher_provider → Nat → Int

/-- `sqlcipher_custom_set_cipher`: the return code and the context after the
call; `none` is the call through the `NULL` provider pointer. -/
def sqlcipher_custom_set_cipher (fallback_provider : sqlcipher_provider)
    (fns : ProviderFns) (R : ProviderRegistry) (ctx : custom_ctx)
    (cipher_name : Option String) : Option (Int × custom_ctx) :=
  let sel : Int × custom_ctx :=
    match ctx.p with
    | none => select_provider fallback_provider fns.ctx_init R ctx cipher_name
    | some _ => (SQLITE_OK, ctx)
  if ctx.p = none ∧ sel.1 ≠ SQLITE_OK then some (sel.1, sel.2)
  else
    match sel.2.p with
    | some p => some (fns.set_cipher p sel.2.p_ctx cipher_name, sel.2)
    | none => none

/-- `sqlcipher_custom_get_cipher`: the string returned and the context after the
call; `none` is the call through the `NULL` provider pointer. -/
def sqlcipher_custom_get_cipher (fallback_provider : sqlcipher_provider)
    (fns : ProviderFns) (R : ProviderRegistry) (ctx : custom_ctx) :
    Option (String × custom_ctx) :=
  let sel : Int × custom_ctx :=
    match ctx.p with
    | none => select_provider fallback_provider fns.ctx_init R ctx none
    | some _ => (SQLITE_OK, ctx)
  if ctx.p = none ∧ sel.1 ≠ SQLITE_OK then some ("", sel.2)
  else
    match sel.2.p with
    | some p => some (fns.get_cipher p sel.2.p_ctx, sel.2)
    | none => none

/-- `sqlcipher_custom_random`: the return code and the context after the call;
`none` is the call through the `NULL` provider pointer. -/
def sqlcipher_custom_random (fallback_provider : sqlcipher_provider)
    (fns : ProviderFns) (R : ProviderRegistry) (ctx : custom_ctx) (length : Int) :
    Option (Int × custom_ctx) :=
  let sel : Int × custom_ctx :=
    match ctx.p with
    | none => select_provider fallback_provider fns.ctx_init R ctx none
    | some _ => (SQLITE_OK, ctx)
  if ctx.p = none ∧ sel.1 ≠ SQLITE_OK then some (sel.1, sel.2)
  else
    match sel.2.p with
    | some p => some (fns.random p sel.2.p_ctx length, sel.2)
    | none => none

/-- `sqlcipher_custom_kdf`: the return code and the context after the call;
`none` is the call through the `NULL` provider pointer. -/
def sqlcipher_custom_kdf (fallback_provider : sqlcipher_provider)
    (fns : ProviderFns) (R : ProviderRegistry) (ctx : custom_ctx) (pass salt : List Nat)
    (workfactor key_sz : Int) : Option (Int × custom_ctx) :=
  let sel : Int × custom_ctx :=
    match ctx.p with
    | none => select_provider fallback_provider fns.ctx_init R ctx none
    | some _ => (SQLITE_OK, ctx)
  if ctx.p = none ∧ sel.1 ≠ SQLITE_OK then some (sel.1, sel.2)
  else
    match sel.2.p with
    | some p => some (fns.kdf p sel.2.p_ctx pass salt workfactor key_sz, sel.2)
    | none => none

/-- `sqlcipher_custom_get_key_sz`: the size returned and the context after the
call; `none` is the call through the `NULL` provider pointer. -/
def sqlcipher_custom_get_key_sz (fallback_provider : sqlcipher_provider)
    (fns : ProviderFns) (R : ProviderRegistry) (ctx : custom_ctx) :
    Option (Int × custom_ctx) :=
  let sel : Int × custom_ctx :=
    match ctx.p with
    | none => select_provider fallback_provider fns.ctx_init R ctx none
    | some _ => (SQLITE_OK, ctx)
  if ctx.p = none ∧ sel.1 ≠ SQLITE_OK then some (0, sel.2)
  else
    match sel.2.p with
    | some p => some (fns.get_key_sz p sel.2.p_ctx, sel.2)
    | none => none

/-- Provider functions that all succeed: `ctx_init` stores the context 1, the
cipher name is `aes-256-cbc`, the key size 32. -/
def fnsEx : ProviderFns :=
  { ctx_init := ctxInitEx,
    set_cipher := fun _ _ _ => SQLITE_OK,
    get_cipher := fun _ _ => "aes-256-cbc",
    random := fun _ _ _ => SQLITE_OK,
    kdf := fun _ _ _ _ _ _ => SQLITE_OK,
    get_key_sz := fun _ _ => 32 }

/-- Provider functions like `fnsEx` whose `ctx_init` would store another
context, 2. -/
def fnsReinitEx : ProviderFns :=
  { fnsEx with ctx_init := fun _ => (SQLITE_OK, 2) }

/-! ## Runs of the region-lock coordinator -/

theorem dropWhile_nil_or_head {α : Type} (p : α → Bool) (q : List α) :
    q.dropWhile p = [] ∨ ∃ r rest, q.dropWhile p = r :: rest ∧ p r = false := by
  induction q with
  | nil => exact Or.inl rfl
  | cons a t ih =>
    by_cases ha : p a = true
    · simpa [List.dropWhile, ha] using ih
    · right
      exact ⟨a, t, by simp [List.dropWhile, ha], by simpa using ha⟩

theorem prefix_takeWhile_of_all {α : Type} (p : α → Bool) :
    ∀ (q pre : List α), pre <+: q → (∀ r ∈ pre, p r = true) → pre <+: q.takeWhile p := by
  intro q
  induction q with
  | nil =>
    intro pre hpre _
    have : pre = [] := List.prefix_nil.mp hpre
    subst this
    exact List.nil_prefix
  | cons a t ih =>
    intro pre hpre hall
    cases pre with
    | nil => exact List.nil_prefix
    | cons b pre' =>
      obtain ⟨hab, hrest⟩ := List.cons_prefix_cons.mp hpre
      subst hab
      have hb : p b = true := hall b (List.mem_cons_self _ _)
      have hrec := ih pre' hrest (fun r hr => hall r (List.mem_cons_of_mem _ hr))
      simpa [List.takeWhile, hb] using hrec

/-! ## Lemmas on the file-lock coordinator -/

theorem WCDBTrySignal_loop_eq (files : Nat → unixFile) (l : Int) (n : Nat) :
    ∀ (q : List WCDBWaitInfo) (fuel : Nat), q.length < fuel →
      WCDBTrySignal_loop files fuel ⟨l, n, q⟩ =
        some (⟨l, n, q.dropWhile
                (fun r => decide (WCDBTrySignal_rc files ⟨l, n, []⟩ r = SQLITE_OK))⟩,
              q.takeWhile
                (fun r => decide (WCDBTrySignal_rc files ⟨l, n, []⟩ r = SQLITE_OK))) := by
  intro q
  induction q with
  | nil =>
    intro fuel h
    cases fuel with
    | zero => omega
    | succ k => simp [WCDBTrySignal_loop, sqlite3QueueFront, WCDBInodeGetWaitQueue]
  | cons r rest ih =>
    intro fuel h
    cases fuel with
    | zero => omega
    | succ k =>
      have hk : rest.length < k := by simpa using h
      by_cases hrc : WCDBTrySignal_rc files ⟨l, n, []⟩ r = SQLITE_OK
      · have hrc' : WCDBTrySignal_rc files ⟨l, n, r :: rest⟩ r = SQLITE_OK := hrc
        simp [WCDBTrySignal_loop, sqlite3QueueFront, WCDBInodeGetWaitQueue, hrc', WCDBSignal,
          sqlite3QueuePop, ih k hk, hrc, List.takeWhile, List.dropWhile]
      · have hrc' : ¬ WCDBTrySignal_rc files ⟨l, n, r :: rest⟩ r = SQLITE_OK := hrc
        simp [WCDBTrySignal_loop, sqlite3QueueFront, WCDBInodeGetWaitQueue, hrc', hrc,
          List.takeWhile, List.dropWhile]

/-- `WCDBTrySignal` always returns: it signals the records of
`takeWhile (rc = SQLITE_OK)` and leaves `dropWhile (rc = SQLITE_OK)` queued. -/
theorem WCDBTrySignal_eq (files : Nat → unixFile) (pInode : unixInodeInfo) :
    WCDBTrySignal files pInode =
      some ({ pInode with waitQueue := (pInode.waitQueue.dropWhile
                (fun r => decide (WCDBTrySignal_rc files pInode r = SQLITE_OK))) },
            pInode.waitQueue.takeWhile
                (fun r => decide (WCDBTrySignal_rc files pInode r = SQLITE_OK))) := by
  obtain ⟨l, n, q⟩ := pInode
  exact WCDBTrySignal_loop_eq files l n q (q.length + 1) (Nat.lt_succ_self _)

/-- What `WCDBTrySignal` does with the front record, by the value of `rc`. -/
theorem WCDBTrySignal_front (files : Nat → unixFile) (pInode : unixInodeInfo)
    (r : WCDBWaitInfo) (rest : List WCDBWaitInfo) (hq : pInode.waitQueue = r :: rest) :
    (WCDBTrySignal_rc files pInode r = SQLITE_OK →
      ∃ after woken, WCDBTrySignal files pInode = some (after, r :: woken)
        ∧ woken ++ after.waitQueue = rest)
    ∧ (WCDBTrySignal_rc files pInode r ≠ SQLITE_OK →
      WCDBTrySignal files pInode = some (pInode, [])) := by
  obtain ⟨l, n, q⟩ := pInode
  simp only at hq
  subst hq
  constructor
  · intro h
    refine ⟨⟨l, n, rest.dropWhile
        (fun x => decide (WCDBTrySignal_rc files ⟨l, n, r :: rest⟩ x = SQLITE_OK))⟩,
      rest.takeWhile
        (fun x => decide (WCDBTrySignal_rc files ⟨l, n, r :: rest⟩ x = SQLITE_OK)), ?_, ?_⟩
    · rw [WCDBTrySignal_eq]
      simp only [List.takeWhile, List.dropWhile, h, decide_True]
    · exact List.takeWhile_append_dropWhile _ _
  · intro h
    rw [WCDBTrySignal_eq]
    simp [List.takeWhile, List.dropWhile, h]

/-- The front record is popped and signalled exactly when `rc` is `SQLITE_OK`. -/
theorem WCDBTrySignal_front_iff (files : Nat → unixFile) (pInode : unixInodeInfo)
    (r : WCDBWaitInfo) (rest : List WCDBWaitInfo) (hq : pInode.waitQueue = r :: rest) :
    (∃ after woken, WCDBTrySignal files pInode = some (after, r :: woken)
        ∧ woken ++ after.waitQueue = rest)
      ↔ WCDBTrySignal_rc files pInode r = SQLITE_OK := by
  constructor
  · rintro ⟨after, woken, h, _⟩
    by_contra hrc
    rw [(WCDBTrySignal_front files pInode r rest hq).2 hrc] at h
    simp at h
  · exact (WCDBTrySignal_front files pInode r rest hq).1

/-! ## Lemmas on the region-lock coordinator -/

theorem int_eq_zero_of_testBit (x : Int) (h : ∀ i : Nat, x.testBit i = false) : x = 0 := by
  cases x with
  | ofNat n =>
    have : n = 0 := Nat.eq_of_testBit_eq (fun i => by simpa [Int.testBit] using h i)
    subst this
    rfl
  | negSucc n =>
    have h1 := h n
    have h2 : n.testBit n = false := Nat.testBit_lt_two_pow (Nat.lt_two_pow n)
    simp [Int.testBit, h2] at h1

/-- The C test `(mask & oMask) != 0` holds exactly when the two masks have a
region in common. -/
theorem maskAnd_ne_zero_iff (mask : Nat) (oMask : Int) :
    maskAnd mask oMask ≠ 0 ↔ maskIntersects mask oMask := by
  constructor
  · intro h
    by_contra hno
    apply h
    apply int_eq_zero_of_testBit
    intro i
    unfold maskAnd
    rw [Int.testBit_land]
    by_cases hm : mask.testBit i = true
    · by_cases ho : oMask.testBit i = true
      · exact absurd ⟨i, hm, ho⟩ hno
      · simp [ho]
    · have : Int.testBit (mask : Int) i = false := by simpa [Int.testBit] using hm
      simp [this]
  · rintro ⟨i, hm, ho⟩ h0
    have h1 : (maskAnd mask oMask).testBit i = true := by
      unfold maskAnd
      rw [Int.testBit_land]
      have : Int.testBit (mask : Int) i = true := by simpa [Int.testBit] using hm
      simp [this, ho]
    rw [h0] at h1
    simp [Int.testBit] at h1

theorem WCDBShmTrySignal_sharedLoop_ok_iff (oMask : Int) (holders : List unixShm) :
    WCDBShmTrySignal_sharedLoop oMask holders = SQLITE_OK
      ↔ ∀ pX ∈ holders, ¬ maskIntersects (WCDBShmGetExclMask pX) oMask := by
  induction holders with
  | nil => simp [WCDBShmTrySignal_sharedLoop]
  | cons pX rest ih =>
    unfold WCDBShmTrySignal_sharedLoop
    by_cases h : maskAnd (WCDBShmGetExclMask pX) oMask ≠ 0
    · have hi := (maskAnd_ne_zero_iff _ _).mp h
      rw [if_pos h]
      constructor
      · intro hbusy
        exact absurd hbusy (by decide)
      · intro hall
        exact absurd hi (hall pX (List.mem_cons_self _ _))
    · have hi : ¬ maskIntersects (WCDBShmGetExclMask pX) oMask :=
        fun hx => h ((maskAnd_ne_zero_iff _ _).mpr hx)
      rw [if_neg h, ih]
      simp only [List.mem_cons, forall_eq_or_imp, hi, not_false_eq_true, true_and]

theorem WCDBShmTrySignal_exclLoop_ok_iff (oMask : Int) (holders : List unixShm) :
    WCDBShmTrySignal_exclLoop oMask holders = SQLITE_OK
      ↔ ∀ pX ∈ holders, ¬ maskIntersects (WCDBShmGetExclMask pX) oMask
          ∧ ¬ maskIntersects (WCDBShmGetSharedMask pX) oMask := by
  induction holders with
  | nil => simp [WCDBShmTrySignal_exclLoop]
  | cons pX rest ih =>
    unfold WCDBShmTrySignal_exclLoop
    by_cases h : maskAnd (WCDBShmGetExclMask pX) oMask ≠ 0
        ∨ maskAnd (WCDBShmGetSharedMask pX) oMask ≠ 0
    · rw [if_pos h]
      constructor
      · intro hbusy
        exact absurd hbusy (by decide)
      · intro hall
        have hx := hall pX (List.mem_cons_self _ _)
        rcases h with h | h
        · exact absurd ((maskAnd_ne_zero_iff _ _).mp h) hx.1
        · exact absurd ((maskAnd_ne_zero_iff _ _).mp h) hx.2
    · have hi : ¬ maskIntersects (WCDBShmGetExclMask pX) oMask
          ∧ ¬ maskIntersects (WCDBShmGetSharedMask pX) oMask :=
        ⟨fun hx => h (Or.inl ((maskAnd_ne_zero_iff _ _).mpr hx)),
         fun hx => h (Or.inr ((maskAnd_ne_zero_iff _ _).mpr hx))⟩
      rw [if_neg h, ih]
      simp only [List.mem_cons, forall_eq_or_imp, hi, not_false_eq_true, and_self, true_and]

theorem WCDBShmTrySignal_loop_eq (holders : List unixShm) :
    ∀ (q : List WCDBShmWaitInfo) (fuel : Nat), q.length < fuel →
      WCDBShmTrySignal_loop fuel ⟨holders, q⟩ =
        some (⟨holders, q.dropWhile
                (fun r => decide (WCDBShmTrySignal_rc ⟨holders, []⟩ r = SQLITE_OK))⟩,
              q.takeWhile
                (fun r => decide (WCDBShmTrySignal_rc ⟨holders, []⟩ r = SQLITE_OK))) := by
  intro q
  induction q with
  | nil =>
    intro fuel h
    cases fuel with
    | zero => omega
    | succ k => simp [WCDBShmTrySignal_loop, sqlite3QueueFront, WCDBShmNodeGetWaitQueue]
  | cons r rest ih =>
    intro fuel h
    cases fuel with
    | zero => omega
    | succ k =>
      have hk : rest.length < k := by simpa using h
      by_cases hrc : WCDBShmTrySignal_rc ⟨holders, []⟩ r = SQLITE_OK
      · have hrc' : WCDBShmTrySignal_rc ⟨holders, r :: rest⟩ r = SQLITE_OK := hrc
        simp [WCDBShmTrySignal_loop, sqlite3QueueFront, WCDBShmNodeGetWaitQueue, hrc',
          WCDBShmSignal, sqlite3QueuePop, ih k hk, hrc, List.takeWhile, List.dropWhile]
      · have hrc' : ¬ WCDBShmTrySignal_rc ⟨holders, r :: rest⟩ r = SQLITE_OK := hrc
        simp [WCDBShmTrySignal_loop, sqlite3QueueFront, WCDBShmNodeGetWaitQueue, hrc', hrc,
          List.takeWhile, List.dropWhile]

/-- `WCDBShmTrySignal` always returns: it signals the records of
`takeWhile (rc = SQLITE_OK)` and leaves `dropWhile (rc = SQLITE_OK)` queued. -/
theorem WCDBShmTrySignal_eq (pShmNode : unixShmNode) :
    WCDBShmTrySignal pShmNode =
      some ({ pShmNode with waitQueue := (pShmNode.waitQueue.dropWhile
                (fun r => decide (WCDBShmTrySignal_rc pShmNode r = SQLITE_OK))) },
            pShmNode.waitQueue.takeWhile
                (fun r => decide (WCDBShmTrySignal_rc pShmNode r = SQLITE_OK))) := by
  obtain ⟨holders, q⟩ := pShmNode
  exact WCDBShmTrySignal_loop_eq holders q (q.length + 1) (Nat.lt_succ_self _)

/-- What `WCDBShmTrySignal` does with the front record, by the value of `rc`. -/
theorem WCDBShmTrySignal_front (pShmNode : unixShmNode)
    (r : WCDBShmWaitInfo) (rest : List WCDBShmWaitInfo) (hq : pShmNode.waitQueue = r :: rest) :
    (WCDBShmTrySignal_rc pShmNode r = SQLITE_OK →
      ∃ after woken, WCDBShmTrySignal pShmNode = some (after, r :: woken)
        ∧ woken ++ after.waitQueue = rest)
    ∧ (WCDBShmTrySignal_rc pShmNode r ≠ SQLITE_OK →
      WCDBShmTrySignal pShmNode = some (pShmNode, [])) := by
  obtain ⟨holders, q⟩ := pShmNode
  simp only at hq
  subst hq
  constructor
  · intro h
    refine ⟨⟨holders, rest.dropWhile
        (fun x => decide (WCDBShmTrySignal_rc ⟨holders, r :: rest⟩ x = SQLITE_OK))⟩,
      rest.takeWhile
        (fun x => decide (WCDBShmTrySignal_rc ⟨holders, r :: rest⟩ x = SQLITE_OK)), ?_, ?_⟩
    · rw [WCDBShmTrySignal_eq]
      simp only [List.takeWhile, List.dropWhile, h, decide_True]
    · exact List.takeWhile_append_dropWhile _ _
  · intro h
    rw [WCDBShmTrySignal_eq]
    simp [List.takeWhile, List.dropWhile, h]

/-- The front record is popped and signalled exactly when `rc` is `SQLITE_OK`. -/
theorem WCDBShmTrySignal_front_iff (pShmNode : unixShmNode)
    (r : WCDBShmWaitInfo) (rest : List WCDBShmWaitInfo) (hq : pShmNode.waitQueue = r :: rest) :
    (∃ after woken, WCDBShmTrySignal pShmNode = some (after, r :: woken)
        ∧ woken ++ after.waitQueue = rest)
      ↔ WCDBShmTrySignal_rc pShmNode r = SQLITE_OK := by
  constructor
  · rintro ⟨after, woken, h, _⟩
    by_contra hrc
    rw [(WCDBShmTrySignal_front pShmNode r rest hq).2 hrc] at h
    simp at h
  · exact (WCDBShmTrySignal_front pShmNode r rest hq).1

/-! ## Lemmas on `WCDBWait` -/

/-- `WCDBWait` on an empty queue. -/
theorem WCDBWait_nil (env : WaitEnv) (pInode : unixInodeInfo) (pFile : Nat)
    (eFileLock eFlag : Int) (hq : pInode.waitQueue = []) :
    WCDBWait env pInode pFile eFileLock eFlag =
      if env.mallocOk = true then
        some { pInode := { pInode with waitQueue := [newWaitInfo env pFile eFileLock eFlag] },
               woken := [], blocked := true,
               log := if env.timedOut = true then [(SQLITE_WARNING, "Wait Failed With Timeout")]
                      else [] }
      else none := by
  obtain ⟨l, n, q⟩ := pInode
  simp only at hq
  subst hq
  cases hmain : env.isMain <;>
    simp [WCDBWait, sqlite3QueueFront, WCDBInodeGetWaitQueue, sqlite3QueuePush,
      sqlite3QueuePushFront, newWaitInfo, hmain]

/-- `WCDBWait` on a queue with front record `front`. -/
theorem WCDBWait_cons (env : WaitEnv) (pInode : unixInodeInfo) (pFile : Nat)
    (eFileLock eFlag : Int) (front : WCDBWaitInfo) (rest : List WCDBWaitInfo)
    (hq : pInode.waitQueue = front :: rest) :
    WCDBWait env pInode pFile eFileLock eFlag =
      if (eFileLock = EXCLUSIVE_LOCK ∧ front.eFileLock > SHARED_LOCK)
          ∨ (front.eFileLock = EXCLUSIVE_LOCK ∧ eFileLock > SHARED_LOCK) then
        some { pInode := { pInode with waitQueue := rest }, woken := [front],
               blocked := false, log := [] }
      else if env.mallocOk = true then
        some { pInode := { pInode with waitQueue :=
                 (if env.isMain = true then newWaitInfo env pFile eFileLock eFlag :: front :: rest
                  else front :: rest ++ [newWaitInfo env pFile eFileLock eFlag]) },
               woken := [], blocked := true,
               log := if env.timedOut = true then [(SQLITE_WARNING, "Wait Failed With Timeout")]
                      else [] }
      else none := by
  obtain ⟨l, n, q⟩ := pInode
  simp only at hq
  subst hq
  by_cases hc : (eFileLock = EXCLUSIVE_LOCK ∧ front.eFileLock > SHARED_LOCK)
          ∨ (front.eFileLock = EXCLUSIVE_LOCK ∧ eFileLock > SHARED_LOCK)
  · simp [WCDBWait, sqlite3QueueFront, WCDBInodeGetWaitQueue, hc, WCDBSignal, sqlite3QueuePop]
  · simp [WCDBWait, sqlite3QueueFront, WCDBInodeGetWaitQueue, hc, sqlite3QueuePush,
      sqlite3QueuePushFront, newWaitInfo]

/-! ## Lemmas on `WCDBShmWait` -/

/-- `WCDBShmWait` on an empty queue. -/
theorem WCDBShmWait_nil (files : Nat → unixFile) (env : WaitEnv) (pShmNode : unixShmNode)
    (pFile : Nat) (oMask eFlag : Int) (hq : pShmNode.waitQueue = []) :
    WCDBShmWait files env pShmNode pFile oMask eFlag =
      if env.mallocOk = true then
        some { pShmNode :=
                 { pShmNode with waitQueue := [newShmWaitInfo env pFile oMask eFlag] },
               woken := [], blocked := true,
               log := if env.timedOut = true then [(SQLITE_WARNING, "Wait Failed With Timeout")]
                      else [] }
      else none := by
  obtain ⟨holders, q⟩ := pShmNode
  simp only at hq
  subst hq
  cases hmain : env.isMain <;>
    simp [WCDBShmWait, sqlite3QueueFront, WCDBShmNodeGetWaitQueue, sqlite3QueuePush,
      sqlite3QueuePushFront, newShmWaitInfo, hmain]

/-- `WCDBShmWait` on a queue with front record `front`. -/
theorem WCDBShmWait_cons (files : Nat → unixFile) (env : WaitEnv) (pShmNode : unixShmNode)
    (pFile : Nat) (oMask eFlag : Int) (front : WCDBShmWaitInfo)
    (rest : List WCDBShmWaitInfo) (hq : pShmNode.waitQueue = front :: rest) :
    WCDBShmWait files env pShmNode pFile oMask eFlag =
      if (front.eFlag = SQLITE_SHM_EXCLUSIVE
            ∧ (maskAnd (WCDBShmGetExclMask (WCDBFileGetShm files pFile)) front.oMask ≠ 0
                ∨ maskAnd (WCDBShmGetSharedMask (WCDBFileGetShm files pFile))
                    front.oMask ≠ 0))
          ∨ (eFlag = SQLITE_SHM_EXCLUSIVE
            ∧ (maskAnd (WCDBShmGetExclMask (WCDBFileGetShm files front.pFile)) oMask ≠ 0
                ∨ maskAnd (WCDBShmGetSharedMask (WCDBFileGetShm files front.pFile))
                    oMask ≠ 0)) then
        some { pShmNode := { pShmNode with waitQueue := rest }, woken := [front],
               blocked := false, log := [] }
      else if env.mallocOk = true then
        some { pShmNode := { pShmNode with waitQueue :=
                 (if env.isMain = true then newShmWaitInfo env pFile oMask eFlag :: front :: rest
                  else front :: rest ++ [newShmWaitInfo env pFile oMask eFlag]) },
               woken := [], blocked := true,
               log := if env.timedOut = true then [(SQLITE_WARNING, "Wait Failed With Timeout")]
                      else [] }
      else none := by
  obtain ⟨holders, q⟩ := pShmNode
  simp only at hq
  subst hq
  by_cases h1 : front.eFlag = SQLITE_SHM_EXCLUSIVE
      ∧ (maskAnd (WCDBShmGetExclMask (WCDBFileGetShm files pFile)) front.oMask ≠ 0
          ∨ maskAnd (WCDBShmGetSharedMask (WCDBFileGetShm files pFile)) front.oMask ≠ 0)
  · simp [WCDBShmWait, sqlite3QueueFront, WCDBShmNodeGetWaitQueue, h1, WCDBShmSignal,
      sqlite3QueuePop]
  · by_cases h2 : eFlag = SQLITE_SHM_EXCLUSIVE
        ∧ (maskAnd (WCDBShmGetExclMask (WCDBFileGetShm files front.pFile)) oMask ≠ 0
            ∨ maskAnd (WCDBShmGetSharedMask (WCDBFileGetShm files front.pFile)) oMask ≠ 0)
    · simp [WCDBShmWait, sqlite3QueueFront, WCDBShmNodeGetWaitQueue, h1, h2, WCDBShmSignal,
        sqlite3QueuePop]
    · simp [WCDBShmWait, sqlite3QueueFront, WCDBShmNodeGetWaitQueue, h1, h2,
        sqlite3QueuePush, sqlite3QueuePushFront, newShmWaitInfo]

/-- For an `EXCLUSIVE` request the conflict rule is the C test of `WCDBShmWait`. -/
theorem requestConflicts_exclusive_iff (eFlag oMask : Int) (holder : unixShm)
    (he : eFlag = SQLITE_SHM_EXCLUSIVE) :
    requestConflicts eFlag oMask holder
      ↔ (maskAnd (WCDBShmGetExclMask holder) oMask ≠ 0
          ∨ maskAnd (WCDBShmGetSharedMask holder) oMask ≠ 0) := by
  have hne : ¬ (SQLITE_SHM_EXCLUSIVE = SQLITE_SHM_SHARED) := by decide
  unfold requestConflicts
  rw [he, maskAnd_ne_zero_iff, maskAnd_ne_zero_iff]
  simp [hne]

/-- The preemption condition of `WCDBShmWait`, worded with `requestConflicts`. -/
theorem shmPreempt_iff (files : Nat → unixFile) (pFile : Nat) (oMask eFlag : Int)
    (front : WCDBShmWaitInfo) :
    ((front.eFlag = SQLITE_SHM_EXCLUSIVE
        ∧ requestConflicts front.eFlag front.oMask (WCDBFileGetShm files pFile))
      ∨ (eFlag = SQLITE_SHM_EXCLUSIVE
        ∧ requestConflicts eFlag oMask (WCDBFileGetShm files front.pFile)))
    ↔ ((front.eFlag = SQLITE_SHM_EXCLUSIVE
            ∧ (maskAnd (WCDBShmGetExclMask (WCDBFileGetShm files pFile)) front.oMask ≠ 0
                ∨ maskAnd (WCDBShmGetSharedMask (WCDBFileGetShm files pFile))
                    front.oMask ≠ 0))
          ∨ (eFlag = SQLITE_SHM_EXCLUSIVE
            ∧ (maskAnd (WCDBShmGetExclMask (WCDBFileGetShm files front.pFile)) oMask ≠ 0
                ∨ maskAnd (WCDBShmGetSharedMask (WCDBFileGetShm files front.pFile))
                    oMask ≠ 0))) := by
  constructor
  · rintro (⟨he, hc⟩ | ⟨he, hc⟩)
    · exact Or.inl ⟨he, (requestConflicts_exclusive_iff _ _ _ he).mp hc⟩
    · exact Or.inr ⟨he, (requestConflicts_exclusive_iff _ _ _ he).mp hc⟩
  · rintro (⟨he, hc⟩ | ⟨he, hc⟩)
    · exact Or.inl ⟨he, (requestConflicts_exclusive_iff _ _ _ he).mpr hc⟩
    · exact Or.inr ⟨he, (requestConflicts_exclusive_iff _ _ _ he).mpr hc⟩

/-! ## Lemmas on the fuel of the loops -/

/-- The loop of `WCDBTrySignal` returns exactly when the fuel exceeds the number
of records it signals: its body runs once per signalled record and once more. -/
theorem WCDBTrySignal_loop_fuel (files : Nat → unixFile) (l : Int) (n : Nat) :
    ∀ (q : List WCDBWaitInfo) (fuel : Nat),
      WCDBTrySignal_loop files fuel ⟨l, n, q⟩ =
        if (q.takeWhile
              (fun r => decide (WCDBTrySignal_rc files ⟨l, n, []⟩ r = SQLITE_OK))).length < fuel
        then
          some (⟨l, n, q.dropWhile
                  (fun r => decide (WCDBTrySignal_rc files ⟨l, n, []⟩ r = SQLITE_OK))⟩,
                q.takeWhile
                  (fun r => decide (WCDBTrySignal_rc files ⟨l, n, []⟩ r = SQLITE_OK)))
        else none := by
  intro q
  induction q with
  | nil =>
    intro fuel
    cases fuel with
    | zero => simp [WCDBTrySignal_loop]
    | succ k => simp [WCDBTrySignal_loop, sqlite3QueueFront, WCDBInodeGetWaitQueue]
  | cons r rest ih =>
    intro fuel
    cases fuel with
    | zero => simp [WCDBTrySignal_loop]
    | succ k =>
      by_cases hrc : WCDBTrySignal_rc files ⟨l, n, []⟩ r = SQLITE_OK
      · have hrc' : WCDBTrySignal_rc files ⟨l, n, r :: rest⟩ r = SQLITE_OK := hrc
        by_cases hlt : (rest.takeWhile
              (fun r => decide (WCDBTrySignal_rc files ⟨l, n, []⟩ r = SQLITE_OK))).length < k
        · simp [WCDBTrySignal_loop, sqlite3QueueFront, WCDBInodeGetWaitQueue, hrc', WCDBSignal,
            sqlite3QueuePop, ih k, hrc, List.takeWhile, List.dropWhile, hlt]
        · simp [WCDBTrySignal_loop, sqlite3QueueFront, WCDBInodeGetWaitQueue, hrc', WCDBSignal,
            sqlite3QueuePop, ih k, hrc, List.takeWhile, List.dropWhile, hlt]
      · have hrc' : ¬ WCDBTrySignal_rc files ⟨l, n, r :: rest⟩ r = SQLITE_OK := hrc
        simp [WCDBTrySignal_loop, sqlite3QueueFront, WCDBInodeGetWaitQueue, hrc', hrc,
          List.takeWhile, List.dropWhile]

/-- The loop of `WCDBShmTrySignal` returns exactly when the fuel exceeds the
number of records it signals. -/
theorem WCDBShmTrySignal_loop_fuel (holders : List unixShm) :
    ∀ (q : List WCDBShmWaitInfo) (fuel : Nat),
      WCDBShmTrySignal_loop fuel ⟨holders, q⟩ =
        if (q.takeWhile
              (fun r => decide (WCDBShmTrySignal_rc ⟨holders, []⟩ r = SQLITE_OK))).length < fuel
        then
          some (⟨holders, q.dropWhile
                  (fun r => decide (WCDBShmTrySignal_rc ⟨holders, []⟩ r = SQLITE_OK))⟩,
                q.takeWhile
                  (fun r => decide (WCDBShmTrySignal_rc ⟨holders, []⟩ r = SQLITE_OK)))
        else none := by
  intro q
  induction q with
  | nil =>
    intro fuel
    cases fuel with
    | zero => simp [WCDBShmTrySignal_loop]
    | succ k => simp [WCDBShmTrySignal_loop, sqlite3QueueFront, WCDBShmNodeGetWaitQueue]
  | cons r rest ih =>
    intro fuel
    cases fuel with
    | zero => simp [WCDBShmTrySignal_loop]
    | succ k =>
      by_cases hrc : WCDBShmTrySignal_rc ⟨holders, []⟩ r = SQLITE_OK
      · have hrc' : WCDBShmTrySignal_rc ⟨holders, r :: rest⟩ r = SQLITE_OK := hrc
        by_cases hlt : (rest.takeWhile
              (fun r => decide (WCDBShmTrySignal_rc ⟨holders, []⟩ r = SQLITE_OK))).length < k
        · simp [WCDBShmTrySignal_loop, sqlite3QueueFront, WCDBShmNodeGetWaitQueue, hrc',
            WCDBShmSignal, sqlite3QueuePop, ih k, hrc, List.takeWhile, List.dropWhile, hlt]
        · simp [WCDBShmTrySignal_loop, sqlite3QueueFront, WCDBShmNodeGetWaitQueue, hrc',
            WCDBShmSignal, sqlite3QueuePop, ih k, hrc, List.takeWhile, List.dropWhile, hlt]
      · have hrc' : ¬ WCDBShmTrySignal_rc ⟨holders, r :: rest⟩ r = SQLITE_OK := hrc
        simp [WCDBShmTrySignal_loop, sqlite3QueueFront, WCDBShmNodeGetWaitQueue, hrc', hrc,
          List.takeWhile, List.dropWhile]

/-! ## Lemmas on runs -/

/-- One event only appends to the signalled and the created records, and the
signalled records followed by the queue are, up to order, what they were plus
the records created. -/
theorem stepFile_perm (st st' : FileRun) (op : FileOp) (h : stepFile st op = some st') :
    ∃ w c, st'.woken = st.woken ++ w ∧ st'.created = st.created ++ c
      ∧ (st'.woken ++ st'.pInode.waitQueue).Perm (st.woken ++ st.pInode.waitQueue ++ c)
      ∧ st'.pInode.waitQueue.length ≤ st.pInode.waitQueue.length + c.length
      ∧ c.length ≤ 1 := by
  obtain ⟨pInode, woken, created⟩ := st
  cases op with
  | wait env pFile eFileLock eFlag =>
    simp only [stepFile] at h
    cases hq : pInode.waitQueue with
    | nil =>
      rw [WCDBWait_nil env pInode pFile eFileLock eFlag hq] at h
      by_cases hm : env.mallocOk = true
      · rw [if_pos hm] at h
        simp only [Option.some.injEq] at h
        subst h
        exact ⟨[], [newWaitInfo env pFile eFileLock eFlag], by simp, by simp, by simp,
          by simp, by simp⟩
      · rw [if_neg hm] at h
        simp at h
    | cons front rest =>
      rw [WCDBWait_cons env pInode pFile eFileLock eFlag front rest hq] at h
      by_cases hc : (eFileLock = EXCLUSIVE_LOCK ∧ front.eFileLock > SHARED_LOCK)
          ∨ (front.eFileLock = EXCLUSIVE_LOCK ∧ eFileLock > SHARED_LOCK)
      · rw [if_pos hc] at h
        simp only [Option.some.injEq] at h
        subst h
        exact ⟨[front], [], by simp, by simp, by simp, by simp, by simp⟩
      · rw [if_neg hc] at h
        by_cases hm : env.mallocOk = true
        · rw [if_pos hm] at h
          simp only [Option.some.injEq] at h
          subst h
          refine ⟨[], [newWaitInfo env pFile eFileLock eFlag], by simp, by simp, ?_, ?_,
            by simp⟩
          · cases hmain : env.isMain
            · simp
            · simp only [List.append_nil, if_true]
              exact (List.perm_middle).trans (List.perm_append_singleton _ _).symm
          · cases hmain : env.isMain <;> simp
        · rw [if_neg hm] at h
          simp at h
  | trySignal files =>
    simp only [stepFile, WCDBTrySignal_eq, Option.some.injEq] at h
    subst h
    refine ⟨_, [], rfl, by simp, ?_, ?_, by simp⟩
    · simp [List.takeWhile_append_dropWhile]
    · simpa using (List.dropWhile_sublist _).length_le
  | signal =>
    simp only [stepFile, Option.some.injEq] at h
    subst h
    refine ⟨_, [], rfl, by simp, ?_, ?_, by simp⟩
    · obtain ⟨l, n, q⟩ := pInode
      cases q <;> simp [WCDBSignal, sqlite3QueuePop, WCDBInodeGetWaitQueue]
    · obtain ⟨l, n, q⟩ := pInode
      cases q <;> simp [WCDBSignal, sqlite3QueuePop, WCDBInodeGetWaitQueue]
  | setLock eFileLock nShared =>
    simp only [stepFile, Option.some.injEq] at h
    subst h
    exact ⟨[], [], by simp, by simp, by simp, by simp, by simp⟩

/-- A run only appends to the signalled and the created records, and the
signalled records followed by the queue are, up to order, what they were plus
the records created. -/
theorem runFile_perm : ∀ (ops : List FileOp) (st fin : FileRun),
    runFile st ops = some fin →
    ∃ w c, fin.woken = st.woken ++ w ∧ fin.created = st.created ++ c
      ∧ (fin.woken ++ fin.pInode.waitQueue).Perm (st.woken ++ st.pInode.waitQueue ++ c)
      ∧ fin.pInode.waitQueue.length ≤ st.pInode.waitQueue.length + c.length
      ∧ c.length ≤ ops.length := by
  intro ops
  induction ops with
  | nil =>
    intro st fin h
    simp only [runFile, Option.some.injEq] at h
    subst h
    exact ⟨[], [], by simp, by simp, by simp, by simp, by simp⟩
  | cons op ops ih =>
    intro st fin h
    simp only [runFile] at h
    cases hs : stepFile st op with
    | none => simp [hs] at h
    | some st' =>
      rw [hs] at h
      obtain ⟨w1, c1, hw1, hc1, hp1, hl1, hn1⟩ := stepFile_perm st st' op hs
      obtain ⟨w2, c2, hw2, hc2, hp2, hl2, hn2⟩ := ih st' fin h
      refine ⟨w1 ++ w2, c1 ++ c2, by simp [hw2, hw1], by simp [hc2, hc1], ?_, ?_, ?_⟩
      · refine hp2.trans ?_
        have := hp1.append_right c2
        simpa [List.append_assoc] using this
      · simp only [List.length_append]
        omega
      · simp only [List.length_append, List.length_cons]
        omega

/-- In a run from an empty queue the signalled records followed by the queue
are, up to order, the records created. -/
theorem runFile_start_perm (eFileLock : Int) (nShared : Nat) (ops : List FileOp)
    (fin : FileRun) (h : runFile (startRun eFileLock nShared) ops = some fin) :
    (fin.woken ++ fin.pInode.waitQueue).Perm fin.created := by
  obtain ⟨w, c, _, hc, hp, _, _⟩ := runFile_perm ops _ fin h
  simp only [startRun, List.nil_append] at hc hp
  rw [hc]
  exact hp

/-- A run of two lists of events is the run of the second from where the first
ends. -/
theorem runFile_append : ∀ (ops ops' : List FileOp) (st : FileRun),
    runFile st (ops ++ ops') =
      match runFile st ops with
      | none => none
      | some mid => runFile mid ops' := by
  intro ops
  induction ops with
  | nil => intro ops' st; rfl
  | cons op ops ih =>
    intro ops' st
    simp only [List.cons_append, runFile]
    cases stepFile st op with
    | none => rfl
    | some st' => exact ih ops' st'

/-- A sequence of `WCDBWait` calls returns when every allocation succeeds. -/
theorem runFile_waitOps_some : ∀ (waits : List WaitCall) (st : FileRun),
    (∀ w ∈ waits, w.env.mallocOk = true) → ∃ mid, runFile st (waitOps waits) = some mid := by
  intro waits
  induction waits with
  | nil => intro st _; exact ⟨st, rfl⟩
  | cons w ws ih =>
    intro st hall
    have hm : w.env.mallocOk = true := hall w (List.mem_cons_self _ _)
    have hstep : ∃ st', stepFile st (FileOp.wait w.env w.pFile w.eFileLock w.eFlag)
        = some st' := by
      simp only [stepFile]
      cases hq : st.pInode.waitQueue with
      | nil =>
        rw [WCDBWait_nil w.env st.pInode w.pFile w.eFileLock w.eFlag hq, if_pos hm]
        exact ⟨_, rfl⟩
      | cons front rest =>
        rw [WCDBWait_cons w.env st.pInode w.pFile w.eFileLock w.eFlag front rest hq]
        by_cases hc : (w.eFileLock = EXCLUSIVE_LOCK ∧ front.eFileLock > SHARED_LOCK)
            ∨ (front.eFileLock = EXCLUSIVE_LOCK ∧ w.eFileLock > SHARED_LOCK)
        · rw [if_pos hc]
          exact ⟨_, rfl⟩
        · rw [if_neg hc, if_pos hm]
          exact ⟨_, rfl⟩
    obtain ⟨st', hst'⟩ := hstep
    obtain ⟨mid, hmid⟩ := ih st' (fun x hx => hall x (List.mem_cons_of_mem _ hx))
    exact ⟨mid, by simp only [waitOps, List.map_cons, runFile, hst']; exact hmid⟩

/-- The records a sequence of `WCDBWait` calls creates are records of these
calls, in the order of the calls. -/
theorem runFile_waitOps_created : ∀ (waits : List WaitCall) (st mid : FileRun),
    runFile st (waitOps waits) = some mid →
    ∃ c, mid.created = st.created ++ c ∧ c.Sublist (waits.map waitCallRecord) := by
  intro waits
  induction waits with
  | nil =>
    intro st mid h
    simp only [waitOps, List.map_nil, runFile, Option.some.injEq] at h
    subst h
    exact ⟨[], by simp, by simp⟩
  | cons w ws ih =>
    intro st mid h
    simp only [waitOps, List.map_cons, runFile] at h
    cases hs : stepFile st (FileOp.wait w.env w.pFile w.eFileLock w.eFlag) with
    | none => simp [hs] at h
    | some st' =>
      rw [hs] at h
      obtain ⟨c2, hc2, hsub⟩ := ih st' mid h
      simp only [stepFile] at hs
      cases hw : WCDBWait w.env st.pInode w.pFile w.eFileLock w.eFlag with
      | none => simp [hw] at hs
      | some res =>
        rw [hw] at hs
        simp only [Option.some.injEq] at hs
        subst hs
        cases hb : res.blocked with
        | false =>
          refine ⟨c2, ?_, ?_⟩
          · simpa [hb] using hc2
          · simpa using hsub.cons (waitCallRecord w)
        | true =>
          refine ⟨waitCallRecord w :: c2, ?_, ?_⟩
          · simpa [hb, waitCallRecord] using hc2
          · simpa using hsub.cons₂ (waitCallRecord w)

/-- As many compatible state changes as there are queued records, each
triggering `WCDBTrySignal`, empty the queue. -/
theorem runFile_changeOps_empties : ∀ (changes : List StateChange) (st : FileRun),
    compatibleChanges st changes → st.pInode.waitQueue.length ≤ changes.length →
    ∃ fin, runFile st (changeOps changes) = some fin ∧ fin.pInode.waitQueue = []
      ∧ fin.created = st.created := by
  intro changes
  induction changes with
  | nil =>
    intro st _ hlen
    refine ⟨st, rfl, ?_, rfl⟩
    exact List.length_eq_zero.mp (Nat.le_zero.mp hlen)
  | cons c cs ih =>
    intro st hcompat hlen
    obtain ⟨hfront, hnext⟩ := hcompat
    obtain ⟨⟨l, n, q⟩, woken, created⟩ := st
    have hrun : runFile ⟨⟨l, n, q⟩, woken, created⟩
          [FileOp.setLock c.eFileLock c.nShared, FileOp.trySignal c.files]
        = some ⟨⟨c.eFileLock, c.nShared,
                  q.dropWhile (fun r => decide (WCDBTrySignal_rc c.files
                     ⟨c.eFileLock, c.nShared, q⟩ r = SQLITE_OK))⟩,
                woken ++ q.takeWhile (fun r => decide (WCDBTrySignal_rc c.files
                     ⟨c.eFileLock, c.nShared, q⟩ r = SQLITE_OK)),
                created⟩ := by
      simp [runFile, stepFile, WCDBTrySignal_eq]
    have hshort : (q.dropWhile (fun r => decide (WCDBTrySignal_rc c.files
          ⟨c.eFileLock, c.nShared, q⟩ r = SQLITE_OK))).length ≤ cs.length := by
      cases q with
      | nil => simp
      | cons front rest =>
        have hg := hfront front rfl
        simp only [List.length_cons] at hlen
        have hle := (@List.dropWhile_sublist _ rest (fun r => decide (WCDBTrySignal_rc c.files
          ⟨c.eFileLock, c.nShared, front :: rest⟩ r = SQLITE_OK))).length_le
        have hd : (front :: rest).dropWhile (fun r => decide (WCDBTrySignal_rc c.files
              ⟨c.eFileLock, c.nShared, front :: rest⟩ r = SQLITE_OK))
            = rest.dropWhile (fun r => decide (WCDBTrySignal_rc c.files
              ⟨c.eFileLock, c.nShared, front :: rest⟩ r = SQLITE_OK)) := by
          simp only [List.dropWhile]
          have : decide (WCDBTrySignal_rc c.files
              ⟨c.eFileLock, c.nShared, front :: rest⟩ front = SQLITE_OK) = true := by
            simpa using hg
          rw [this]
        rw [hd]
        omega
    obtain ⟨fin, hfin, hq, hcr⟩ := ih _ (hnext _ hrun) hshort
    refine ⟨fin, ?_, hq, hcr⟩
    have happ := runFile_append [FileOp.setLock c.eFileLock c.nShared, FileOp.trySignal c.files]
      (changeOps cs) ⟨⟨l, n, q⟩, woken, created⟩
    rw [hrun] at happ
    simp only [changeOps]
    simpa using happ.trans hfin

/-! ## Lemmas on the provider registry -/

theorem select_provider_loop_eq_none_iff (name : String) (l : List sqlcipher_named_provider) :
    select_provider_loop name l = none ↔ ∀ np ∈ l, np.name ≠ name := by
  induction l with
  | nil => simp [select_provider_loop]
  | cons a t ih =>
    by_cases h : a.name = name
    · simp [select_provider_loop, h]
    · simp [select_provider_loop, h, ih]

theorem select_provider_loop_some_mem (name : String) (q : sqlcipher_provider)
    (l : List sqlcipher_named_provider) (h : select_provider_loop name l = some q) :
    ∃ np ∈ l, np.name = name ∧ np.p = q := by
  induction l with
  | nil => simp [select_provider_loop] at h
  | cons a t ih =>
    by_cases ha : a.name = name
    · simp only [select_provider_loop, ha, if_true, Option.some.injEq] at h
      exact ⟨a, List.mem_cons_self _ _, ha, h⟩
    · simp only [select_provider_loop, ha, if_false] at h
      obtain ⟨np, hnp, hn, hp⟩ := ih h
      exact ⟨np, List.mem_cons_of_mem _ hnp, hn, hp⟩

/-- With pairwise distinct names, the loop finds exactly the entry of the name. -/
theorem select_provider_loop_of_mem (name : String) (l : List sqlcipher_named_provider)
    (hnd : (l.map (fun np => np.name)).Nodup) (np : sqlcipher_named_provider) (hnp : np ∈ l)
    (hn : np.name = name) : select_provider_loop name l = some np.p := by
  induction l with
  | nil => simp at hnp
  | cons a t ih =>
    simp only [List.map_cons, List.nodup_cons, List.mem_map, not_exists, not_and] at hnd
    rcases List.mem_cons.mp hnp with h | h
    · subst h
      simp [select_provider_loop, hn]
    · have ha : a.name ≠ name := by
        intro hx
        exact hnd.1 np h (by rw [hn, hx])
      simp only [select_provider_loop, ha, if_false]
      exact ih hnd.2 h

theorem find_existing_lt_iff (name : String) (l : List sqlcipher_named_provider) :
    find_existing name l < l.length ↔ ∃ np ∈ l, np.name = name := by
  induction l with
  | nil => simp [find_existing]
  | cons a t ih =>
    by_cases h : a.name = name
    · simp [find_existing, h]
    · simp [find_existing, h, ih]

/-- Replacing the entry the loop finds: the name now selects the new provider,
every other name selects what it did, and the list of names is unchanged. -/
theorem select_provider_loop_set (name : String) (q : sqlcipher_provider)
    (l : List sqlcipher_named_provider) (h : find_existing name l < l.length) :
    select_provider_loop name (l.set (find_existing name l) { p := q, name := name }) = some q
    ∧ (∀ other, other ≠ name →
        select_provider_loop other (l.set (find_existing name l) { p := q, name := name })
          = select_provider_loop other l)
    ∧ (l.set (find_existing name l) { p := q, name := name }).map (fun np => np.name)
        = l.map (fun np => np.name) := by
  induction l with
  | nil => simp [find_existing] at h
  | cons a t ih =>
    by_cases ha : a.name = name
    · refine ⟨by simp [find_existing, ha, select_provider_loop], ?_, ?_⟩
      · intro other ho
        have h1 : ¬ a.name = other := fun hx => ho (hx.symm.trans ha)
        have h2 : ¬ name = other := fun hx => ho hx.symm
        simp [find_existing, ha, select_provider_loop, h1, h2]
      · simp [find_existing, ha]
    · have ht : find_existing name t < t.length := by
        simpa [find_existing, ha] using h
      obtain ⟨h1, h2, h3⟩ := ih ht
      refine ⟨by simpa [find_existing, ha, select_provider_loop] using h1, ?_, ?_⟩
      · intro other ho
        by_cases hao : a.name = other
        · subst hao
          simp [find_existing, ha, select_provider_loop]
        · simpa [find_existing, ha, select_provider_loop, hao] using h2 other ho
      · simpa [find_existing, ha] using h3

/-- Appending an entry under a name the loop does not find: the name now selects
the new provider and every other name selects what it did. -/
theorem select_provider_loop_append (name : String) (q : sqlcipher_provider)
    (l : List sqlcipher_named_provider) (h : ¬ find_existing name l < l.length) :
    select_provider_loop name (l ++ [{ p := q, name := name }]) = some q
    ∧ (∀ other, other ≠ name →
        select_provider_loop other (l ++ [{ p := q, name := name }])
          = select_provider_loop other l) := by
  induction l with
  | nil =>
    refine ⟨by simp [select_provider_loop], ?_⟩
    intro other ho
    have h2 : ¬ name = other := fun hx => ho hx.symm
    simp [select_provider_loop, h2]
  | cons a t ih =>
    by_cases ha : a.name = name
    · exact absurd (by simp [find_existing, ha]) h
    · have ht : ¬ find_existing name t < t.length := by
        simpa [find_existing, ha] using h
      obtain ⟨h1, h2⟩ := ih ht
      refine ⟨by simpa [select_provider_loop, ha] using h1, ?_⟩
      intro other ho
      by_cases hao : a.name = other
      · simp [select_provider_loop, hao]
      · simpa [select_provider_loop, hao] using h2 other ho

/-- Removing slot `i` by moving the last slot into it leaves, up to order, the
list without its entry `i`. -/
theorem swap_remove_perm : ∀ (l : List sqlcipher_named_provider) (i : Nat),
    i < l.length → (swap_remove i l).Perm (l.eraseIdx i) := by
  intro l
  induction l with
  | nil => intro i h; simp at h
  | cons x t ih =>
    intro i h
    cases t with
    | nil =>
      have hi : i = 0 := by simpa using h
      subst hi
      simp [swap_remove]
    | cons y t' =>
      cases hlast : (y :: t').getLast? with
      | none => simp at hlast
      | some last =>
        have hsplit : (y :: t').dropLast ++ [last] = y :: t' :=
          List.dropLast_append_getLast? last hlast
        cases i with
        | zero =>
          have e : swap_remove 0 (x :: y :: t') = last :: (y :: t').dropLast := by
            simp [swap_remove, List.getLast?_cons_cons, hlast]
          rw [e]
          simp only [List.eraseIdx_cons_zero]
          have hp : (last :: (y :: t').dropLast).Perm ((y :: t').dropLast ++ [last]) :=
            (List.perm_append_singleton _ _).symm
          rw [hsplit] at hp
          exact hp
        | succ j =>
          have hj : j < (y :: t').length := by simpa using h
          have e : swap_remove (j + 1) (x :: y :: t') = x :: swap_remove j (y :: t') := by
            simp [swap_remove, List.getLast?_cons_cons, hlast]
          rw [e]
          simp only [List.eraseIdx_cons_succ]
          exact (ih j hj).cons x

/-- Erasing the entry the loop finds: every other name selects what it did. -/
theorem select_provider_loop_eraseIdx_other (name other : String) (ho : other ≠ name)
    (l : List sqlcipher_named_provider) :
    select_provider_loop other (l.eraseIdx (find_existing name l))
      = select_provider_loop other l := by
  induction l with
  | nil => simp [find_existing]
  | cons a t ih =>
    by_cases ha : a.name = name
    · have h1 : ¬ name = other := fun hx => ho hx.symm
      simp [find_existing, ha, select_provider_loop, h1]
    · by_cases hao : a.name = other
      · subst hao
        simp [find_existing, ha, select_provider_loop]
      · simpa [find_existing, ha, select_provider_loop, hao] using ih

/-- Erasing the entry the loop finds, when names are pairwise distinct: no entry
carries the name any more. -/
theorem eraseIdx_find_existing_names (name : String) (l : List sqlcipher_named_provider)
    (hnd : (l.map (fun np => np.name)).Nodup) :
    ∀ np ∈ l.eraseIdx (find_existing name l), np.name ≠ name := by
  induction l with
  | nil => simp [find_existing]
  | cons a t ih =>
    simp only [List.map_cons, List.nodup_cons, List.mem_map, not_exists, not_and] at hnd
    by_cases ha : a.name = name
    · intro np hnp
      simp only [find_existing, ha, if_true, List.eraseIdx_cons_zero] at hnp
      intro hx
      exact hnd.1 np hnp (by rw [hx, ha])
    · intro np hnp
      simp only [find_existing, ha, if_false, List.eraseIdx_cons_succ, List.mem_cons] at hnp
      rcases hnp with h | h
      · rw [h]
        exact ha
      · exact ih hnd.2 np h

/-- With pairwise distinct names the provider a name selects does not depend on
the order of the list. -/
theorem select_provider_loop_perm (name : String) (l l' : List sqlcipher_named_provider)
    (hnd : (l.map (fun np => np.name)).Nodup) (hp : l.Perm l') :
    select_provider_loop name l = select_provider_loop name l' := by
  have hnd' : (l'.map (fun np => np.name)).Nodup := (hp.map _).nodup_iff.mp hnd
  cases h : select_provider_loop name l with
  | none =>
    have hall := (select_provider_loop_eq_none_iff name l).mp h
    exact ((select_provider_loop_eq_none_iff name l').mpr
      (fun np hnp => hall np (hp.mem_iff.mpr hnp))).symm
  | some q =>
    obtain ⟨np, hnp, hn, hq⟩ := select_provider_loop_some_mem name q l h
    rw [select_provider_loop_of_mem name l' hnd' np (hp.mem_iff.mp hnp) hn, hq]

/-- The effect of `sqlcipher_unregister_custom_provider` on a list with pairwise
distinct names in which the name is found. -/
theorem swap_remove_find_existing (name : String) (l : List sqlcipher_named_provider)
    (hnd : (l.map (fun np => np.name)).Nodup) (h : find_existing name l < l.length) :
    ((swap_remove (find_existing name l) l).map (fun np => np.name)).Nodup
    ∧ (swap_remove (find_existing name l) l).length + 1 = l.length
    ∧ select_provider_loop name (swap_remove (find_existing name l) l) = none
    ∧ (∀ other, other ≠ name →
        select_provider_loop other (swap_remove (find_existing name l) l)
          = select_provider_loop other l) := by
  have hp := swap_remove_perm l (find_existing name l) h
  have hsub : ((l.eraseIdx (find_existing name l)).map (fun np => np.name)).Sublist
      (l.map (fun np => np.name)) := (List.eraseIdx_sublist l _).map _
  have hnde : ((l.eraseIdx (find_existing name l)).map (fun np => np.name)).Nodup :=
    hnd.sublist hsub
  have hnds : ((swap_remove (find_existing name l) l).map (fun np => np.name)).Nodup :=
    (hp.map _).nodup_iff.mpr hnde
  refine ⟨hnds, ?_, ?_, ?_⟩
  · rw [hp.length_eq, List.length_eraseIdx, if_pos h]
    omega
  · rw [select_provider_loop_perm name _ _ hnds hp]
    exact (select_provider_loop_eq_none_iff name _).mpr
      (eraseIdx_find_existing_names name l hnd)
  · intro other ho
    rw [select_provider_loop_perm other _ _ hnds hp]
    exact select_provider_loop_eraseIdx_other name other ho l

/-- What `sqlcipher_register_custom_provider` returns: `SQLITE_OK` exactly when
the allocations it needs succeed, and then the entry the loop finds is replaced
in place, or, when it finds none, the new entry is appended; otherwise
`SQLITE_NOMEM` and the list is unchanged. -/
theorem sqlcipher_register_custom_provider_list (fallback_provider : sqlcipher_provider)
    (reallocOk mallocOk : Bool) (R : ProviderRegistry) (name : String)
    (p : sqlcipher_provider) :
    ((sqlcipher_register_custom_provider fallback_provider reallocOk mallocOk R name p).1
        = SQLITE_OK
      ∧ (mallocOk = true
          ∧ (custom_providers_count R ≥ R.custom_providers_capacity → reallocOk = true))
      ∧ (sqlcipher_register_custom_provider fallback_provider reallocOk mallocOk R name p).2.custom_providers
        = (if find_existing name R.custom_providers < custom_providers_count R then
            R.custom_providers.set (find_existing name R.custom_providers)
              { p := provider_overload fallback_provider p, name := name }
           else R.custom_providers ++ [{ p := provider_overload fallback_provider p,
                                         name := name }]))
    ∨ ((sqlcipher_register_custom_provider fallback_provider reallocOk mallocOk R name p).1
        = SQLITE_NOMEM
      ∧ ¬ (mallocOk = true
          ∧ (custom_providers_count R ≥ R.custom_providers_capacity → reallocOk = true))
      ∧ (sqlcipher_register_custom_provider fallback_provider reallocOk mallocOk R name p).2.custom_providers
        = R.custom_providers) := by
  simp only [sqlcipher_register_custom_provider, custom_providers_count]
  by_cases hfull : R.custom_providers.length ≥ R.custom_providers_capacity
  · cases reallocOk <;> cases mallocOk <;>
      by_cases hf : find_existing name R.custom_providers < R.custom_providers.length <;>
      simp [hfull, hf, SQLITE_OK, SQLITE_NOMEM]
  · cases reallocOk <;> cases mallocOk <;>
      by_cases hf : find_existing name R.custom_providers < R.custom_providers.length <;>
      simp [hfull, hf, SQLITE_OK, SQLITE_NOMEM]

/-- `sqlcipher_register_custom_provider` keeps the count within the capacity. -/
theorem sqlcipher_register_custom_provider_capacity (fallback_provider : sqlcipher_provider)
    (reallocOk mallocOk : Bool) (R : ProviderRegistry) (name : String)
    (p : sqlcipher_provider)
    (hcap : custom_providers_count R ≤ R.custom_providers_capacity) :
    custom_providers_count
        (sqlcipher_register_custom_provider fallback_provider reallocOk mallocOk R name p).2
      ≤ (sqlcipher_register_custom_provider fallback_provider reallocOk mallocOk R name
          p).2.custom_providers_capacity := by
  simp only [sqlcipher_register_custom_provider, custom_providers_count] at hcap ⊢
  by_cases hfull : R.custom_providers.length ≥ R.custom_providers_capacity
  · cases reallocOk <;> cases mallocOk <;>
      by_cases hf : find_existing name R.custom_providers < R.custom_providers.length <;>
      simp [hfull, hf] <;> omega
  · cases reallocOk <;> cases mallocOk <;>
      by_cases hf : find_existing name R.custom_providers < R.custom_providers.length <;>
      simp [hfull, hf] <;> omega

/-- One call keeps the names pairwise distinct and the count within the
capacity. -/
theorem stepRegistry_inv (fallback_provider : sqlcipher_provider) (R : ProviderRegistry)
    (op : RegistryOp)
    (hnd : (R.custom_providers.map (fun np => np.name)).Nodup)
    (hcap : custom_providers_count R ≤ R.custom_providers_capacity) :
    ((stepRegistry fallback_provider R op).custom_providers.map (fun np => np.name)).Nodup
    ∧ custom_providers_count (stepRegistry fallback_provider R op)
        ≤ (stepRegistry fallback_provider R op).custom_providers_capacity := by
  cases op with
  | register reallocOk mallocOk name p =>
    refine ⟨?_, sqlcipher_register_custom_provider_capacity _ _ _ R name p hcap⟩
    simp only [stepRegistry]
    rcases sqlcipher_register_custom_provider_list fallback_provider reallocOk mallocOk R
        name p with ⟨_, _, hl⟩ | ⟨_, _, hl⟩
    · rw [hl]
      by_cases hf : find_existing name R.custom_providers < custom_providers_count R
      · rw [if_pos hf, (select_provider_loop_set name _ R.custom_providers hf).2.2]
        exact hnd
      · rw [if_neg hf]
        have hnot : ∀ np ∈ R.custom_providers, np.name ≠ name := by
          intro np hnp hn
          exact hf ((find_existing_lt_iff name R.custom_providers).mpr ⟨np, hnp, hn⟩)
        simp only [List.map_append, List.map_cons, List.map_nil]
        refine List.Nodup.append hnd (List.nodup_singleton _) ?_
        intro x hx hx'
        simp only [List.mem_singleton] at hx'
        subst hx'
        obtain ⟨np, hnp, hn⟩ := List.mem_map.mp hx
        exact hnot np hnp hn
    · rw [hl]
      exact hnd
  | unregister name =>
    simp only [stepRegistry, sqlcipher_unregister_custom_provider]
    by_cases hf : find_existing name R.custom_providers < custom_providers_count R
    · rw [if_pos hf]
      obtain ⟨h1, h2, _, _⟩ := swap_remove_find_existing name R.custom_providers hnd hf
      refine ⟨h1, ?_⟩
      simp only [custom_providers_count] at hcap ⊢
      omega
    · rw [if_neg hf]
      exact ⟨hnd, hcap⟩

/-- After any sequence of calls from the empty list the names are pairwise
distinct and the count is within the capacity. -/
theorem runRegistry_inv (fallback_provider : sqlcipher_provider) :
    ∀ (ops : List RegistryOp) (R : ProviderRegistry),
      (R.custom_providers.map (fun np => np.name)).Nodup →
      custom_providers_count R ≤ R.custom_providers_capacity →
      ((runRegistry fallback_provider R ops).custom_providers.map (fun np => np.name)).Nodup
      ∧ custom_providers_count (runRegistry fallback_provider R ops)
          ≤ (runRegistry fallback_provider R ops).custom_providers_capacity := by
  intro ops
  induction ops with
  | nil => intro R hnd hcap; exact ⟨hnd, hcap⟩
  | cons op ops ih =>
    intro R hnd hcap
    obtain ⟨h1, h2⟩ := stepRegistry_inv fallback_provider R op hnd hcap
    exact ih _ h1 h2

/-- One call about another name leaves what a name selects unchanged. -/
theorem stepRegistry_other (fallback_provider : sqlcipher_provider) (R : ProviderRegistry)
    (op : RegistryOp) (name : String)
    (hnd : (R.custom_providers.map (fun np => np.name)).Nodup)
    (hne : registryOpName op ≠ name) :
    select_provider_loop name (stepRegistry fallback_provider R op).custom_providers
      = select_provider_loop name R.custom_providers := by
  cases op with
  | register reallocOk mallocOk nm p =>
    simp only [registryOpName] at hne
    simp only [stepRegistry]
    rcases sqlcipher_register_custom_provider_list fallback_provider reallocOk mallocOk R
        nm p with ⟨_, _, hl⟩ | ⟨_, _, hl⟩
    · rw [hl]
      by_cases hf : find_existing nm R.custom_providers < custom_providers_count R
      · rw [if_pos hf]
        exact (select_provider_loop_set nm _ R.custom_providers hf).2.1 name
          (fun h => hne h.symm)
      · rw [if_neg hf]
        exact (select_provider_loop_append nm _ R.custom_providers hf).2 name
          (fun h => hne h.symm)
    · rw [hl]
  | unregister nm =>
    simp only [registryOpName] at hne
    simp only [stepRegistry, sqlcipher_unregister_custom_provider]
    by_cases hf : find_existing nm R.custom_providers < custom_providers_count R
    · rw [if_pos hf]
      exact (swap_remove_find_existing nm R.custom_providers hnd hf).2.2.2 name
        (fun h => hne h.symm)
    · rw [if_neg hf]

/-- Calls about other names leave what a name selects unchanged. -/
theorem runRegistry_other (fallback_provider : sqlcipher_provider) (name : String) :
    ∀ (ops : List RegistryOp) (R : ProviderRegistry),
      (R.custom_providers.map (fun np => np.name)).Nodup →
      custom_providers_count R ≤ R.custom_providers_capacity →
      (∀ op ∈ ops, registryOpName op ≠ name) →
      select_provider_loop name (runRegistry fallback_provider R ops).custom_providers
        = select_provider_loop name R.custom_providers := by
  intro ops
  induction ops with
  | nil => intro R _ _ _; rfl
  | cons op ops ih =>
    intro R hnd hcap hall
    obtain ⟨h1, h2⟩ := stepRegistry_inv fallback_provider R op hnd hcap
    simp only [runRegistry]
    rw [ih _ h1 h2 (fun o ho => hall o (List.mem_cons_of_mem _ ho))]
    exact stepRegistry_other fallback_provider R op name hnd (hall op (List.mem_cons_self _ _))

/-- The provider `select_provider` selects in a context with none selected: what
the loop finds for the name, the fallback when it finds nothing or no name is
given. -/
theorem select_provider_p (fallback_provider : sqlcipher_provider)
    (ctx_init : sqlcipher_provider → Int × Nat) (R : ProviderRegistry) (ctx : custom_ctx)
    (hctx : ctx.p = none) :
    (∀ name q, select_provider_loop name R.custom_providers = some q →
        (select_provider fallback_provider ctx_init R ctx (some name)).2.p = some q)
    ∧ (∀ name, select_provider_loop name R.custom_providers = none →
        (select_provider fallback_provider ctx_init R ctx (some name)).2.p
          = some fallback_provider)
    ∧ (select_provider fallback_provider ctx_init R ctx none).2.p = some fallback_provider := by
  refine ⟨?_, ?_, ?_⟩
  · intro name q h
    simp [select_provider, hctx, h]
  · intro name h
    simp [select_provider, hctx, h]
  · simp [select_provider, hctx]

/-- The slot the loop stops at holds an entry of the name. -/
theorem find_existing_getElem (name : String) (l : List sqlcipher_named_provider)
    (h : find_existing name l < l.length) :
    ∃ old, l[find_existing name l]? = some old ∧ old.name = name := by
  induction l with
  | nil => simp [find_existing] at h
  | cons a t ih =>
    by_cases ha : a.name = name
    · exact ⟨a, by simp [find_existing, ha], ha⟩
    · have ht : find_existing name t < t.length := by
        simpa [find_existing, ha] using h
      obtain ⟨old, hold, hn⟩ := ih ht
      exact ⟨old, by simpa [find_existing, ha] using hold, hn⟩

/-! ## Lemmas on runs of the region-lock coordinator -/

/-- C1: for every heap of files and every inode (lock level, sharer count, wait
queue), `WCDBTrySignal` returns, and the records it signals, in signalling
order, followed by the queue it leaves are the queue it found; every signalled
record is grantable (the `switch` of the loop body gives `SQLITE_OK` for it in
the unchanged resource state); the queue left is empty or starts with a record
that is not grantable; the signalled records are the longest such prefix (every
prefix of the queue made of grantable records is a prefix of them); lock level
and sharer count are untouched. -/
theorem C1_trySignal_wakes_longest_grantable_prefix (files : Nat → unixFile)
    (pInode : unixInodeInfo) :
    ∃ after woken, WCDBTrySignal files pInode = some (after, woken)
      ∧ woken ++ WCDBInodeGetWaitQueue after = WCDBInodeGetWaitQueue pInode
      ∧ (∀ r ∈ woken, WCDBTrySignal_rc files pInode r = SQLITE_OK)
      ∧ (WCDBInodeGetWaitQueue after = []
          ∨ ∃ r rest, WCDBInodeGetWaitQueue after = r :: rest
              ∧ WCDBTrySignal_rc files pInode r ≠ SQLITE_OK)
      ∧ (∀ pre, pre <+: WCDBInodeGetWaitQueue pInode →
          (∀ r ∈ pre, WCDBTrySignal_rc files pInode r = SQLITE_OK) → pre <+: woken)
      ∧ WCDBInodeGetFileLock after = WCDBInodeGetFileLock pInode
      ∧ WCDBInodeGetShared after = WCDBInodeGetShared pInode := by
  refine ⟨_, _, WCDBTrySignal_eq files pInode, ?_, ?_, ?_, ?_, rfl, rfl⟩
  · exact List.takeWhile_append_dropWhile _ _
  · intro r hr
    simpa using List.mem_takeWhile_imp hr
  · rcases dropWhile_nil_or_head
        (fun r => decide (WCDBTrySignal_rc files pInode r = SQLITE_OK)) pInode.waitQueue with h | h
    · exact Or.inl h
    · obtain ⟨r, rest, hd, hr⟩ := h
      exact Or.inr ⟨r, rest, hd, by simpa using hr⟩
  · intro pre hpre hall
    exact prefix_takeWhile_of_all _ _ pre hpre (fun r hr => by simpa using hall r hr)

/-- C1, at a concrete state: of the four queued records the first two are
grantable and the third is not; the first two are signalled, in queue order,
and the last two stay queued. -/
theorem C1_trySignal_wakes_longest_grantable_prefix_witness :
    ∃ after woken, WCDBTrySignal idleFiles cascadeInode = some (after, woken)
      ∧ woken = [bgWaiter 1, bgWaiter 2]
      ∧ WCDBInodeGetWaitQueue after = [exclWaiter, bgWaiter 3] := by
  obtain ⟨after, woken, h, _⟩ :=
    C1_trySignal_wakes_longest_grantable_prefix idleFiles cascadeInode
  have e : WCDBTrySignal idleFiles cascadeInode
      = some ({ cascadeInode with waitQueue := [exclWaiter, bgWaiter 3] },
              [bgWaiter 1, bgWaiter 2]) := by decide
  refine ⟨after, woken, h, ?_⟩
  rw [e] at h
  simp only [Option.some.injEq, Prod.mk.injEq] at h
  obtain ⟨ha, hw⟩ := h
  subst ha
  subst hw
  exact ⟨rfl, rfl⟩

/-- C3: when the front record has kind `SQLITE_WAIT_SHARED`, `WCDBTrySignal`
pops and signals it if and only if it is not the case that the lock level held
by the waiter's file differs from the resource's current lock level and (the
resource's level is at least `PENDING` or the level stored in the waiter's record
is above `SHARED`); when it is the case, nothing is signalled and the queue is
unchanged. -/
theorem C3_shared_waiter_grant_rule (files : Nat → unixFile) (pInode : unixInodeInfo)
    (r : WCDBWaitInfo) (rest : List WCDBWaitInfo)
    (hq : WCDBInodeGetWaitQueue pInode = r :: rest) (hk : r.eFlag = SQLITE_WAIT_SHARED) :
    ((∃ after woken, WCDBTrySignal files pInode = some (after, r :: woken)
        ∧ woken ++ WCDBInodeGetWaitQueue after = rest)
      ↔ ¬ ((WCDBFileGetFileLock files r.pFile : Int) ≠ WCDBInodeGetFileLock pInode
            ∧ (WCDBInodeGetFileLock pInode ≥ PENDING_LOCK ∨ r.eFileLock > SHARED_LOCK)))
    ∧ (((WCDBFileGetFileLock files r.pFile : Int) ≠ WCDBInodeGetFileLock pInode
            ∧ (WCDBInodeGetFileLock pInode ≥ PENDING_LOCK ∨ r.eFileLock > SHARED_LOCK)) →
        WCDBTrySignal files pInode = some (pInode, [])) := by
  have hrc : WCDBTrySignal_rc files pInode r = SQLITE_OK
      ↔ ¬ ((WCDBFileGetFileLock files r.pFile : Int) ≠ WCDBInodeGetFileLock pInode
            ∧ (WCDBInodeGetFileLock pInode ≥ PENDING_LOCK ∨ r.eFileLock > SHARED_LOCK)) := by
    unfold WCDBTrySignal_rc
    simp only [hk, if_true]
    split
    · rename_i h
      simp [h, SQLITE_BUSY, SQLITE_OK]
    · rename_i h
      simp [h]
  refine ⟨(WCDBTrySignal_front_iff files pInode r rest hq).trans hrc, ?_⟩
  intro h
  exact (WCDBTrySignal_front files pInode r rest hq).2 (fun hok => (hrc.mp hok) h)

/-- C3, at a concrete state: the resource is at `SHARED` with two sharers, the
front waiter's file holds no lock and its record stores `SHARED`, so it is
popped and signalled. -/
theorem C3_shared_waiter_grant_rule_witness :
    (∃ after woken, WCDBTrySignal idleFiles
        { eFileLock := SHARED_LOCK, nShared := 2, waitQueue := [sharedWaiter, exclWaiter] }
          = some (after, sharedWaiter :: woken)
        ∧ woken ++ WCDBInodeGetWaitQueue after = [exclWaiter]) :=
  (C3_shared_waiter_grant_rule idleFiles
      { eFileLock := SHARED_LOCK, nShared := 2, waitQueue := [sharedWaiter, exclWaiter] }
      sharedWaiter [exclWaiter] rfl rfl).1.mpr (by decide)

/-- C4, as the claim states it, fails: the resource is at `SHARED` (not
`EXCLUSIVE`) with two sharers, yet the front `SQLITE_WAIT_EXCLUSIVE` record,
which stores level `EXCLUSIVE`, is not granted. -/
theorem C4_counterexample :
    ¬ ((∃ after woken, WCDBTrySignal idleFiles blockedInode = some (after, exclWaiter :: woken)
          ∧ woken ++ WCDBInodeGetWaitQueue after = [sharedWaiter])
        ↔ ¬ (WCDBInodeGetFileLock blockedInode = EXCLUSIVE_LOCK
              ∧ WCDBInodeGetShared blockedInode > 1)) := by
  intro h
  have hres : WCDBTrySignal idleFiles blockedInode = some (blockedInode, []) := by decide
  obtain ⟨after, woken, hw, _⟩ := h.mpr (by decide)
  rw [hres] at hw
  simp at hw

/-- C4 (amended): when the front record has kind `SQLITE_WAIT_EXCLUSIVE`,
`WCDBTrySignal` pops and signals it exactly when it is not the case that the
level stored in the record is `EXCLUSIVE` and the resource has more than one
sharer; when it is the case, nothing is signalled and the queue is unchanged.
The resource's own lock level is not consulted. -/
theorem C4_exclusive_waiter_grant_rule (files : Nat → unixFile) (pInode : unixInodeInfo)
    (r : WCDBWaitInfo) (rest : List WCDBWaitInfo)
    (hq : WCDBInodeGetWaitQueue pInode = r :: rest) (hk : r.eFlag = SQLITE_WAIT_EXCLUSIVE) :
    ((∃ after woken, WCDBTrySignal files pInode = some (after, r :: woken)
        ∧ woken ++ WCDBInodeGetWaitQueue after = rest)
      ↔ ¬ (r.eFileLock = EXCLUSIVE_LOCK ∧ WCDBInodeGetShared pInode > 1))
    ∧ ((r.eFileLock = EXCLUSIVE_LOCK ∧ WCDBInodeGetShared pInode > 1) →
        WCDBTrySignal files pInode = some (pInode, [])) := by
  have hne : ¬ (SQLITE_WAIT_EXCLUSIVE = SQLITE_WAIT_SHARED) := by decide
  have hrc : WCDBTrySignal_rc files pInode r = SQLITE_OK
      ↔ ¬ (r.eFileLock = EXCLUSIVE_LOCK ∧ WCDBInodeGetShared pInode > 1) := by
    unfold WCDBTrySignal_rc
    simp only [hk, hne, if_true, if_false]
    split
    · rename_i h
      simp [h, SQLITE_BUSY, SQLITE_OK]
    · rename_i h
      simp [h]
  refine ⟨(WCDBTrySignal_front_iff files pInode r rest hq).trans hrc, ?_⟩
  intro h
  exact (WCDBTrySignal_front files pInode r rest hq).2 (fun hok => (hrc.mp hok) h)

/-- C4 (amended), at a concrete state: the resource is at `EXCLUSIVE` with two
sharers and the front `SQLITE_WAIT_EXCLUSIVE` record stores level `RESERVED`, so
it is popped and signalled; with the record storing `EXCLUSIVE` (`blockedInode`)
nothing is signalled. -/
theorem C4_exclusive_waiter_grant_rule_witness :
    (∃ after woken, WCDBTrySignal idleFiles
        { eFileLock := EXCLUSIVE_LOCK, nShared := 2,
          waitQueue := [{ exclWaiter with eFileLock := RESERVED_LOCK }] }
          = some (after, { exclWaiter with eFileLock := RESERVED_LOCK } :: woken)
        ∧ woken ++ WCDBInodeGetWaitQueue after = [])
    ∧ WCDBTrySignal idleFiles blockedInode = some (blockedInode, []) :=
  ⟨(C4_exclusive_waiter_grant_rule idleFiles
      { eFileLock := EXCLUSIVE_LOCK, nShared := 2,
        waitQueue := [{ exclWaiter with eFileLock := RESERVED_LOCK }] }
      { exclWaiter with eFileLock := RESERVED_LOCK } [] rfl rfl).1.mpr (by decide),
   (C4_exclusive_waiter_grant_rule idleFiles blockedInode exclWaiter [sharedWaiter]
      rfl rfl).2 (by decide)⟩

/-- C2: head-of-line blocking.  When the queue is not empty and its front record
is not grantable in the current resource state (the `switch` of the loop body
does not give `SQLITE_OK` for it), `WCDBTrySignal` signals no record and returns
the inode as it found it, whatever records follow the front one; the same holds
for `WCDBShmTrySignal` and the shm node. -/
theorem C2_head_of_line_blocking (files : Nat → unixFile) (pInode : unixInodeInfo)
    (pShmNode : unixShmNode) :
    (∀ r rest, WCDBInodeGetWaitQueue pInode = r :: rest →
        WCDBTrySignal_rc files pInode r ≠ SQLITE_OK →
        WCDBTrySignal files pInode = some (pInode, []))
    ∧ (∀ r rest, WCDBShmNodeGetWaitQueue pShmNode = r :: rest →
        WCDBShmTrySignal_rc pShmNode r ≠ SQLITE_OK →
        WCDBShmTrySignal pShmNode = some (pShmNode, [])) :=
  ⟨fun r rest hq hrc => (WCDBTrySignal_front files pInode r rest hq).2 hrc,
   fun r rest hq hrc => (WCDBShmTrySignal_front pShmNode r rest hq).2 hrc⟩

/-- C2, at the scenario of the claim: the front record wants `EXCLUSIVE` and is
not grantable, the second wants `SHARED` and is signalled when it is queued
alone; with both queued nothing is signalled and both stay queued in the same
order.  File locks first, region locks second. -/
theorem C2_head_of_line_blocking_witness :
    (WCDBTrySignal_rc idleFiles blockedInode exclWaiter ≠ SQLITE_OK
      ∧ WCDBTrySignal idleFiles { blockedInode with waitQueue := [sharedWaiter] }
          = some ({ blockedInode with waitQueue := [] }, [sharedWaiter])
      ∧ WCDBTrySignal idleFiles blockedInode = some (blockedInode, [])
      ∧ WCDBInodeGetWaitQueue blockedInode = [exclWaiter, sharedWaiter])
    ∧ (WCDBShmTrySignal_rc blockedShmNode exclReq2 ≠ SQLITE_OK
      ∧ WCDBShmTrySignal { blockedShmNode with waitQueue := [sharedReq2] }
          = some ({ blockedShmNode with waitQueue := [] }, [sharedReq2])
      ∧ WCDBShmTrySignal blockedShmNode = some (blockedShmNode, [])
      ∧ WCDBShmNodeGetWaitQueue blockedShmNode = [exclReq2, sharedReq2]) :=
  ⟨⟨by decide, by decide,
     (C2_head_of_line_blocking idleFiles blockedInode blockedShmNode).1
       exclWaiter [sharedWaiter] rfl (by decide), rfl⟩,
   ⟨by decide, by decide,
     (C2_head_of_line_blocking idleFiles blockedInode blockedShmNode).2
       exclReq2 [sharedReq2] rfl (by decide), rfl⟩⟩

/-! ## The claims on `WCDBShmTrySignal` -/

/-- C5: when the front record has kind `SQLITE_SHM_SHARED` and region mask `M`,
`WCDBShmTrySignal` pops and signals it if and only if no holder of the holder
list has an exclusive-mask with a region in `M`; the holders' shared-masks do
not occur in the condition.  When some holder's exclusive-mask has a region in
`M`, nothing is signalled and the queue is unchanged. -/
theorem C5_shm_shared_grant_rule (pShmNode : unixShmNode) (r : WCDBShmWaitInfo)
    (rest : List WCDBShmWaitInfo)
    (hq : WCDBShmNodeGetWaitQueue pShmNode = r :: rest) (hk : r.eFlag = SQLITE_SHM_SHARED) :
    ((∃ after woken, WCDBShmTrySignal pShmNode = some (after, r :: woken)
        ∧ woken ++ WCDBShmNodeGetWaitQueue after = rest)
      ↔ ∀ pX ∈ WCDBShmNodeGetShm pShmNode, ¬ maskIntersects (WCDBShmGetExclMask pX) r.oMask)
    ∧ ((∃ pX ∈ WCDBShmNodeGetShm pShmNode, maskIntersects (WCDBShmGetExclMask pX) r.oMask) →
        WCDBShmTrySignal pShmNode = some (pShmNode, [])) := by
  have hrc : WCDBShmTrySignal_rc pShmNode r = SQLITE_OK
      ↔ ∀ pX ∈ WCDBShmNodeGetShm pShmNode,
          ¬ maskIntersects (WCDBShmGetExclMask pX) r.oMask := by
    unfold WCDBShmTrySignal_rc
    simp only [hk, if_true]
    exact WCDBShmTrySignal_sharedLoop_ok_iff _ _
  refine ⟨(WCDBShmTrySignal_front_iff pShmNode r rest hq).trans hrc, ?_⟩
  rintro ⟨pX, hpX, hx⟩
  exact (WCDBShmTrySignal_front pShmNode r rest hq).2 (fun hok => (hrc.mp hok) pX hpX hx)

/-- C5, at the scenario of the claim: the only holder has exclusive-mask
`{region 2}`; the shared request for `{region 2, region 5}` is refused and stays
queued, the shared request for `{region 5}` alone is popped and signalled. -/
theorem C5_shm_shared_grant_rule_witness :
    WCDBShmTrySignal { pFirst := [holderExcl2], waitQueue := [sharedReq25] }
        = some ({ pFirst := [holderExcl2], waitQueue := [sharedReq25] }, [])
    ∧ (∃ after woken,
        WCDBShmTrySignal { pFirst := [holderExcl2], waitQueue := [sharedReq5] }
          = some (after, sharedReq5 :: woken)
        ∧ woken ++ WCDBShmNodeGetWaitQueue after = []) :=
  ⟨(C5_shm_shared_grant_rule { pFirst := [holderExcl2], waitQueue := [sharedReq25] }
      sharedReq25 [] rfl rfl).2
      ⟨holderExcl2, List.mem_singleton.mpr rfl, 2, by decide, by decide⟩,
   (C5_shm_shared_grant_rule { pFirst := [holderExcl2], waitQueue := [sharedReq5] }
      sharedReq5 [] rfl rfl).1.mpr
      (fun pX hpX => by
        have hx : pX = holderExcl2 := List.mem_singleton.mp hpX
        subst hx
        exact fun h => (maskAnd_ne_zero_iff _ _).mpr h (by decide))⟩

/-- C6: when the front record has kind `SQLITE_SHM_EXCLUSIVE` and region mask
`M`, `WCDBShmTrySignal` pops and signals it if and only if no holder of the
holder list has an exclusive-mask or a shared-mask with a region in `M`.  When
some holder has one, nothing is signalled and the queue is unchanged. -/
theorem C6_shm_exclusive_grant_rule (pShmNode : unixShmNode) (r : WCDBShmWaitInfo)
    (rest : List WCDBShmWaitInfo)
    (hq : WCDBShmNodeGetWaitQueue pShmNode = r :: rest)
    (hk : r.eFlag = SQLITE_SHM_EXCLUSIVE) :
    ((∃ after woken, WCDBShmTrySignal pShmNode = some (after, r :: woken)
        ∧ woken ++ WCDBShmNodeGetWaitQueue after = rest)
      ↔ ¬ ∃ pX ∈ WCDBShmNodeGetShm pShmNode,
            maskIntersects (WCDBShmGetExclMask pX) r.oMask
              ∨ maskIntersects (WCDBShmGetSharedMask pX) r.oMask)
    ∧ ((∃ pX ∈ WCDBShmNodeGetShm pShmNode,
            maskIntersects (WCDBShmGetExclMask pX) r.oMask
              ∨ maskIntersects (WCDBShmGetSharedMask pX) r.oMask) →
        WCDBShmTrySignal pShmNode = some (pShmNode, [])) := by
  have hne : ¬ (SQLITE_SHM_EXCLUSIVE = SQLITE_SHM_SHARED) := by decide
  have hrc : WCDBShmTrySignal_rc pShmNode r = SQLITE_OK
      ↔ ¬ ∃ pX ∈ WCDBShmNodeGetShm pShmNode,
            maskIntersects (WCDBShmGetExclMask pX) r.oMask
              ∨ maskIntersects (WCDBShmGetSharedMask pX) r.oMask := by
    unfold WCDBShmTrySignal_rc
    simp only [hk, hne, if_true, if_false]
    rw [WCDBShmTrySignal_exclLoop_ok_iff]
    constructor
    · rintro hall ⟨pX, hpX, hx⟩
      rcases hx with hx | hx
      · exact (hall pX hpX).1 hx
      · exact (hall pX hpX).2 hx
    · intro hno pX hpX
      exact ⟨fun hx => hno ⟨pX, hpX, Or.inl hx⟩, fun hx => hno ⟨pX, hpX, Or.inr hx⟩⟩
  refine ⟨(WCDBShmTrySignal_front_iff pShmNode r rest hq).trans hrc, ?_⟩
  intro h
  exact (WCDBShmTrySignal_front pShmNode r rest hq).2 (fun hok => (hrc.mp hok) h)

/-- C6, at concrete states: with one holder sharing region 2, the exclusive
request for `{region 2}` is refused and stays queued; with no holder at all it
is popped and signalled. -/
theorem C6_shm_exclusive_grant_rule_witness :
    WCDBShmTrySignal blockedShmNode = some (blockedShmNode, [])
    ∧ (∃ after woken,
        WCDBShmTrySignal { pFirst := [], waitQueue := [exclReq2] }
          = some (after, exclReq2 :: woken)
        ∧ woken ++ WCDBShmNodeGetWaitQueue after = []) :=
  ⟨(C6_shm_exclusive_grant_rule blockedShmNode exclReq2 [sharedReq2] rfl rfl).2
      ⟨holderShared2, List.mem_singleton.mpr rfl, Or.inr ⟨2, by decide, by decide⟩⟩,
   (C6_shm_exclusive_grant_rule { pFirst := [], waitQueue := [exclReq2] }
      exclReq2 [] rfl rfl).1.mpr
      (fun h => by
        obtain ⟨pX, hpX, _⟩ := h
        exact absurd hpX (List.not_mem_nil pX))⟩

/-! ## The claims on `WCDBWait` -/

/-- C7: `WCDBWait` returns without blocking (the preemption short-circuit) if and
only if the queue is not empty and either (a) the caller's level `eFileLock` is
`EXCLUSIVE` and the front record's level exceeds `SHARED`, or (b) the front
record's level is `EXCLUSIVE` and the caller's level exceeds `SHARED`.  When the
rule fires, exactly the front record is popped and signalled, the caller is not
enqueued and does not block: the queue after is the queue before without its
front.  In particular, if the front record's level and the caller's level are
both `EXCLUSIVE`, the short-circuit is taken, in every environment (primary
thread or not). -/
theorem C7_wait_preemption_rule (env : WaitEnv) (pInode : unixInodeInfo) (pFile : Nat)
    (eFileLock eFlag : Int) :
    ((∃ res, WCDBWait env pInode pFile eFileLock eFlag = some res ∧ res.blocked = false)
      ↔ ∃ front rest, WCDBInodeGetWaitQueue pInode = front :: rest
          ∧ ((eFileLock = EXCLUSIVE_LOCK ∧ front.eFileLock > SHARED_LOCK)
              ∨ (front.eFileLock = EXCLUSIVE_LOCK ∧ eFileLock > SHARED_LOCK)))
    ∧ (∀ front rest, WCDBInodeGetWaitQueue pInode = front :: rest →
        ((eFileLock = EXCLUSIVE_LOCK ∧ front.eFileLock > SHARED_LOCK)
              ∨ (front.eFileLock = EXCLUSIVE_LOCK ∧ eFileLock > SHARED_LOCK)) →
        WCDBWait env pInode pFile eFileLock eFlag
          = some { pInode := { pInode with waitQueue := rest }, woken := [front],
                   blocked := false, log := [] })
    ∧ (∀ front rest, WCDBInodeGetWaitQueue pInode = front :: rest →
        front.eFileLock = EXCLUSIVE_LOCK → eFileLock = EXCLUSIVE_LOCK →
        WCDBWait env pInode pFile eFileLock eFlag
          = some { pInode := { pInode with waitQueue := rest }, woken := [front],
                   blocked := false, log := [] }) := by
  have hfire : ∀ front rest, WCDBInodeGetWaitQueue pInode = front :: rest →
        ((eFileLock = EXCLUSIVE_LOCK ∧ front.eFileLock > SHARED_LOCK)
              ∨ (front.eFileLock = EXCLUSIVE_LOCK ∧ eFileLock > SHARED_LOCK)) →
        WCDBWait env pInode pFile eFileLock eFlag
          = some { pInode := { pInode with waitQueue := rest }, woken := [front],
                   blocked := false, log := [] } := by
    intro front rest hq hc
    rw [WCDBWait_cons env pInode pFile eFileLock eFlag front rest hq, if_pos hc]
  refine ⟨⟨?_, ?_⟩, hfire, ?_⟩
  · rintro ⟨res, hres, hb⟩
    cases hq : pInode.waitQueue with
    | nil =>
      rw [WCDBWait_nil env pInode pFile eFileLock eFlag hq] at hres
      split at hres
      · simp only [Option.some.injEq] at hres
        subst hres
        simp at hb
      · simp at hres
    | cons front rest =>
      refine ⟨front, rest, hq, ?_⟩
      by_contra hc
      rw [WCDBWait_cons env pInode pFile eFileLock eFlag front rest hq, if_neg hc] at hres
      split at hres
      · simp only [Option.some.injEq] at hres
        subst hres
        simp at hb
      · simp at hres
  · rintro ⟨front, rest, hq, hc⟩
    exact ⟨_, hfire front rest hq hc, rfl⟩
  · intro front rest hq hf he
    refine hfire front rest hq (Or.inl ⟨he, ?_⟩)
    rw [hf]
    decide

/-- C7, at the scenario of the claim: the resource is at `EXCLUSIVE`, the queued
front waiter requests `EXCLUSIVE`, and a new caller requesting `EXCLUSIVE` wakes
it and returns without enqueuing or blocking, from the primary thread and from a
background thread alike. -/
theorem C7_wait_preemption_rule_witness :
    WCDBWait mainEnv exclInode 5 EXCLUSIVE_LOCK SQLITE_WAIT_EXCLUSIVE
        = some { pInode := { exclInode with waitQueue := [] }, woken := [exclWaiter],
                 blocked := false, log := [] }
    ∧ WCDBWait bgEnv exclInode 5 EXCLUSIVE_LOCK SQLITE_WAIT_EXCLUSIVE
        = some { pInode := { exclInode with waitQueue := [] }, woken := [exclWaiter],
                 blocked := false, log := [] } :=
  ⟨(C7_wait_preemption_rule mainEnv exclInode 5 EXCLUSIVE_LOCK SQLITE_WAIT_EXCLUSIVE).2.2
      exclWaiter [] rfl rfl rfl,
   (C7_wait_preemption_rule bgEnv exclInode 5 EXCLUSIVE_LOCK SQLITE_WAIT_EXCLUSIVE).2.2
      exclWaiter [] rfl rfl rfl⟩

/-- C9: priority insertion.  Take a queue on which the preemption rule does not
fire.  Then `WCDBWait` returns whenever the record is allocated, and every call
that returns has put the caller's new record at the front of the queue when it
came from the primary thread and at the back when it came from any other
thread; in both cases the records queued before keep their order, nobody is
signalled and the caller blocks. -/
theorem C9_priority_insertion (env : WaitEnv) (pInode : unixInodeInfo) (pFile : Nat)
    (eFileLock eFlag : Int)
    (hno : ¬ ∃ front rest, WCDBInodeGetWaitQueue pInode = front :: rest
          ∧ ((eFileLock = EXCLUSIVE_LOCK ∧ front.eFileLock > SHARED_LOCK)
              ∨ (front.eFileLock = EXCLUSIVE_LOCK ∧ eFileLock > SHARED_LOCK))) :
    (env.mallocOk = true → ∃ res, WCDBWait env pInode pFile eFileLock eFlag = some res)
    ∧ (∀ res, WCDBWait env pInode pFile eFileLock eFlag = some res →
        (env.isMain = true →
          WCDBInodeGetWaitQueue res.pInode
            = newWaitInfo env pFile eFileLock eFlag :: WCDBInodeGetWaitQueue pInode)
        ∧ (env.isMain = false →
          WCDBInodeGetWaitQueue res.pInode
            = WCDBInodeGetWaitQueue pInode ++ [newWaitInfo env pFile eFileLock eFlag])
        ∧ res.woken = [] ∧ res.blocked = true) := by
  cases hq : pInode.waitQueue with
  | nil =>
    rw [WCDBWait_nil env pInode pFile eFileLock eFlag hq]
    constructor
    · intro hm
      exact ⟨_, if_pos hm⟩
    · intro res hres
      split at hres
      · simp only [Option.some.injEq] at hres
        subst hres
        simp [WCDBInodeGetWaitQueue, hq]
      · simp at hres
  | cons front rest =>
    have hc : ¬ ((eFileLock = EXCLUSIVE_LOCK ∧ front.eFileLock > SHARED_LOCK)
              ∨ (front.eFileLock = EXCLUSIVE_LOCK ∧ eFileLock > SHARED_LOCK)) :=
      fun h => hno ⟨front, rest, hq, h⟩
    rw [WCDBWait_cons env pInode pFile eFileLock eFlag front rest hq, if_neg hc]
    constructor
    · intro hm
      exact ⟨_, if_pos hm⟩
    · intro res hres
      split at hres
      · simp only [Option.some.injEq] at hres
        subst hres
        cases hmain : env.isMain <;> simp [WCDBInodeGetWaitQueue, hq, hmain]
      · simp at hres

/-- C9, at the scenario of the claim: three background waiters are queued; a
`WCDBWait` call from the primary thread returns with its record in position 1
of 4, before the three, in their order. -/
theorem C9_priority_insertion_witness :
    ∃ res, WCDBWait mainEnv threeQueued 5 SHARED_LOCK SQLITE_WAIT_SHARED = some res
      ∧ WCDBInodeGetWaitQueue res.pInode
          = [newWaitInfo mainEnv 5 SHARED_LOCK SQLITE_WAIT_SHARED,
             bgWaiter 1, bgWaiter 2, bgWaiter 3] := by
  have hno : ¬ ∃ front rest, WCDBInodeGetWaitQueue threeQueued = front :: rest
          ∧ (((SHARED_LOCK : Int) = EXCLUSIVE_LOCK ∧ front.eFileLock > SHARED_LOCK)
              ∨ (front.eFileLock = EXCLUSIVE_LOCK ∧ SHARED_LOCK > SHARED_LOCK)) := by
    rintro ⟨front, rest, _, hc⟩
    rcases hc with ⟨h, _⟩ | ⟨_, h⟩
    · exact absurd h (by decide)
    · exact absurd h (by decide)
  obtain ⟨res, hres⟩ :=
    (C9_priority_insertion mainEnv threeQueued 5 SHARED_LOCK SQLITE_WAIT_SHARED hno).1 rfl
  exact ⟨res, hres,
    ((C9_priority_insertion mainEnv threeQueued 5 SHARED_LOCK SQLITE_WAIT_SHARED hno).2
      res hres).1 rfl⟩

/-! ## The claims on `WCDBShmWait` -/

/-- C8, as the claim states it, fails: the front waiter's `SHARED` request for
`{region 2}` conflicts with the caller's held masks (the caller's connection
holds region 2 exclusively), the queue is not empty, and yet `WCDBShmWait`
enqueues the caller behind the front waiter and blocks; nobody is signalled. -/
theorem C8_counterexample :
    WCDBShmNodeGetWaitQueue sharedQueuedNode = [sharedReq2]
    ∧ requestConflicts sharedReq2.eFlag sharedReq2.oMask (WCDBFileGetShm heldFiles 5)
    ∧ WCDBShmWait heldFiles bgEnv sharedQueuedNode 5 32 SQLITE_SHM_SHARED
        = some { pShmNode :=
                   { sharedQueuedNode with
                     waitQueue := [sharedReq2, newShmWaitInfo bgEnv 5 32 SQLITE_SHM_SHARED] },
                 woken := [], blocked := true, log := [] }
    ∧ ¬ ∃ res, WCDBShmWait heldFiles bgEnv sharedQueuedNode 5 32 SQLITE_SHM_SHARED = some res
          ∧ res.blocked = false := by
  have hres : WCDBShmWait heldFiles bgEnv sharedQueuedNode 5 32 SQLITE_SHM_SHARED
        = some { pShmNode :=
                   { sharedQueuedNode with
                     waitQueue := [sharedReq2, newShmWaitInfo bgEnv 5 32 SQLITE_SHM_SHARED] },
                 woken := [], blocked := true, log := [] } := by decide
  refine ⟨rfl, Or.inl ⟨rfl, 2, by decide, by decide⟩, hres, ?_⟩
  rintro ⟨res, h, hb⟩
  rw [hres] at h
  simp only [Option.some.injEq] at h
  subst h
  simp at hb

/-- C8 (amended): `WCDBShmWait` takes the preemption short-circuit (returns
without blocking) if and only if the queue is not empty and either the front
waiter's request is `EXCLUSIVE` and conflicts with the caller's held masks, or
the caller's request is `EXCLUSIVE` and conflicts with the held masks of the
front waiter's connection; a `SHARED` request is not tested.  When it does, the
front record is popped and signalled and the caller is not enqueued. -/
theorem C8_shm_wait_preemption_rule (files : Nat → unixFile) (env : WaitEnv)
    (pShmNode : unixShmNode) (pFile : Nat) (oMask eFlag : Int) :
    ((∃ res, WCDBShmWait files env pShmNode pFile oMask eFlag = some res
          ∧ res.blocked = false)
      ↔ ∃ front rest, WCDBShmNodeGetWaitQueue pShmNode = front :: rest
          ∧ ((front.eFlag = SQLITE_SHM_EXCLUSIVE
                ∧ requestConflicts front.eFlag front.oMask (WCDBFileGetShm files pFile))
              ∨ (eFlag = SQLITE_SHM_EXCLUSIVE
                ∧ requestConflicts eFlag oMask (WCDBFileGetShm files front.pFile))))
    ∧ (∀ front rest, WCDBShmNodeGetWaitQueue pShmNode = front :: rest →
        ((front.eFlag = SQLITE_SHM_EXCLUSIVE
                ∧ requestConflicts front.eFlag front.oMask (WCDBFileGetShm files pFile))
              ∨ (eFlag = SQLITE_SHM_EXCLUSIVE
                ∧ requestConflicts eFlag oMask (WCDBFileGetShm files front.pFile))) →
        WCDBShmWait files env pShmNode pFile oMask eFlag
          = some { pShmNode := { pShmNode with waitQueue := rest }, woken := [front],
                   blocked := false, log := [] }) := by
  have hfire : ∀ front rest, WCDBShmNodeGetWaitQueue pShmNode = front :: rest →
        ((front.eFlag = SQLITE_SHM_EXCLUSIVE
                ∧ requestConflicts front.eFlag front.oMask (WCDBFileGetShm files pFile))
              ∨ (eFlag = SQLITE_SHM_EXCLUSIVE
                ∧ requestConflicts eFlag oMask (WCDBFileGetShm files front.pFile))) →
        WCDBShmWait files env pShmNode pFile oMask eFlag
          = some { pShmNode := { pShmNode with waitQueue := rest }, woken := [front],
                   blocked := false, log := [] } := by
    intro front rest hq hc
    rw [WCDBShmWait_cons files env pShmNode pFile oMask eFlag front rest hq,
      if_pos ((shmPreempt_iff files pFile oMask eFlag front).mp hc)]
  refine ⟨⟨?_, ?_⟩, hfire⟩
  · rintro ⟨res, hres, hb⟩
    cases hq : pShmNode.waitQueue with
    | nil =>
      rw [WCDBShmWait_nil files env pShmNode pFile oMask eFlag hq] at hres
      split at hres
      · simp only [Option.some.injEq] at hres
        subst hres
        simp at hb
      · simp at hres
    | cons front rest =>
      refine ⟨front, rest, hq, ?_⟩
      by_contra hc
      rw [WCDBShmWait_cons files env pShmNode pFile oMask eFlag front rest hq,
        if_neg (fun h => hc ((shmPreempt_iff files pFile oMask eFlag front).mpr h))] at hres
      split at hres
      · simp only [Option.some.injEq] at hres
        subst hres
        simp at hb
      · simp at hres
  · rintro ⟨front, rest, hq, hc⟩
    exact ⟨_, hfire front rest hq hc, rfl⟩

/-- C8 (amended), at a concrete state: the front waiter requests `EXCLUSIVE` on
`{region 2}`, which the caller's connection holds exclusively; the caller, asking
for a shared lock on `{region 5}`, wakes the front waiter and returns without
being enqueued. -/
theorem C8_shm_wait_preemption_rule_witness :
    WCDBShmWait heldFiles bgEnv exclQueuedNode 5 32 SQLITE_SHM_SHARED
      = some { pShmNode := { exclQueuedNode with waitQueue := [] }, woken := [exclReq2],
               blocked := false, log := [] } :=
  (C8_shm_wait_preemption_rule heldFiles bgEnv exclQueuedNode 5 32 SQLITE_SHM_SHARED).2
    exclReq2 [] rfl
    (Or.inl ⟨rfl, Or.inr ⟨rfl, Or.inl ⟨2, by decide, by decide⟩⟩⟩)

/-- C10: one `WCDBShmWait` call does exactly one of two things.  The call
returns whenever the record is allocated, and every call that returns has
either enqueued exactly one new record (`shmWaitEnqueuedOne`: the caller's mask,
flag, file and thread, at the front or the back, nobody popped or signalled,
queue length + 1) or popped and signalled exactly the front record and enqueued
nothing (`shmWaitPoppedFront`: queue length - 1), and never both. -/
theorem C10_shm_wait_enqueues_one_or_pops_one (files : Nat → unixFile) (env : WaitEnv)
    (pShmNode : unixShmNode) (pFile : Nat) (oMask eFlag : Int) :
    (env.mallocOk = true →
      ∃ res, WCDBShmWait files env pShmNode pFile oMask eFlag = some res)
    ∧ (∀ res, WCDBShmWait files env pShmNode pFile oMask eFlag = some res →
        (shmWaitEnqueuedOne env pShmNode pFile oMask eFlag res
            ∧ ¬ shmWaitPoppedFront pShmNode res)
          ∨ (shmWaitPoppedFront pShmNode res
            ∧ ¬ shmWaitEnqueuedOne env pShmNode pFile oMask eFlag res)) := by
  have henq : ∀ q : List WCDBShmWaitInfo,
      (q = newShmWaitInfo env pFile oMask eFlag :: pShmNode.waitQueue
        ∨ q = pShmNode.waitQueue ++ [newShmWaitInfo env pFile oMask eFlag]) →
      ∀ log, (shmWaitEnqueuedOne env pShmNode pFile oMask eFlag
            { pShmNode := { pShmNode with waitQueue := q }, woken := [], blocked := true,
              log := log }
          ∧ ¬ shmWaitPoppedFront pShmNode
            { pShmNode := { pShmNode with waitQueue := q }, woken := [], blocked := true,
              log := log }) := by
    intro q hqq log
    refine ⟨⟨rfl, rfl, rfl, hqq, ?_⟩, fun h => ?_⟩
    · rcases hqq with h | h <;> simp [WCDBShmNodeGetWaitQueue, h]
    · exact absurd h.1 (by simp)
  cases hq : pShmNode.waitQueue with
  | nil =>
    rw [WCDBShmWait_nil files env pShmNode pFile oMask eFlag hq]
    constructor
    · intro hm
      exact ⟨_, if_pos hm⟩
    · intro res hres
      split at hres
      · simp only [Option.some.injEq] at hres
        subst hres
        exact Or.inl (henq _ (Or.inl (by rw [hq])) _)
      · simp at hres
  | cons front rest =>
    rw [WCDBShmWait_cons files env pShmNode pFile oMask eFlag front rest hq]
    by_cases hc : (front.eFlag = SQLITE_SHM_EXCLUSIVE
            ∧ (maskAnd (WCDBShmGetExclMask (WCDBFileGetShm files pFile)) front.oMask ≠ 0
                ∨ maskAnd (WCDBShmGetSharedMask (WCDBFileGetShm files pFile))
                    front.oMask ≠ 0))
          ∨ (eFlag = SQLITE_SHM_EXCLUSIVE
            ∧ (maskAnd (WCDBShmGetExclMask (WCDBFileGetShm files front.pFile)) oMask ≠ 0
                ∨ maskAnd (WCDBShmGetSharedMask (WCDBFileGetShm files front.pFile))
                    oMask ≠ 0))
    · rw [if_pos hc]
      refine ⟨fun _ => ⟨_, rfl⟩, ?_⟩
      intro res hres
      simp only [Option.some.injEq] at hres
      subst hres
      refine Or.inr ⟨⟨rfl, rfl, ⟨front, rfl, ?_⟩, ?_⟩, fun h => ?_⟩
      · simp [WCDBShmNodeGetWaitQueue, hq]
      · simp [WCDBShmNodeGetWaitQueue, hq]
      · exact absurd h.1 (by simp)
    · rw [if_neg hc]
      constructor
      · intro hm
        exact ⟨_, if_pos hm⟩
      · intro res hres
        split at hres
        · simp only [Option.some.injEq] at hres
          subst hres
          refine Or.inl (henq _ ?_ _)
          cases hmain : env.isMain <;> simp [hq]
        · simp at hres

/-- C10, at two concrete calls on a queue holding `exclReq2`: a caller whose
connection holds region 2 returns having popped the front record, and has not
enqueued; a caller whose connection holds nothing returns having enqueued one
record, and has not popped. -/
theorem C10_shm_wait_enqueues_one_or_pops_one_witness :
    (∃ res, WCDBShmWait heldFiles bgEnv exclQueuedNode 5 32 SQLITE_SHM_SHARED = some res
      ∧ shmWaitPoppedFront exclQueuedNode res
      ∧ ¬ shmWaitEnqueuedOne bgEnv exclQueuedNode 5 32 SQLITE_SHM_SHARED res)
    ∧ (∃ res, WCDBShmWait heldFiles bgEnv exclQueuedNode 6 32 SQLITE_SHM_SHARED = some res
      ∧ shmWaitEnqueuedOne bgEnv exclQueuedNode 6 32 SQLITE_SHM_SHARED res
      ∧ ¬ shmWaitPoppedFront exclQueuedNode res) := by
  obtain ⟨r1, h1⟩ :=
    (C10_shm_wait_enqueues_one_or_pops_one heldFiles bgEnv exclQueuedNode 5 32
      SQLITE_SHM_SHARED).1 rfl
  obtain ⟨r2, h2⟩ :=
    (C10_shm_wait_enqueues_one_or_pops_one heldFiles bgEnv exclQueuedNode 6 32
      SQLITE_SHM_SHARED).1 rfl
  have d1 := (C10_shm_wait_enqueues_one_or_pops_one heldFiles bgEnv exclQueuedNode 5 32
      SQLITE_SHM_SHARED).2 r1 h1
  have d2 := (C10_shm_wait_enqueues_one_or_pops_one heldFiles bgEnv exclQueuedNode 6 32
      SQLITE_SHM_SHARED).2 r2 h2
  have e1 : WCDBShmWait heldFiles bgEnv exclQueuedNode 5 32 SQLITE_SHM_SHARED
      = some { pShmNode := { exclQueuedNode with waitQueue := [] }, woken := [exclReq2],
               blocked := false, log := [] } := by decide
  have e2 : WCDBShmWait heldFiles bgEnv exclQueuedNode 6 32 SQLITE_SHM_SHARED
      = some { pShmNode := { exclQueuedNode with
                 waitQueue := [exclReq2, newShmWaitInfo bgEnv 6 32 SQLITE_SHM_SHARED] },
               woken := [], blocked := true, log := [] } := by decide
  refine ⟨⟨r1, h1, ?_⟩, ⟨r2, h2, ?_⟩⟩
  · rcases d1 with d | d
    · rw [e1] at h1
      simp only [Option.some.injEq] at h1
      subst h1
      exact absurd d.1.1 (by simp)
    · exact d
  · rcases d2 with d | d
    · exact d
    · rw [e2] at h2
      simp only [Option.some.injEq] at h2
      subst h2
      exact absurd d.1.1 (by simp)

/-! ## The claims on `WCDBSignal` and `WCDBShmSignal` -/

/-- C15: `WCDBSignal` is unconditional.  On a queue with front record `front` it
pops exactly `front` and signals exactly `front`, whatever the kind and level
of the record and whatever the lock level and sharer count of the resource, and
leaves the other records queued in their order; on an empty queue it signals
nobody and leaves the queue empty.  Lock level and sharer count are untouched.
`WCDBShmSignal` does the same on a shm node, whatever its holder list. -/
theorem C15_signal_is_unconditional (eFileLock : Int) (nShared : Nat)
    (holders : List unixShm) :
    (∀ (front : WCDBWaitInfo) (rest : List WCDBWaitInfo),
        WCDBSignal { eFileLock := eFileLock, nShared := nShared, waitQueue := front :: rest }
          = ({ eFileLock := eFileLock, nShared := nShared, waitQueue := rest }, [front]))
    ∧ WCDBSignal { eFileLock := eFileLock, nShared := nShared, waitQueue := [] }
          = ({ eFileLock := eFileLock, nShared := nShared, waitQueue := [] }, [])
    ∧ (∀ (front : WCDBShmWaitInfo) (rest : List WCDBShmWaitInfo),
        WCDBShmSignal { pFirst := holders, waitQueue := front :: rest }
          = ({ pFirst := holders, waitQueue := rest }, [front]))
    ∧ WCDBShmSignal { pFirst := holders, waitQueue := [] }
          = ({ pFirst := holders, waitQueue := [] }, []) :=
  ⟨fun _ _ => rfl, rfl, fun _ _ => rfl, rfl⟩

/-! ## The claim on termination -/

/-- C17: `WCDBTrySignal` and `WCDBShmTrySignal` terminate on every queue.  One
unit of fuel is one execution of the loop body.  `WCDBTrySignal` returns, the
loop returns exactly when the fuel is at least the number of signalled records
plus one (so the body runs once per signalled record and once more), that
number is at most the initial queue length plus one, and any fuel of at least
the initial queue length plus one gives the same result.  An iteration can only
continue after `WCDBSignal`, which on a non-empty queue removes exactly one
record, the front one.  The same holds for `WCDBShmTrySignal`. -/
theorem C17_trySignal_terminates (files : Nat → unixFile) (pInode : unixInodeInfo)
    (pShmNode : unixShmNode) :
    (∃ after woken, WCDBTrySignal files pInode = some (after, woken)
      ∧ woken.length + 1 ≤ (WCDBInodeGetWaitQueue pInode).length + 1
      ∧ (∀ fuel, (∃ res, WCDBTrySignal_loop files fuel pInode = some res)
            ↔ woken.length + 1 ≤ fuel)
      ∧ (∀ fuel, (WCDBInodeGetWaitQueue pInode).length + 1 ≤ fuel →
            WCDBTrySignal_loop files fuel pInode = some (after, woken)))
    ∧ (∀ front, sqlite3QueueFront (WCDBInodeGetWaitQueue pInode) = some front →
        (WCDBSignal pInode).2 = [front]
        ∧ (WCDBInodeGetWaitQueue (WCDBSignal pInode).1).length + 1
            = (WCDBInodeGetWaitQueue pInode).length)
    ∧ (∃ after woken, WCDBShmTrySignal pShmNode = some (after, woken)
      ∧ woken.length + 1 ≤ (WCDBShmNodeGetWaitQueue pShmNode).length + 1
      ∧ (∀ fuel, (∃ res, WCDBShmTrySignal_loop fuel pShmNode = some res)
            ↔ woken.length + 1 ≤ fuel)
      ∧ (∀ fuel, (WCDBShmNodeGetWaitQueue pShmNode).length + 1 ≤ fuel →
            WCDBShmTrySignal_loop fuel pShmNode = some (after, woken)))
    ∧ (∀ front, sqlite3QueueFront (WCDBShmNodeGetWaitQueue pShmNode) = some front →
        (WCDBShmSignal pShmNode).2 = [front]
        ∧ (WCDBShmNodeGetWaitQueue (WCDBShmSignal pShmNode).1).length + 1
            = (WCDBShmNodeGetWaitQueue pShmNode).length) := by
  obtain ⟨l, n, q⟩ := pInode
  obtain ⟨holders, sq⟩ := pShmNode
  refine ⟨⟨_, _, WCDBTrySignal_loop_eq files l n q (q.length + 1) (Nat.lt_succ_self _),
      ?_, ?_, ?_⟩, ?_,
    ⟨_, _, WCDBShmTrySignal_loop_eq holders sq (sq.length + 1) (Nat.lt_succ_self _),
      ?_, ?_, ?_⟩, ?_⟩
  · exact Nat.succ_le_succ (List.takeWhile_sublist _).length_le
  · intro fuel
    have h := WCDBTrySignal_loop_fuel files l n q fuel
    constructor
    · rintro ⟨res, hres⟩
      by_contra hlt
      rw [h, if_neg (Nat.not_lt.mpr (Nat.le_of_lt_succ (Nat.lt_of_not_le hlt)))] at hres
      simp at hres
    · intro hle
      exact ⟨_, by rw [h]; exact if_pos (Nat.lt_of_succ_le hle)⟩
  · intro fuel hle
    exact WCDBTrySignal_loop_eq files l n q fuel hle
  · intro front hf
    cases q with
    | nil => simp [sqlite3QueueFront, WCDBInodeGetWaitQueue] at hf
    | cons a rest =>
      simp only [sqlite3QueueFront, WCDBInodeGetWaitQueue, List.head?, Option.some.injEq] at hf
      subst hf
      exact ⟨rfl, rfl⟩
  · exact Nat.succ_le_succ (List.takeWhile_sublist _).length_le
  · intro fuel
    have h := WCDBShmTrySignal_loop_fuel holders sq fuel
    constructor
    · rintro ⟨res, hres⟩
      by_contra hlt
      rw [h, if_neg (Nat.not_lt.mpr (Nat.le_of_lt_succ (Nat.lt_of_not_le hlt)))] at hres
      simp at hres
    · intro hle
      exact ⟨_, by rw [h]; exact if_pos (Nat.lt_of_succ_le hle)⟩
  · intro fuel hle
    exact WCDBShmTrySignal_loop_eq holders sq fuel hle
  · intro front hf
    cases sq with
    | nil => simp [sqlite3QueueFront, WCDBShmNodeGetWaitQueue] at hf
    | cons a rest =>
      simp only [sqlite3QueueFront, WCDBShmNodeGetWaitQueue, List.head?,
        Option.some.injEq] at hf
      subst hf
      exact ⟨rfl, rfl⟩

/-- C17, at a concrete state: of the four queued records of `cascadeInode` two
are signalled, so the loop body runs three times: fuel 3 is enough, fuel 2 is
not. -/
theorem C17_trySignal_terminates_witness :
    (∃ res, WCDBTrySignal_loop idleFiles 3 cascadeInode = some res)
    ∧ ¬ (∃ res, WCDBTrySignal_loop idleFiles 2 cascadeInode = some res) := by
  obtain ⟨after, woken, h, _, hiff, _⟩ :=
    (C17_trySignal_terminates idleFiles cascadeInode blockedShmNode).1
  have e : WCDBTrySignal idleFiles cascadeInode
      = some ({ cascadeInode with waitQueue := [exclWaiter, bgWaiter 3] },
              [bgWaiter 1, bgWaiter 2]) := by decide
  rw [e] at h
  simp only [Option.some.injEq, Prod.mk.injEq] at h
  obtain ⟨_, hw⟩ := h
  subst hw
  exact ⟨(hiff 3).mpr (by decide), fun hh => absurd ((hiff 2).mp hh) (by decide)⟩

/-! ## The claim on records of another kind -/

/-- C20: a front record whose kind is neither `SQLITE_WAIT_SHARED` nor
`SQLITE_WAIT_EXCLUSIVE` is not granted by `WCDBTrySignal`, whatever the heap of
files, the lock level and the sharer count: the call signals nobody and returns
the inode as it found it, so the records behind it stay queued too; `WCDBSignal`
(reached only through the short-circuit of `WCDBWait`) does pop it.  The same
holds in the region coordinator for a front record whose flag is neither
`SQLITE_SHM_SHARED` nor `SQLITE_SHM_EXCLUSIVE`, whatever the holder list. -/
theorem C20_other_kind_is_never_granted (files : Nat → unixFile) (pInode : unixInodeInfo)
    (pShmNode : unixShmNode) :
    (∀ r rest, WCDBInodeGetWaitQueue pInode = r :: rest →
        r.eFlag ≠ SQLITE_WAIT_SHARED → r.eFlag ≠ SQLITE_WAIT_EXCLUSIVE →
        WCDBTrySignal files pInode = some (pInode, [])
        ∧ WCDBSignal pInode = ({ pInode with waitQueue := rest }, [r]))
    ∧ (∀ r rest, WCDBShmNodeGetWaitQueue pShmNode = r :: rest →
        r.eFlag ≠ SQLITE_SHM_SHARED → r.eFlag ≠ SQLITE_SHM_EXCLUSIVE →
        WCDBShmTrySignal pShmNode = some (pShmNode, [])
        ∧ WCDBShmSignal pShmNode = ({ pShmNode with waitQueue := rest }, [r])) := by
  constructor
  · intro r rest hq h1 h2
    constructor
    · apply (WCDBTrySignal_front files pInode r rest hq).2
      unfold WCDBTrySignal_rc
      simp only [h1, h2, if_false]
      decide
    · obtain ⟨l, n, q⟩ := pInode
      simp only [WCDBInodeGetWaitQueue] at hq
      subst hq
      rfl
  · intro r rest hq h1 h2
    constructor
    · apply (WCDBShmTrySignal_front pShmNode r rest hq).2
      unfold WCDBShmTrySignal_rc
      simp only [h1, h2, if_false]
      decide
    · obtain ⟨holders, q⟩ := pShmNode
      simp only [WCDBShmNodeGetWaitQueue] at hq
      subst hq
      rfl

/-- C20, at concrete states: the resource is unlocked and no region is held, so
the `SHARED` record queued second would be granted at the front; behind a
record of kind `SQLITE_WAIT_NONE` (flag 0 in the region coordinator) nothing is
signalled and both records stay queued. -/
theorem C20_other_kind_is_never_granted_witness :
    (WCDBTrySignal idleFiles { noneFrontInode with waitQueue := [sharedWaiter] }
        = some ({ noneFrontInode with waitQueue := [] }, [sharedWaiter])
      ∧ WCDBTrySignal idleFiles noneFrontInode = some (noneFrontInode, []))
    ∧ (WCDBShmTrySignal { noneFrontShmNode with waitQueue := [sharedReq2] }
        = some ({ noneFrontShmNode with waitQueue := [] }, [sharedReq2])
      ∧ WCDBShmTrySignal noneFrontShmNode = some (noneFrontShmNode, [])) :=
  ⟨⟨by decide,
    ((C20_other_kind_is_never_granted idleFiles noneFrontInode noneFrontShmNode).1
      noneWaiter [sharedWaiter] rfl (by decide) (by decide)).1⟩,
   ⟨by decide,
    ((C20_other_kind_is_never_granted idleFiles noneFrontInode noneFrontShmNode).2
      noneReq2 [sharedReq2] rfl (by decide) (by decide)).1⟩⟩

/-! ## The claims on allocation failure and on timeout -/

/-- C13, at the failing input: `sqlite3_malloc` returns `NULL` and the
preemption rule does not fire.  `WCDBWait` (a `SHARED` request on `threeQueued`)
and `WCDBShmWait` (a `SHARED` request for region 5 from file 6 on
`exclQueuedNode`) store through the `NULL` pointer, at lines 105 and 191, and do
not return: no return code reports the failure and the caller does not get the
queue back as it was.  With memory available the same two calls return, the
caller's record enqueued behind the records queued before. -/
theorem C13_allocation_failure_is_not_reported :
    WCDBWait failEnv threeQueued 5 SHARED_LOCK SQLITE_WAIT_SHARED = none
    ∧ WCDBShmWait idleFiles failEnv exclQueuedNode 6 32 SQLITE_SHM_SHARED = none
    ∧ WCDBWait { failEnv with mallocOk := true } threeQueued 5 SHARED_LOCK SQLITE_WAIT_SHARED
        = some { pInode := { threeQueued with
                   waitQueue := [bgWaiter 1, bgWaiter 2, bgWaiter 3,
                                 newWaitInfo failEnv 5 SHARED_LOCK SQLITE_WAIT_SHARED] },
                 woken := [], blocked := true, log := [] }
    ∧ WCDBShmWait idleFiles { failEnv with mallocOk := true } exclQueuedNode 6 32
          SQLITE_SHM_SHARED
        = some { pShmNode := { exclQueuedNode with
                   waitQueue := [exclReq2, newShmWaitInfo failEnv 6 32 SQLITE_SHM_SHARED] },
                 woken := [], blocked := true, log := [] } := by
  refine ⟨?_, ?_, ?_, ?_⟩ <;> decide

/-! ## The claims on runs of the file-lock coordinator -/

/-- C11: no double wake.  Take any run of `WCDBWait`, `WCDBTrySignal` and
`WCDBSignal` calls (and changes of the lock state) on one resource that starts
from an empty queue, and any continuation of it, and suppose the records the
`WCDBWait` calls created are pairwise distinct (each is fresh).  Then at the end
no record has been signalled twice, no record is queued twice, no record
signalled by then, or earlier in the run, is in the queue, and the signalled
records together with the queued ones are exactly the records created: a record
is queued when created and leaves the queue only by being signalled. -/
theorem C11_no_double_wake (eFileLock : Int) (nShared : Nat) (ops ops' : List FileOp)
    (mid fin : FileRun)
    (hmid : runFile (startRun eFileLock nShared) ops = some mid)
    (hfin : runFile mid ops' = some fin)
    (hfresh : fin.created.Nodup) :
    fin.woken.Nodup
    ∧ (WCDBInodeGetWaitQueue fin.pInode).Nodup
    ∧ (∀ r ∈ fin.woken, r ∉ WCDBInodeGetWaitQueue fin.pInode)
    ∧ (∀ r ∈ mid.woken, r ∈ fin.woken ∧ r ∉ WCDBInodeGetWaitQueue fin.pInode)
    ∧ (fin.woken ++ WCDBInodeGetWaitQueue fin.pInode).Perm fin.created := by
  have hall : runFile (startRun eFileLock nShared) (ops ++ ops') = some fin := by
    rw [runFile_append, hmid]
    exact hfin
  have hperm := runFile_start_perm eFileLock nShared (ops ++ ops') fin hall
  have hnd : (fin.woken ++ fin.pInode.waitQueue).Nodup := hperm.nodup_iff.mpr hfresh
  obtain ⟨hw, hq, hdis⟩ := List.nodup_append.mp hnd
  obtain ⟨w, _, hwoken, _⟩ := runFile_perm ops' mid fin hfin
  refine ⟨hw, hq, fun r hr hrq => hdis hr hrq, ?_, hperm⟩
  intro r hr
  have hr' : r ∈ fin.woken := by
    rw [hwoken]
    exact List.mem_append_left _ hr
  exact ⟨hr', fun hrq => hdis hr' hrq⟩

/-- C11, at a concrete run: threads 1 and 2 wait and are signalled by
`WCDBTrySignal`; thread 3 waits and is signalled by the short-circuit of thread
4; a last `WCDBTrySignal` finds the queue empty.  Each of the three records has
been signalled once and none is queued. -/
theorem C11_no_double_wake_witness :
    ∃ mid fin, runFile (startRun EXCLUSIVE_LOCK 1) twoSharedThenUnlock = some mid
      ∧ runFile mid exclThenPreempt = some fin
      ∧ fin.woken = [newWaitInfo (threadEnv 1) 1 SHARED_LOCK SQLITE_WAIT_SHARED,
                     newWaitInfo (threadEnv 2) 2 SHARED_LOCK SQLITE_WAIT_SHARED,
                     newWaitInfo (threadEnv 3) 3 EXCLUSIVE_LOCK SQLITE_WAIT_EXCLUSIVE]
      ∧ fin.woken.Nodup
      ∧ (∀ r ∈ mid.woken, r ∈ fin.woken ∧ r ∉ WCDBInodeGetWaitQueue fin.pInode) := by
  have h1 : runFile (startRun EXCLUSIVE_LOCK 1) twoSharedThenUnlock
      = some { pInode := { eFileLock := NO_LOCK, nShared := 0, waitQueue := [] },
               woken := [newWaitInfo (threadEnv 1) 1 SHARED_LOCK SQLITE_WAIT_SHARED,
                         newWaitInfo (threadEnv 2) 2 SHARED_LOCK SQLITE_WAIT_SHARED],
               created := [newWaitInfo (threadEnv 1) 1 SHARED_LOCK SQLITE_WAIT_SHARED,
                           newWaitInfo (threadEnv 2) 2 SHARED_LOCK SQLITE_WAIT_SHARED] } := by
    decide
  have h2 : runFile
        { pInode := { eFileLock := NO_LOCK, nShared := 0, waitQueue := [] },
          woken := [newWaitInfo (threadEnv 1) 1 SHARED_LOCK SQLITE_WAIT_SHARED,
                    newWaitInfo (threadEnv 2) 2 SHARED_LOCK SQLITE_WAIT_SHARED],
          created := [newWaitInfo (threadEnv 1) 1 SHARED_LOCK SQLITE_WAIT_SHARED,
                      newWaitInfo (threadEnv 2) 2 SHARED_LOCK SQLITE_WAIT_SHARED] }
        exclThenPreempt
      = some { pInode := { eFileLock := NO_LOCK, nShared := 0, waitQueue := [] },
               woken := [newWaitInfo (threadEnv 1) 1 SHARED_LOCK SQLITE_WAIT_SHARED,
                         newWaitInfo (threadEnv 2) 2 SHARED_LOCK SQLITE_WAIT_SHARED,
                         newWaitInfo (threadEnv 3) 3 EXCLUSIVE_LOCK SQLITE_WAIT_EXCLUSIVE],
               created := [newWaitInfo (threadEnv 1) 1 SHARED_LOCK SQLITE_WAIT_SHARED,
                           newWaitInfo (threadEnv 2) 2 SHARED_LOCK SQLITE_WAIT_SHARED,
                           newWaitInfo (threadEnv 3) 3 EXCLUSIVE_LOCK
                             SQLITE_WAIT_EXCLUSIVE] } := by
    decide
  have h := C11_no_double_wake EXCLUSIVE_LOCK 1 twoSharedThenUnlock exclThenPreempt _ _
    h1 h2 (by decide)
  exact ⟨_, _, h1, h2, rfl, h.1, h.2.2.2.1⟩

/-- C12, as the claim states it, fails: threads 3 and 4 each call `WCDBWait` for
`EXCLUSIVE` on an empty queue, then the resource is unlocked twice, each change
compatible and triggering `WCDBTrySignal`.  The second call takes the
short-circuit, so only the record of thread 3 is ever signalled: one wake for
two `WCDBWait` calls, none for the caller of the second. -/
theorem C12_counterexample :
    ∃ mid fin, runFile (startRun EXCLUSIVE_LOCK 1) (waitOps twoExclCalls) = some mid
      ∧ compatibleChanges mid [unlockChange, unlockChange]
      ∧ runFile mid (changeOps [unlockChange, unlockChange]) = some fin
      ∧ fin.woken = [newWaitInfo (threadEnv 3) 3 EXCLUSIVE_LOCK SQLITE_WAIT_EXCLUSIVE]
      ∧ newWaitInfo (threadEnv 4) 4 EXCLUSIVE_LOCK SQLITE_WAIT_EXCLUSIVE ∉ fin.woken
      ∧ fin.woken.length ≠ twoExclCalls.length := by
  have h1 : runFile (startRun EXCLUSIVE_LOCK 1) (waitOps twoExclCalls)
      = some ⟨⟨EXCLUSIVE_LOCK, 1, []⟩,
              [newWaitInfo (threadEnv 3) 3 EXCLUSIVE_LOCK SQLITE_WAIT_EXCLUSIVE],
              [newWaitInfo (threadEnv 3) 3 EXCLUSIVE_LOCK SQLITE_WAIT_EXCLUSIVE]⟩ := by
    decide
  have hstep : ∀ (l : Int) (n : Nat) (st' : FileRun),
      runFile ⟨⟨l, n, []⟩,
              [newWaitInfo (threadEnv 3) 3 EXCLUSIVE_LOCK SQLITE_WAIT_EXCLUSIVE],
              [newWaitInfo (threadEnv 3) 3 EXCLUSIVE_LOCK SQLITE_WAIT_EXCLUSIVE]⟩
          [FileOp.setLock unlockChange.eFileLock unlockChange.nShared,
           FileOp.trySignal unlockChange.files] = some st' →
      st' = ⟨⟨NO_LOCK, 0, []⟩,
              [newWaitInfo (threadEnv 3) 3 EXCLUSIVE_LOCK SQLITE_WAIT_EXCLUSIVE],
              [newWaitInfo (threadEnv 3) 3 EXCLUSIVE_LOCK SQLITE_WAIT_EXCLUSIVE]⟩ := by
    intro l n st' h
    simp only [runFile, stepFile, WCDBTrySignal_eq, Option.some.injEq] at h
    rw [← h]
    rfl
  have h2 : runFile ⟨⟨EXCLUSIVE_LOCK, 1, []⟩,
              [newWaitInfo (threadEnv 3) 3 EXCLUSIVE_LOCK SQLITE_WAIT_EXCLUSIVE],
              [newWaitInfo (threadEnv 3) 3 EXCLUSIVE_LOCK SQLITE_WAIT_EXCLUSIVE]⟩
          (changeOps [unlockChange, unlockChange])
      = some ⟨⟨NO_LOCK, 0, []⟩,
              [newWaitInfo (threadEnv 3) 3 EXCLUSIVE_LOCK SQLITE_WAIT_EXCLUSIVE],
              [newWaitInfo (threadEnv 3) 3 EXCLUSIVE_LOCK SQLITE_WAIT_EXCLUSIVE]⟩ := by
    decide
  refine ⟨_, _, h1, ?_, h2, rfl, by decide, by decide⟩
  refine ⟨fun front hf => ?_, fun st' hst' => ?_⟩
  · simp [sqlite3QueueFront, WCDBInodeGetWaitQueue] at hf
  · rw [hstep _ _ st' hst']
    refine ⟨fun front hf => ?_, fun st'' _ => trivial⟩
    simp [sqlite3QueueFront, WCDBInodeGetWaitQueue] at hf

/-- C12 (amended): no lost wakeups.  Take N `WCDBWait` calls on a resource whose
queue is empty, followed by N state changes, each compatible (the front record,
if any, is grantable when its `WCDBTrySignal` runs) and each triggering
`WCDBTrySignal`.  The `WCDBWait` calls return when every allocation succeeds;
and when they return, the state changes run to the end, the queue is empty
afterwards, and the signalled records are, up to order, exactly the records the
`WCDBWait` calls enqueued (records of these calls, in call order): every caller
that was enqueued is signalled, and exactly once when the records are pairwise
distinct.  A call that took the short-circuit enqueued no record. -/
theorem C12_no_lost_wakeups (eFileLock : Int) (nShared : Nat) (waits : List WaitCall)
    (changes : List StateChange) (hN : changes.length = waits.length) :
    ((∀ w ∈ waits, w.env.mallocOk = true) →
      ∃ mid, runFile (startRun eFileLock nShared) (waitOps waits) = some mid)
    ∧ (∀ mid, runFile (startRun eFileLock nShared) (waitOps waits) = some mid →
        compatibleChanges mid changes →
        ∃ fin, runFile mid (changeOps changes) = some fin
          ∧ WCDBInodeGetWaitQueue fin.pInode = []
          ∧ fin.created = mid.created
          ∧ mid.created.Sublist (waits.map waitCallRecord)
          ∧ fin.woken.Perm mid.created
          ∧ (mid.created.Nodup → ∀ r ∈ mid.created, fin.woken.count r = 1)) := by
  refine ⟨runFile_waitOps_some waits _, ?_⟩
  intro mid hmid hcompat
  obtain ⟨_, c, _, _, _, hlen, hclen⟩ := runFile_perm (waitOps waits) _ mid hmid
  have hq : mid.pInode.waitQueue.length ≤ changes.length := by
    simp only [startRun, List.length_nil, Nat.zero_add, waitOps, List.length_map] at hlen hclen
    omega
  obtain ⟨fin, hfin, hempty, hcr⟩ := runFile_changeOps_empties changes mid hcompat hq
  have hall : runFile (startRun eFileLock nShared) (waitOps waits ++ changeOps changes)
      = some fin := by
    rw [runFile_append, hmid]
    exact hfin
  have hperm := runFile_start_perm eFileLock nShared _ fin hall
  rw [hempty, List.append_nil, hcr] at hperm
  obtain ⟨c', hc', hsub⟩ := runFile_waitOps_created waits _ mid hmid
  refine ⟨fin, hfin, hempty, hcr, ?_, hperm, ?_⟩
  · simp only [startRun, List.nil_append] at hc'
    rw [hc']
    exact hsub
  · intro hnd r hr
    rw [hperm.count_eq]
    exact List.count_eq_one_of_mem hnd hr

/-- C12 (amended), at a concrete run: threads 1 and 2 wait for `SHARED` on a
resource held at `EXCLUSIVE`; the resource is unlocked twice; both records are
signalled, each once, and the queue is empty. -/
theorem C12_no_lost_wakeups_witness :
    ∃ mid fin, runFile (startRun EXCLUSIVE_LOCK 1) (waitOps twoSharedCalls) = some mid
      ∧ runFile mid (changeOps [unlockChange, unlockChange]) = some fin
      ∧ WCDBInodeGetWaitQueue fin.pInode = []
      ∧ fin.woken.Perm [newWaitInfo (threadEnv 1) 1 SHARED_LOCK SQLITE_WAIT_SHARED,
                        newWaitInfo (threadEnv 2) 2 SHARED_LOCK SQLITE_WAIT_SHARED] := by
  have h1 : runFile (startRun EXCLUSIVE_LOCK 1) (waitOps twoSharedCalls)
      = some ⟨⟨EXCLUSIVE_LOCK, 1,
                [newWaitInfo (threadEnv 1) 1 SHARED_LOCK SQLITE_WAIT_SHARED,
                 newWaitInfo (threadEnv 2) 2 SHARED_LOCK SQLITE_WAIT_SHARED]⟩,
              [],
              [newWaitInfo (threadEnv 1) 1 SHARED_LOCK SQLITE_WAIT_SHARED,
               newWaitInfo (threadEnv 2) 2 SHARED_LOCK SQLITE_WAIT_SHARED]⟩ := by
    decide
  have hcompat : compatibleChanges
      ⟨⟨EXCLUSIVE_LOCK, 1,
                [newWaitInfo (threadEnv 1) 1 SHARED_LOCK SQLITE_WAIT_SHARED,
                 newWaitInfo (threadEnv 2) 2 SHARED_LOCK SQLITE_WAIT_SHARED]⟩,
              [],
              [newWaitInfo (threadEnv 1) 1 SHARED_LOCK SQLITE_WAIT_SHARED,
               newWaitInfo (threadEnv 2) 2 SHARED_LOCK SQLITE_WAIT_SHARED]⟩
      [unlockChange, unlockChange] := by
    refine ⟨fun front hf => ?_, fun st' hst' => ?_⟩
    · simp only [sqlite3QueueFront, WCDBInodeGetWaitQueue, List.head?,
        Option.some.injEq] at hf
      subst hf
      decide
    · have e : st' = ⟨⟨NO_LOCK, 0, []⟩,
          [newWaitInfo (threadEnv 1) 1 SHARED_LOCK SQLITE_WAIT_SHARED,
           newWaitInfo (threadEnv 2) 2 SHARED_LOCK SQLITE_WAIT_SHARED],
          [newWaitInfo (threadEnv 1) 1 SHARED_LOCK SQLITE_WAIT_SHARED,
           newWaitInfo (threadEnv 2) 2 SHARED_LOCK SQLITE_WAIT_SHARED]⟩ := by
        have h : runFile
            ⟨⟨EXCLUSIVE_LOCK, 1,
                [newWaitInfo (threadEnv 1) 1 SHARED_LOCK SQLITE_WAIT_SHARED,
                 newWaitInfo (threadEnv 2) 2 SHARED_LOCK SQLITE_WAIT_SHARED]⟩,
              [],
              [newWaitInfo (threadEnv 1) 1 SHARED_LOCK SQLITE_WAIT_SHARED,
               newWaitInfo (threadEnv 2) 2 SHARED_LOCK SQLITE_WAIT_SHARED]⟩
            [FileOp.setLock unlockChange.eFileLock unlockChange.nShared,
             FileOp.trySignal unlockChange.files]
            = some ⟨⟨NO_LOCK, 0, []⟩,
                [newWaitInfo (threadEnv 1) 1 SHARED_LOCK SQLITE_WAIT_SHARED,
                 newWaitInfo (threadEnv 2) 2 SHARED_LOCK SQLITE_WAIT_SHARED],
                [newWaitInfo (threadEnv 1) 1 SHARED_LOCK SQLITE_WAIT_SHARED,
                 newWaitInfo (threadEnv 2) 2 SHARED_LOCK SQLITE_WAIT_SHARED]⟩ := by
          decide
        rw [h] at hst'
        exact (Option.some.inj hst').symm
      rw [e]
      refine ⟨fun front hf => ?_, fun st'' _ => trivial⟩
      simp [sqlite3QueueFront, WCDBInodeGetWaitQueue] at hf
  obtain ⟨fin, hfin, hempty, _, _, hperm, _⟩ :=
    (C12_no_lost_wakeups EXCLUSIVE_LOCK 1 twoSharedCalls [unlockChange, unlockChange] rfl).2
      _ h1 hcompat
  exact ⟨_, fin, h1, hfin, hempty, hperm⟩

/-! ## The claims on the provider registry -/

/-- C16: provider selection by name with fallback.  In every registry state and
every context with no provider selected, `select_provider` with a registered
name selects the stored provider of an entry carrying exactly that name, and
with a name that is not registered, or with no name, it selects the fallback
provider.  After any sequence of calls from the empty list the entry is
unique: every entry is what its own name selects.  And the provider selected is
the one the latest successful `sqlcipher_register_custom_provider` stored for
the name (its argument, null functions taken from the fallback): after a
successful registration of the name, and any later calls about other names, the
name selects that provider. -/
theorem C16_select_by_name_with_fallback (fallback_provider : sqlcipher_provider)
    (ctx_init : sqlcipher_provider → Int × Nat) (ctx : custom_ctx) (hctx : ctx.p = none) :
    (∀ (R : ProviderRegistry),
        (∀ name, isRegistered R name →
          ∃ np ∈ R.custom_providers, np.name = name
            ∧ (select_provider fallback_provider ctx_init R ctx (some name)).2.p = some np.p)
        ∧ (∀ name, ¬ isRegistered R name →
            (select_provider fallback_provider ctx_init R ctx (some name)).2.p
              = some fallback_provider)
        ∧ (select_provider fallback_provider ctx_init R ctx none).2.p
              = some fallback_provider)
    ∧ (∀ (ops : List RegistryOp),
        ∀ np ∈ (runRegistry fallback_provider emptyRegistry ops).custom_providers,
          (select_provider fallback_provider ctx_init
              (runRegistry fallback_provider emptyRegistry ops) ctx (some np.name)).2.p
            = some np.p)
    ∧ (∀ (ops ops' : List RegistryOp) (reallocOk mallocOk : Bool) (name : String)
        (p : sqlcipher_provider),
        (sqlcipher_register_custom_provider fallback_provider reallocOk mallocOk
            (runRegistry fallback_provider emptyRegistry ops) name p).1 = SQLITE_OK →
        (∀ op ∈ ops', registryOpName op ≠ name) →
        (select_provider fallback_provider ctx_init
            (runRegistry fallback_provider
              (sqlcipher_register_custom_provider fallback_provider reallocOk mallocOk
                (runRegistry fallback_provider emptyRegistry ops) name p).2 ops')
            ctx (some name)).2.p
          = some (provider_overload fallback_provider p)) := by
  have hempty : (emptyRegistry.custom_providers.map (fun np => np.name)).Nodup
      ∧ custom_providers_count emptyRegistry ≤ emptyRegistry.custom_providers_capacity :=
    ⟨List.nodup_nil, Nat.le_refl _⟩
  refine ⟨fun R => ⟨?_, ?_, ?_⟩, ?_, ?_⟩
  · rintro name ⟨np, hnp, hn⟩
    cases h : select_provider_loop name R.custom_providers with
    | none =>
      exact absurd hn ((select_provider_loop_eq_none_iff name _).mp h np hnp)
    | some q =>
      obtain ⟨np', hnp', hn', hq⟩ := select_provider_loop_some_mem name q _ h
      exact ⟨np', hnp', hn',
        by rw [hq]; exact (select_provider_p fallback_provider ctx_init R ctx hctx).1 name q h⟩
  · intro name hno
    apply (select_provider_p fallback_provider ctx_init R ctx hctx).2.1
    exact (select_provider_loop_eq_none_iff name _).mpr
      (fun np hnp hn => hno ⟨np, hnp, hn⟩)
  · exact (select_provider_p fallback_provider ctx_init R ctx hctx).2.2
  · intro ops np hnp
    have hinv := runRegistry_inv fallback_provider ops emptyRegistry hempty.1 hempty.2
    exact (select_provider_p fallback_provider ctx_init _ ctx hctx).1 np.name np.p
      (select_provider_loop_of_mem np.name _ hinv.1 np hnp rfl)
  · intro ops ops' reallocOk mallocOk name p hok hother
    have hinv := runRegistry_inv fallback_provider ops emptyRegistry hempty.1 hempty.2
    have hinv1 := stepRegistry_inv fallback_provider _
      (RegistryOp.register reallocOk mallocOk name p) hinv.1 hinv.2
    simp only [stepRegistry] at hinv1
    apply (select_provider_p fallback_provider ctx_init _ ctx hctx).1
    rw [runRegistry_other fallback_provider name ops' _ hinv1.1 hinv1.2 hother]
    rcases sqlcipher_register_custom_provider_list fallback_provider reallocOk mallocOk
        (runRegistry fallback_provider emptyRegistry ops) name p with
      ⟨_, _, hl⟩ | ⟨hbad, _, _⟩
    · rw [hl]
      by_cases hf : find_existing name
          (runRegistry fallback_provider emptyRegistry ops).custom_providers
            < custom_providers_count (runRegistry fallback_provider emptyRegistry ops)
      · rw [if_pos hf]
        exact (select_provider_loop_set name _ _ hf).1
      · rw [if_neg hf]
        exact (select_provider_loop_append name _ _ hf).1
    · rw [hbad] at hok
      exact absurd hok (by decide)

/-- C16, at a concrete registry: `a`, `b` and `c` are registered, `a` is
registered again and `b` removed.  The name `a` selects what its second
registration stored, `b` and a name never registered select the fallback, and
so does a selection with no name. -/
theorem C16_select_by_name_with_fallback_witness :
    (select_provider fallbackEx ctxInitEx
        (runRegistry fallbackEx emptyRegistry registryOpsEx) freshCtx (some "a")).2.p
      = some (provider_overload fallbackEx { slots := [4, 5, 0] })
    ∧ (select_provider fallbackEx ctxInitEx
        (runRegistry fallbackEx emptyRegistry registryOpsEx) freshCtx (some "b")).2.p
      = some fallbackEx
    ∧ (select_provider fallbackEx ctxInitEx
        (runRegistry fallbackEx emptyRegistry registryOpsEx) freshCtx (some "zz")).2.p
      = some fallbackEx
    ∧ (select_provider fallbackEx ctxInitEx
        (runRegistry fallbackEx emptyRegistry registryOpsEx) freshCtx none).2.p
      = some fallbackEx :=
  ⟨(C16_select_by_name_with_fallback fallbackEx ctxInitEx freshCtx rfl).2.2
      [RegistryOp.register true true "a" { slots := [1, 0, 0] },
       RegistryOp.register true true "b" { slots := [2, 0, 0] },
       RegistryOp.register true true "c" { slots := [3, 0, 0] }]
      [RegistryOp.unregister "b"] true true "a" { slots := [4, 5, 0] }
      (by decide) (by decide),
   ((C16_select_by_name_with_fallback fallbackEx ctxInitEx freshCtx rfl).1
      (runRegistry fallbackEx emptyRegistry registryOpsEx)).2.1 "b"
      (by
        rintro ⟨np, hnp, hn⟩
        have hl : (runRegistry fallbackEx emptyRegistry registryOpsEx).custom_providers
            = [⟨⟨[4, 5, 103]⟩, "a"⟩, ⟨⟨[3, 102, 103]⟩, "c"⟩] := by decide
        rw [hl] at hnp
        simp only [List.mem_cons, List.mem_singleton, List.not_mem_nil, or_false] at hnp
        rcases hnp with h | h <;> (rw [h] at hn; exact absurd hn (by decide))),
   ((C16_select_by_name_with_fallback fallbackEx ctxInitEx freshCtx rfl).1
      (runRegistry fallbackEx emptyRegistry registryOpsEx)).2.1 "zz"
      (by
        rintro ⟨np, hnp, hn⟩
        have hl : (runRegistry fallbackEx emptyRegistry registryOpsEx).custom_providers
            = [⟨⟨[4, 5, 103]⟩, "a"⟩, ⟨⟨[3, 102, 103]⟩, "c"⟩] := by decide
        rw [hl] at hnp
        simp only [List.mem_cons, List.mem_singleton, List.not_mem_nil, or_false] at hnp
        rcases hnp with h | h <;> (rw [h] at hn; exact absurd hn (by decide))),
   ((C16_select_by_name_with_fallback fallbackEx ctxInitEx freshCtx rfl).1
      (runRegistry fallbackEx emptyRegistry registryOpsEx)).2.2⟩

/-- C18: registry names stay unique.  After any sequence of
`sqlcipher_register_custom_provider` and `sqlcipher_unregister_custom_provider`
calls from the empty list, no two entries of the list have the same name and
the count does not exceed the capacity.  A registration that returns `SQLITE_OK`
for a name that is registered replaces the entry of that name in place (same
slot, every other slot untouched) and leaves the count unchanged; for a name
that is not registered it appends one entry, so the count grows by exactly
one. -/
theorem C18_registry_names_stay_unique (fallback_provider : sqlcipher_provider)
    (ops : List RegistryOp) :
    ((runRegistry fallback_provider emptyRegistry ops).custom_providers.map
        (fun np => np.name)).Nodup
    ∧ custom_providers_count (runRegistry fallback_provider emptyRegistry ops)
        ≤ (runRegistry fallback_provider emptyRegistry ops).custom_providers_capacity
    ∧ (∀ (reallocOk mallocOk : Bool) (name : String) (p : sqlcipher_provider),
        (sqlcipher_register_custom_provider fallback_provider reallocOk mallocOk
            (runRegistry fallback_provider emptyRegistry ops) name p).1 = SQLITE_OK →
        (isRegistered (runRegistry fallback_provider emptyRegistry ops) name →
          custom_providers_count
              (sqlcipher_register_custom_provider fallback_provider reallocOk mallocOk
                (runRegistry fallback_provider emptyRegistry ops) name p).2
            = custom_providers_count (runRegistry fallback_provider emptyRegistry ops)
          ∧ ∃ i old, (runRegistry fallback_provider emptyRegistry ops).custom_providers[i]?
                = some old
              ∧ old.name = name
              ∧ (sqlcipher_register_custom_provider fallback_provider reallocOk mallocOk
                  (runRegistry fallback_provider emptyRegistry ops) name p).2.custom_providers
                = (runRegistry fallback_provider emptyRegistry ops).custom_providers.set i
                    { p := provider_overload fallback_provider p, name := name })
        ∧ (¬ isRegistered (runRegistry fallback_provider emptyRegistry ops) name →
          custom_providers_count
              (sqlcipher_register_custom_provider fallback_provider reallocOk mallocOk
                (runRegistry fallback_provider emptyRegistry ops) name p).2
            = custom_providers_count (runRegistry fallback_provider emptyRegistry ops) + 1
          ∧ (sqlcipher_register_custom_provider fallback_provider reallocOk mallocOk
                (runRegistry fallback_provider emptyRegistry ops) name p).2.custom_providers
              = (runRegistry fallback_provider emptyRegistry ops).custom_providers
                  ++ [{ p := provider_overload fallback_provider p, name := name }])) := by
  have hinv := runRegistry_inv fallback_provider ops emptyRegistry List.nodup_nil
    (Nat.le_refl _)
  refine ⟨hinv.1, hinv.2, ?_⟩
  intro reallocOk mallocOk name p hok
  generalize runRegistry fallback_provider emptyRegistry ops = R at hok hinv ⊢
  rcases sqlcipher_register_custom_provider_list fallback_provider reallocOk mallocOk R
      name p with ⟨_, _, hl⟩ | ⟨hbad, _, _⟩
  · constructor
    · intro hreg
      have hf : find_existing name R.custom_providers < custom_providers_count R :=
        (find_existing_lt_iff name R.custom_providers).mpr hreg
      rw [if_pos hf] at hl
      refine ⟨by simp [custom_providers_count, hl], ?_⟩
      obtain ⟨old, hold, hn⟩ := find_existing_getElem name R.custom_providers hf
      exact ⟨_, old, hold, hn, hl⟩
    · intro hreg
      have hf : ¬ find_existing name R.custom_providers < custom_providers_count R :=
        fun h => hreg ((find_existing_lt_iff name R.custom_providers).mp h)
      rw [if_neg hf] at hl
      exact ⟨by simp [custom_providers_count, hl], hl⟩
  · rw [hbad] at hok
    exact absurd hok (by decide)

/-- C18, at a concrete registry holding `a` and `c`: registering `a` again keeps
the count at 2; registering `d` appends one entry and makes the count 3. -/
theorem C18_registry_names_stay_unique_witness :
    custom_providers_count (runRegistry fallbackEx emptyRegistry registryOpsEx) = 2
    ∧ custom_providers_count
        (sqlcipher_register_custom_provider fallbackEx true true
          (runRegistry fallbackEx emptyRegistry registryOpsEx) "a" { slots := [7, 8, 9] }).2
      = custom_providers_count (runRegistry fallbackEx emptyRegistry registryOpsEx)
    ∧ custom_providers_count
        (sqlcipher_register_custom_provider fallbackEx true true
          (runRegistry fallbackEx emptyRegistry registryOpsEx) "d" { slots := [7, 8, 9] }).2
      = custom_providers_count (runRegistry fallbackEx emptyRegistry registryOpsEx) + 1
    ∧ (sqlcipher_register_custom_provider fallbackEx true true
          (runRegistry fallbackEx emptyRegistry registryOpsEx) "d"
          { slots := [7, 8, 9] }).2.custom_providers
      = (runRegistry fallbackEx emptyRegistry registryOpsEx).custom_providers
          ++ [{ p := provider_overload fallbackEx { slots := [7, 8, 9] }, name := "d" }] :=
  ⟨by decide,
   (((C18_registry_names_stay_unique fallbackEx registryOpsEx).2.2 true true "a"
      { slots := [7, 8, 9] } (by decide)).1
      ⟨⟨⟨[4, 5, 103]⟩, "a"⟩, by decide, rfl⟩).1,
   ((C18_registry_names_stay_unique fallbackEx registryOpsEx).2.2 true true "d"
      { slots := [7, 8, 9] } (by decide)).2
      (by
        rintro ⟨np, hnp, hn⟩
        have hl : (runRegistry fallbackEx emptyRegistry registryOpsEx).custom_providers
            = [⟨⟨[4, 5, 103]⟩, "a"⟩, ⟨⟨[3, 102, 103]⟩, "c"⟩] := by decide
        rw [hl] at hnp
        simp only [List.mem_cons, List.mem_singleton, List.not_mem_nil, or_false] at hnp
        rcases hnp with h | h <;> (rw [h] at hn; exact absurd hn (by decide)))⟩

/-- C19: `sqlcipher_unregister_custom_provider` removes only the name given.  It
returns `SQLITE_OK` in every registry state, and leaves the registry unchanged
when the name is not registered.  After any sequence of calls from the empty
list, when the name is registered, the count drops by exactly one, the capacity
is unchanged, the name is no longer registered and a selection by it gets the
fallback provider, and every other name selects the same provider as before.
The list order may change: the last entry takes the freed slot. -/
theorem C19_unregister_removes_only_that_name (fallback_provider : sqlcipher_provider)
    (ctx_init : sqlcipher_provider → Int × Nat) (ctx : custom_ctx) (hctx : ctx.p = none)
    (name : String) :
    (∀ (R : ProviderRegistry),
        (sqlcipher_unregister_custom_provider R name).1 = SQLITE_OK
        ∧ (¬ isRegistered R name → (sqlcipher_unregister_custom_provider R name).2 = R))
    ∧ (∀ (ops : List RegistryOp),
        isRegistered (runRegistry fallback_provider emptyRegistry ops) name →
        custom_providers_count
            (sqlcipher_unregister_custom_provider
              (runRegistry fallback_provider emptyRegistry ops) name).2 + 1
          = custom_providers_count (runRegistry fallback_provider emptyRegistry ops)
        ∧ (sqlcipher_unregister_custom_provider
              (runRegistry fallback_provider emptyRegistry ops) name).2.custom_providers_capacity
          = (runRegistry fallback_provider emptyRegistry ops).custom_providers_capacity
        ∧ ¬ isRegistered
            (sqlcipher_unregister_custom_provider
              (runRegistry fallback_provider emptyRegistry ops) name).2 name
        ∧ (select_provider fallback_provider ctx_init
            (sqlcipher_unregister_custom_provider
              (runRegistry fallback_provider emptyRegistry ops) name).2
            ctx (some name)).2.p = some fallback_provider
        ∧ (∀ other, other ≠ name →
            (select_provider fallback_provider ctx_init
                (sqlcipher_unregister_custom_provider
                  (runRegistry fallback_provider emptyRegistry ops) name).2
                ctx (some other)).2.p
              = (select_provider fallback_provider ctx_init
                  (runRegistry fallback_provider emptyRegistry ops) ctx (some other)).2.p)
        ∧ (∀ other, other ≠ name →
            (isRegistered
                (sqlcipher_unregister_custom_provider
                  (runRegistry fallback_provider emptyRegistry ops) name).2 other
              ↔ isRegistered (runRegistry fallback_provider emptyRegistry ops) other))) := by
  have hsel : ∀ (R R' : ProviderRegistry) (nm : String),
      select_provider_loop nm R'.custom_providers = select_provider_loop nm R.custom_providers →
      (select_provider fallback_provider ctx_init R' ctx (some nm)).2.p
        = (select_provider fallback_provider ctx_init R ctx (some nm)).2.p := by
    intro R R' nm h
    simp [select_provider, hctx, h]
  have hreg : ∀ (R : ProviderRegistry) (nm : String),
      isRegistered R nm ↔ select_provider_loop nm R.custom_providers ≠ none := by
    intro R nm
    rw [Ne, select_provider_loop_eq_none_iff]
    constructor
    · rintro ⟨np, hnp, hn⟩ hall
      exact hall np hnp hn
    · intro h
      by_contra hno
      exact h (fun np hnp hn => hno ⟨np, hnp, hn⟩)
  constructor
  · intro R
    constructor
    · simp only [sqlcipher_unregister_custom_provider]
      split <;> rfl
    · intro hno
      have hf : ¬ find_existing name R.custom_providers < custom_providers_count R :=
        fun h => hno ((find_existing_lt_iff name R.custom_providers).mp h)
      simp only [sqlcipher_unregister_custom_provider, if_neg hf]
  · intro ops hyes
    have hinv := runRegistry_inv fallback_provider ops emptyRegistry List.nodup_nil
      (Nat.le_refl _)
    generalize runRegistry fallback_provider emptyRegistry ops = R at hyes hinv ⊢
    have hf : find_existing name R.custom_providers < custom_providers_count R :=
      (find_existing_lt_iff name R.custom_providers).mpr hyes
    obtain ⟨_, hlen, hnone, hother⟩ :=
      swap_remove_find_existing name R.custom_providers hinv.1 hf
    have hres : (sqlcipher_unregister_custom_provider R name).2
        = { R with custom_providers :=
              swap_remove (find_existing name R.custom_providers) R.custom_providers } := by
      simp only [sqlcipher_unregister_custom_provider, if_pos hf]
    rw [hres]
    refine ⟨hlen, rfl, ?_, ?_, ?_, ?_⟩
    · rw [hreg]
      exact fun h => h hnone
    · exact (select_provider_p fallback_provider ctx_init _ ctx hctx).2.1 name hnone
    · intro other ho
      exact hsel _ _ other (hother other ho)
    · intro other ho
      rw [hreg, hreg]
      simp only [hother other ho]

/-- C19, at a concrete registry holding `a`, `b` and `c`: removing `a` makes `a`
select the fallback, leaves what `b` and `c` select, and moves the last entry,
`c`, into the freed slot. -/
theorem C19_unregister_removes_only_that_name_witness :
    (select_provider fallbackEx ctxInitEx
        (sqlcipher_unregister_custom_provider
          (runRegistry fallbackEx emptyRegistry (registryOpsEx.take 3)) "a").2
        freshCtx (some "a")).2.p = some fallbackEx
    ∧ (select_provider fallbackEx ctxInitEx
        (sqlcipher_unregister_custom_provider
          (runRegistry fallbackEx emptyRegistry (registryOpsEx.take 3)) "a").2
        freshCtx (some "c")).2.p
      = (select_provider fallbackEx ctxInitEx
          (runRegistry fallbackEx emptyRegistry (registryOpsEx.take 3))
          freshCtx (some "c")).2.p
    ∧ (sqlcipher_unregister_custom_provider
          (runRegistry fallbackEx emptyRegistry (registryOpsEx.take 3)) "a").2.custom_providers
      = [⟨⟨[3, 102, 103]⟩, "c"⟩, ⟨⟨[2, 102, 103]⟩, "b"⟩] :=
  ⟨((C19_unregister_removes_only_that_name fallbackEx ctxInitEx freshCtx rfl "a").2
      (registryOpsEx.take 3) ⟨⟨⟨[1, 102, 103]⟩, "a"⟩, by decide, rfl⟩).2.2.2.1,
   ((C19_unregister_removes_only_that_name fallbackEx ctxInitEx freshCtx rfl "a").2
      (registryOpsEx.take 3) ⟨⟨⟨[1, 102, 103]⟩, "a"⟩, by decide, rfl⟩).2.2.2.2.1 "c"
      (by decide),
   by decide⟩

/-! ## The claim on shared requests in `WCDBShmWait` -/

/-- C21: in `WCDBShmWait` only `EXCLUSIVE` requests can cause the short-circuit.
A call that returns without blocking found a front record, and the flag of that
record or the caller's flag is `SQLITE_SHM_EXCLUSIVE`.  When the front record's
flag and the caller's flag are both `SQLITE_SHM_SHARED`, then for every region
mask of either and every held exclusive-mask and shared-mask of either
connection the call returns whenever the record is allocated, and every call
that returns has enqueued the caller (at the front for the primary thread, at
the back otherwise), has signalled nobody, and has blocked. -/
theorem C21_only_exclusive_requests_preempt (files : Nat → unixFile) (env : WaitEnv)
    (pShmNode : unixShmNode) (pFile : Nat) (oMask eFlag : Int) :
    (∀ res, WCDBShmWait files env pShmNode pFile oMask eFlag = some res →
        res.blocked = false →
        ∃ front rest, WCDBShmNodeGetWaitQueue pShmNode = front :: rest
          ∧ (front.eFlag = SQLITE_SHM_EXCLUSIVE ∨ eFlag = SQLITE_SHM_EXCLUSIVE))
    ∧ (∀ front rest, WCDBShmNodeGetWaitQueue pShmNode = front :: rest →
        front.eFlag = SQLITE_SHM_SHARED → eFlag = SQLITE_SHM_SHARED →
        (env.mallocOk = true →
          ∃ res, WCDBShmWait files env pShmNode pFile oMask eFlag = some res)
        ∧ (∀ res, WCDBShmWait files env pShmNode pFile oMask eFlag = some res →
            res.blocked = true ∧ res.woken = []
            ∧ (env.isMain = true → WCDBShmNodeGetWaitQueue res.pShmNode
                = newShmWaitInfo env pFile oMask eFlag :: front :: rest)
            ∧ (env.isMain = false → WCDBShmNodeGetWaitQueue res.pShmNode
                = front :: rest ++ [newShmWaitInfo env pFile oMask eFlag]))) := by
  have hne : ¬ (SQLITE_SHM_SHARED = SQLITE_SHM_EXCLUSIVE) := by decide
  constructor
  · intro res hres hb
    cases hq : pShmNode.waitQueue with
    | nil =>
      rw [WCDBShmWait_nil files env pShmNode pFile oMask eFlag hq] at hres
      split at hres
      · simp only [Option.some.injEq] at hres
        subst hres
        simp at hb
      · simp at hres
    | cons front rest =>
      refine ⟨front, rest, hq, ?_⟩
      by_contra hno
      have hf : ¬ front.eFlag = SQLITE_SHM_EXCLUSIVE := fun h => hno (Or.inl h)
      have he : ¬ eFlag = SQLITE_SHM_EXCLUSIVE := fun h => hno (Or.inr h)
      rw [WCDBShmWait_cons files env pShmNode pFile oMask eFlag front rest hq,
        if_neg (by simp [hf, he])] at hres
      split at hres
      · simp only [Option.some.injEq] at hres
        subst hres
        simp at hb
      · simp at hres
  · intro front rest hq hf he
    have hc : ¬ ((front.eFlag = SQLITE_SHM_EXCLUSIVE
            ∧ (maskAnd (WCDBShmGetExclMask (WCDBFileGetShm files pFile)) front.oMask ≠ 0
                ∨ maskAnd (WCDBShmGetSharedMask (WCDBFileGetShm files pFile))
                    front.oMask ≠ 0))
          ∨ (eFlag = SQLITE_SHM_EXCLUSIVE
            ∧ (maskAnd (WCDBShmGetExclMask (WCDBFileGetShm files front.pFile)) oMask ≠ 0
                ∨ maskAnd (WCDBShmGetSharedMask (WCDBFileGetShm files front.pFile))
                    oMask ≠ 0))) := by
      rw [hf, he]
      rintro (⟨h, _⟩ | ⟨h, _⟩) <;> exact hne h
    rw [WCDBShmWait_cons files env pShmNode pFile oMask eFlag front rest hq, if_neg hc]
    constructor
    · intro hm
      exact ⟨_, if_pos hm⟩
    · intro res hres
      split at hres
      · simp only [Option.some.injEq] at hres
        subst hres
        cases hmain : env.isMain <;> simp [WCDBShmNodeGetWaitQueue]
      · simp at hres

/-- C21, at the state the claim names: the front waiter waits to share region
2, which the caller's connection holds exclusively; the caller, asking for a
shared lock on region 5, is enqueued behind it and blocks; nobody is
signalled. -/
theorem C21_only_exclusive_requests_preempt_witness :
    WCDBShmGetExclMask (WCDBFileGetShm heldFiles 5) = sharedReq2.oMask
    ∧ ∃ res, WCDBShmWait heldFiles bgEnv sharedQueuedNode 5 32 SQLITE_SHM_SHARED = some res
      ∧ res.blocked = true ∧ res.woken = []
      ∧ WCDBShmNodeGetWaitQueue res.pShmNode
          = [sharedReq2, newShmWaitInfo bgEnv 5 32 SQLITE_SHM_SHARED] := by
  refine ⟨by decide, ?_⟩
  obtain ⟨res, hres⟩ :=
    ((C21_only_exclusive_requests_preempt heldFiles bgEnv sharedQueuedNode 5 32
      SQLITE_SHM_SHARED).2 sharedReq2 [] rfl rfl rfl).1 rfl
  obtain ⟨hb, hw, _, hq⟩ :=
    ((C21_only_exclusive_requests_preempt heldFiles bgEnv sharedQueuedNode 5 32
      SQLITE_SHM_SHARED).2 sharedReq2 [] rfl rfl rfl).2 res hres
  exact ⟨res, hres, hb, hw, hq rfl⟩

/-! ## The claim on sticky provider selection -/

/-- C22: provider selection is sticky per context.  On a context with no
provider selected, the dispatching operations `sqlcipher_custom_get_cipher`,
`sqlcipher_custom_random`, `sqlcipher_custom_kdf` and
`sqlcipher_custom_get_key_sz` select with no name: they leave the fallback
provider selected, with the provider context its `ctx_init` stored.  On a
context that has a selected provider `p`, whatever the registry holds and
whatever `ctx_init` would return: every `select_provider` call, with any name or
none, returns `SQLITE_OK` and the context unchanged; `sqlcipher_custom_set_cipher`,
with any name (so also the name of a registered custom provider), returns what
the `set_cipher` of `p` returns on the unchanged provider context and leaves the
context unchanged; and so do the four dispatching operations. -/
theorem C22_provider_selection_is_sticky (fallback_provider : sqlcipher_provider)
    (fns : ProviderFns) (R : ProviderRegistry) :
    (∀ (ctx : custom_ctx), ctx.p = none →
        (∃ out, sqlcipher_custom_get_cipher fallback_provider fns R ctx = some out
          ∧ out.2 = { p := some fallback_provider,
                      p_ctx := (fns.ctx_init fallback_provider).2 })
        ∧ (∀ length, ∃ out,
            sqlcipher_custom_random fallback_provider fns R ctx length = some out
            ∧ out.2 = { p := some fallback_provider,
                        p_ctx := (fns.ctx_init fallback_provider).2 })
        ∧ (∀ pass salt workfactor key_sz, ∃ out,
            sqlcipher_custom_kdf fallback_provider fns R ctx pass salt workfactor key_sz
              = some out
            ∧ out.2 = { p := some fallback_provider,
                        p_ctx := (fns.ctx_init fallback_provider).2 })
        ∧ (∃ out, sqlcipher_custom_get_key_sz fallback_provider fns R ctx = some out
          ∧ out.2 = { p := some fallback_provider,
                      p_ctx := (fns.ctx_init fallback_provider).2 }))
    ∧ (∀ (ctx : custom_ctx) (p : sqlcipher_provider), ctx.p = some p →
        (∀ (ctx_init : sqlcipher_provider → Int × Nat) (R' : ProviderRegistry)
            (name : Option String),
            select_provider fallback_provider ctx_init R' ctx name = (SQLITE_OK, ctx))
        ∧ (∀ (fns' : ProviderFns) (R' : ProviderRegistry) (name : Option String),
            sqlcipher_custom_set_cipher fallback_provider fns' R' ctx name
              = some (fns'.set_cipher p ctx.p_ctx name, ctx))
        ∧ (∀ (fns' : ProviderFns) (R' : ProviderRegistry),
            sqlcipher_custom_get_cipher fallback_provider fns' R' ctx
              = some (fns'.get_cipher p ctx.p_ctx, ctx))
        ∧ (∀ (fns' : ProviderFns) (R' : ProviderRegistry) (length : Int),
            sqlcipher_custom_random fallback_provider fns' R' ctx length
              = some (fns'.random p ctx.p_ctx length, ctx))
        ∧ (∀ (fns' : ProviderFns) (R' : ProviderRegistry) (pass salt : List Nat)
            (workfactor key_sz : Int),
            sqlcipher_custom_kdf fallback_provider fns' R' ctx pass salt workfactor key_sz
              = some (fns'.kdf p ctx.p_ctx pass salt workfactor key_sz, ctx))
        ∧ (∀ (fns' : ProviderFns) (R' : ProviderRegistry),
            sqlcipher_custom_get_key_sz fallback_provider fns' R' ctx
              = some (fns'.get_key_sz p ctx.p_ctx, ctx))) := by
  constructor
  · intro ctx hctx
    have hsel : select_provider fallback_provider fns.ctx_init R ctx none
        = ((fns.ctx_init fallback_provider).1,
           { p := some fallback_provider, p_ctx := (fns.ctx_init fallback_provider).2 }) := by
      simp [select_provider, hctx]
    refine ⟨?_, ?_, ?_, ?_⟩
    · by_cases hrc : (fns.ctx_init fallback_provider).1 = SQLITE_OK
      · exact ⟨(fns.get_cipher fallback_provider (fns.ctx_init fallback_provider).2, ⟨some fallback_provider, (fns.ctx_init fallback_provider).2⟩),
          by simp [sqlcipher_custom_get_cipher, hctx, hsel, hrc], rfl⟩
      · exact ⟨("", ⟨some fallback_provider, (fns.ctx_init fallback_provider).2⟩),
          by simp [sqlcipher_custom_get_cipher, hctx, hsel, hrc], rfl⟩
    · intro length
      by_cases hrc : (fns.ctx_init fallback_provider).1 = SQLITE_OK
      · exact ⟨(fns.random fallback_provider (fns.ctx_init fallback_provider).2 length, ⟨some fallback_provider, (fns.ctx_init fallback_provider).2⟩),
          by simp [sqlcipher_custom_random, hctx, hsel, hrc], rfl⟩
      · exact ⟨((fns.ctx_init fallback_provider).1, ⟨some fallback_provider, (fns.ctx_init fallback_provider).2⟩),
          by simp [sqlcipher_custom_random, hctx, hsel, hrc], rfl⟩
    · intro pass salt workfactor key_sz
      by_cases hrc : (fns.ctx_init fallback_provider).1 = SQLITE_OK
      · exact ⟨(fns.kdf fallback_provider (fns.ctx_init fallback_provider).2 pass salt workfactor key_sz, ⟨some fallback_provider, (fns.ctx_init fallback_provider).2⟩),
          by simp [sqlcipher_custom_kdf, hctx, hsel, hrc], rfl⟩
      · exact ⟨((fns.ctx_init fallback_provider).1, ⟨some fallback_provider, (fns.ctx_init fallback_provider).2⟩),
          by simp [sqlcipher_custom_kdf, hctx, hsel, hrc], rfl⟩
    · by_cases hrc : (fns.ctx_init fallback_provider).1 = SQLITE_OK
      · exact ⟨(fns.get_key_sz fallback_provider (fns.ctx_init fallback_provider).2, ⟨some fallback_provider, (fns.ctx_init fallback_provider).2⟩),
          by simp [sqlcipher_custom_get_key_sz, hctx, hsel, hrc], rfl⟩
      · exact ⟨(0, ⟨some fallback_provider, (fns.ctx_init fallback_provider).2⟩),
          by simp [sqlcipher_custom_get_key_sz, hctx, hsel, hrc], rfl⟩
  · intro ctx p hp
    refine ⟨?_, ?_, ?_, ?_, ?_, ?_⟩
    · intro ctx_init R' name
      simp [select_provider, hp]
    · intro fns' R' name
      simp [sqlcipher_custom_set_cipher, hp]
    · intro fns' R'
      simp [sqlcipher_custom_get_cipher, hp]
    · intro fns' R' length
      simp [sqlcipher_custom_random, hp]
    · intro fns' R' pass salt workfactor key_sz
      simp [sqlcipher_custom_kdf, hp]
    · intro fns' R'
      simp [sqlcipher_custom_get_key_sz, hp]

/-- C22, at a concrete context: `sqlcipher_custom_get_key_sz` on a fresh context
selects the fallback and stores the provider context 1.  A later
`sqlcipher_custom_set_cipher` with the name `a`, a registered custom provider,
and a later `select_provider` with that name leave the fallback selected and
the provider context 1, although `ctx_init` would now store 2; on a fresh
context the same name selects the custom provider. -/
theorem C22_provider_selection_is_sticky_witness :
    sqlcipher_custom_get_key_sz fallbackEx fnsEx emptyRegistry freshCtx
        = some (32, { p := some fallbackEx, p_ctx := 1 })
    ∧ isRegistered (runRegistry fallbackEx emptyRegistry registryOpsEx) "a"
    ∧ sqlcipher_custom_set_cipher fallbackEx fnsReinitEx
          (runRegistry fallbackEx emptyRegistry registryOpsEx)
          { p := some fallbackEx, p_ctx := 1 } (some "a")
        = some (SQLITE_OK, { p := some fallbackEx, p_ctx := 1 })
    ∧ select_provider fallbackEx fnsReinitEx.ctx_init
          (runRegistry fallbackEx emptyRegistry registryOpsEx)
          { p := some fallbackEx, p_ctx := 1 } (some "a")
        = (SQLITE_OK, { p := some fallbackEx, p_ctx := 1 })
    ∧ sqlcipher_custom_set_cipher fallbackEx fnsReinitEx
          (runRegistry fallbackEx emptyRegistry registryOpsEx) freshCtx (some "a")
        = some (SQLITE_OK, { p := some { slots := [4, 5, 103] }, p_ctx := 2 }) :=
  ⟨by decide,
   ⟨⟨⟨[4, 5, 103]⟩, "a"⟩, by decide, rfl⟩,
   ((C22_provider_selection_is_sticky fallbackEx fnsEx emptyRegistry).2
      { p := some fallbackEx, p_ctx := 1 } fallbackEx rfl).2.1 fnsReinitEx
      (runRegistry fallbackEx emptyRegistry registryOpsEx) (some "a"),
   ((C22_provider_selection_is_sticky fallbackEx fnsEx emptyRegistry).2
      { p := some fallbackEx, p_ctx := 1 } fallbackEx rfl).1 fnsReinitEx.ctx_init
      (runRegistry fallbackEx emptyRegistry registryOpsEx) (some "a"),
   by decide⟩

end WCDB
